import Mathlib

/-! Custom fields of the CRM backend.

A shallow embedding of `src/controllers/custom.js` and of `updateCustomer`, the change
history and their helpers in `src/controllers/customers.js`.

* The request values the controllers destructure are modelled by `JsVal`
  (a string, `null`, or `undefined` for an absent key); a `fieldId` is a number or absent.
* The MySQL connection returned by `connectDB` is modelled by `Session`: the committed
  database, the session's own view of it, the open-transaction flag, and the list of
  commands the server executed for this connection.
* `addCustomField` awaits its commands one after the other and is a plain state-passing
  function. `addCustomValues` starts all its callbacks at once (`customFields.map(async ...)`
  followed by `Promise.all`), so it is modelled by the connection's command queue: the
  driver executes the queued commands first-in first-out and every completed command runs
  the continuation that was waiting for it.
* The other controllers await their commands one after the other; what they leave behind
  is a `Handled`: the replies sent, the connections obtained and the error that escaped.
* The grouping of `getCustomersWithCustomFields` is the pure function `groupRows` on the
  rows of the join.
* A statement is a constructor of `Stmt`; `Stmt.text` is the text the source writes for it.
-/

namespace Crm

/-! ## Request values -/

/-- A value read from the parsed request body: a string, `null`, or `undefined` (key absent). -/
inductive JsVal where
  | undefined
  | null
  | str (s : String)
  deriving DecidableEq, Repr

/-- JavaScript truthiness: `!v` is `!v.truthy`. -/
def JsVal.truthy : JsVal → Bool
  | .str s => decide (s ≠ "")
  | _ => false

/-- String coercion, as done by a template literal and by `RegExp.prototype.test`. -/
def JsVal.toString : JsVal → String
  | .undefined => "undefined"
  | .null => "null"
  | .str s => s

/-- The value bound to a `?` placeholder: JS `null` is SQL `NULL`. -/
def JsVal.toSql : JsVal → Option String
  | .str s => some s
  | _ => none

/-- One element of `req.body.formFields`. -/
structure FieldSpec where
  fieldName : JsVal
  fieldType : JsVal
  dropdownOptions : Option (List String)
  deriving DecidableEq, Repr

/-- One element of `req.body.customFields`; `fieldId` is a number or absent. -/
structure ValueSpec where
  fieldId : Option Nat
  fieldValue : JsVal
  deriving DecidableEq, Repr

/-- What `res.status(status).json(...)` sends: the `message` and, on the failure path of
`addCustomField`, the `error` entry. -/
structure Response where
  status : Nat
  message : String
  error : Option String
  deriving DecidableEq, Repr

/-! ## The database -/

/-- A row of `custom_field`. -/
structure CustomFieldRow where
  field_name : Option String
  field_type : Option String
  dropdown_options : Option (List String)
  deriving DecidableEq, Repr

/-- A row of `custom_field_values`. -/
structure ValueRow where
  comp_unique_id : String
  field_id : Nat
  field_value : Option String
  deriving DecidableEq, Repr

/-- A row of `customers`: the columns the controllers name. -/
structure CustomerRow where
  id : Nat
  first_name : Option String
  last_name : Option String
  phone_no : Option String
  email_id : Option String
  date_of_birth : Option String
  address : Option String
  company_name : Option String
  company_unique_id : String
  contact_type : Option String
  source : Option String
  disposition : Option String
  agent_name : Option String
  date_created : Option String
  deriving DecidableEq, Repr

/-- A row of `updates_history`; `changed_at` is a point in time. -/
structure HistoryRow where
  com_unique_id : String
  field : Option String
  old_value : Option String
  new_value : Option String
  changed_at : Nat
  deriving DecidableEq, Repr

/-- The values bound to the `SET` clause of the `UPDATE customers` of `updateCustomer`. -/
structure CustomerUpdate where
  first_name : Option String
  last_name : Option String
  phone_no : Option String
  email_id : Option String
  date_of_birth : Option String
  address : Option String
  company_name : Option String
  contact_type : Option String
  source : Option String
  disposition : Option String
  agent_name : Option String
  deriving DecidableEq, Repr

/-- The tables the controllers touch. `columns` is what `information_schema.COLUMNS` lists
for `customers`: column name and column type. -/
structure Database where
  columns : List (String × String)
  custom_field : List CustomFieldRow
  custom_field_values : List ValueRow
  customers : List CustomerRow
  updates_history : List HistoryRow
  deriving DecidableEq, Repr

/-- The statements the controllers execute. -/
inductive Stmt where
  | selectColumn (columnName : String)
  | insertCustomField (fieldName fieldType : Option String) (options : Option (List String))
  | alterAddColumn (fieldName columnType : String)
  | selectCount (comp_unique_id : String) (fieldId : Nat)
  | insertOnDuplicate (comp_unique_id : String) (fieldId : Nat) (fieldValue : Option String)
  | selectValues (comp_unique_id : String) (fieldId : Nat)
  | updateValue (fieldValue : Option String) (comp_unique_id : String) (fieldId : Nat)
  | insertValue (comp_unique_id : String) (fieldId : Nat) (fieldValue : Option String)
  | selectCustomer (company_unique_id : String)
  | updateCustomer (values : CustomerUpdate) (company_unique_id : String)
  | insertHistory (row : HistoryRow)
  | selectHistory (com_unique_id : String)
  | updateValuesCase (whens : List (Nat × Option String)) (comp_unique_id : String)
      (fieldIds : List Nat)
  | selectJoined
  deriving DecidableEq, Repr

/-- The commands a connection receives. -/
inductive Cmd where
  | beginTransaction
  | commit
  | rollback
  | endConnection
  | execute (st : Stmt)
  deriving DecidableEq, Repr

/-- `WHERE comp_unique_id = ? AND field_id = ?`. -/
def ValueRow.hasKey (r : ValueRow) (comp_unique_id : String) (fieldId : Nat) : Bool :=
  decide (r.comp_unique_id = comp_unique_id) && decide (r.field_id = fieldId)

/-- `SELECT * FROM custom_field_values WHERE comp_unique_id = ? AND field_id = ?`. -/
def selectValues (t : List ValueRow) (comp_unique_id : String) (fieldId : Nat) : List ValueRow :=
  t.filter (fun r => r.hasKey comp_unique_id fieldId)

/-- `UPDATE custom_field_values SET field_value = ? WHERE comp_unique_id = ? AND field_id = ?`. -/
def updateValue (t : List ValueRow) (fieldValue : Option String) (comp_unique_id : String)
    (fieldId : Nat) : List ValueRow :=
  t.map (fun r => if r.hasKey comp_unique_id fieldId then
    { r with field_value := fieldValue } else r)

/-- Modelled from the spec: the table definitions are not part of the sources; the data model
makes `custom_field_values` unique per (entity key, field id), which is the key that
`INSERT ... ON DUPLICATE KEY UPDATE field_value = VALUES(field_value)` refers to: a row with
the key is overwritten, otherwise the row is added. -/
def insertOnDuplicate (t : List ValueRow) (comp_unique_id : String) (fieldId : Nat)
    (fieldValue : Option String) : List ValueRow :=
  if (selectValues t comp_unique_id fieldId).length > 0 then
    updateValue t fieldValue comp_unique_id fieldId
  else t ++ [⟨comp_unique_id, fieldId, fieldValue⟩]

/-- `UPDATE customers SET first_name = ?, ... WHERE company_unique_id = ?`. -/
def updateCustomerRows (t : List CustomerRow) (v : CustomerUpdate)
    (company_unique_id : String) : List CustomerRow :=
  t.map (fun c => if c.company_unique_id = company_unique_id then
    { c with first_name := v.first_name, last_name := v.last_name, phone_no := v.phone_no,
             email_id := v.email_id, date_of_birth := v.date_of_birth, address := v.address,
             company_name := v.company_name, contact_type := v.contact_type,
             source := v.source, disposition := v.disposition, agent_name := v.agent_name }
    else c)

/-- The value of `CASE WHEN field_id = ? THEN ? ... END` for a row: that of the first
matching `WHEN`, and `NULL` when there is none. -/
def caseValue (whens : List (Nat × Option String)) (fieldId : Nat) : Option String :=
  match whens.find? (fun w => w.1 == fieldId) with
  | some w => w.2
  | none => none

/-- `UPDATE custom_field_values SET field_value = CASE ... END
WHERE comp_unique_id = ? AND field_id IN (...)`. -/
def updateValuesCase (t : List ValueRow) (whens : List (Nat × Option String))
    (comp_unique_id : String) (fieldIds : List Nat) : List ValueRow :=
  t.map (fun r => if r.comp_unique_id = comp_unique_id ∧ r.field_id ∈ fieldIds then
    { r with field_value := caseValue whens r.field_id } else r)

/-- The effect of one statement on the database, or the error the server raises. A `SELECT`
leaves the database as it is; its rows are read off the session's view by the caller.
Modelled from the spec: the unique key of `custom_field_values` (see `insertOnDuplicate`)
makes a plain `INSERT` of a present key fail. Adding a column that exists fails. Names and
keys are compared as they are written (no case folding). -/
def Database.exec (db : Database) : Stmt → Except String Database
  | .selectColumn _ => .ok db
  | .insertCustomField n t o =>
      .ok { db with custom_field := db.custom_field ++ [⟨n, t, o⟩] }
  | .alterAddColumn n ty =>
      if db.columns.any (fun c => c.1 == n) then .error ("Duplicate column name '" ++ n ++ "'")
      else .ok { db with columns := db.columns ++ [(n, ty)] }
  | .selectCount _ _ => .ok db
  | .insertOnDuplicate k f v =>
      .ok { db with custom_field_values := insertOnDuplicate db.custom_field_values k f v }
  | .selectValues _ _ => .ok db
  | .updateValue v k f =>
      .ok { db with custom_field_values := updateValue db.custom_field_values v k f }
  | .insertValue k f v =>
      if (selectValues db.custom_field_values k f).length > 0 then
        .error "Duplicate entry for key 'custom_field_values'"
      else .ok { db with custom_field_values := db.custom_field_values ++ [⟨k, f, v⟩] }
  | .selectCustomer _ => .ok db
  | .updateCustomer v k => .ok { db with customers := updateCustomerRows db.customers v k }
  | .insertHistory row => .ok { db with updates_history := db.updates_history ++ [row] }
  | .selectHistory _ => .ok db
  | .updateValuesCase whens k ids =>
      .ok { db with
        custom_field_values := updateValuesCase db.custom_field_values whens k ids }
  | .selectJoined => .ok db

/-- `ALTER TABLE` is a data-definition statement. -/
def Stmt.isDDL : Stmt → Bool
  | .alterAddColumn _ _ => true
  | _ => false

/-! ## The connection

MySQL semantics of one session, with autocommit on (the server default; nothing in the
sources changes it):

* outside a transaction every statement is committed at once;
* `START TRANSACTION` (`beginTransaction`) suspends autocommit until `COMMIT` or `ROLLBACK`;
* a data-definition statement commits the open transaction implicitly before it runs and
  cannot be rolled back; the session is in autocommit mode afterwards;
* closing the connection discards what is uncommitted.

`faults` lists server-side failures by the position of the command in `log`: the command
at that position raises the given message and has no effect. -/
structure Session where
  durable : Database
  view : Database
  inTx : Bool
  closed : Bool
  log : List Cmd
  faults : List (Nat × String)
  deriving DecidableEq, Repr

/-- The failure injected for the next command, if any. -/
def Session.fault (s : Session) : Option String :=
  s.faults.lookup s.log.length

/-- The state change of a command the server accepts. -/
def Session.apply (s : Session) : Cmd → Option String × Session
  | .beginTransaction => (none, { s with durable := s.view, inTx := true })
  | .commit => (none, { s with durable := s.view, inTx := false })
  | .rollback => (none, { s with view := s.durable, inTx := false })
  | .endConnection => (none, { s with view := s.durable, inTx := false, closed := true })
  | .execute st =>
      if st.isDDL then
        match s.view.exec st with
        | .ok db => (none, { s with durable := db, view := db, inTx := false })
        | .error e => (some e, { s with durable := s.view, inTx := false })
      else
        match s.view.exec st with
        | .ok db =>
            (none, { s with view := db, durable := if s.inTx then s.durable else db })
        | .error e => (some e, s)

/-- Executes one command on the connection: the error raised, if any, and the session
afterwards. The command is appended to `log` in every case. -/
def Session.issue (s : Session) (c : Cmd) : Option String × Session :=
  if s.closed then
    (some "Can't add new command when connection is in closed state",
      { s with log := s.log ++ [c] })
  else
    match s.fault with
    | some e => (some e, { s with log := s.log ++ [c] })
    | none =>
        let r := s.apply c
        (r.1, { r.2 with log := s.log ++ [c] })

/-- The database server as a request finds it. -/
structure Server where
  db : Database
  connectError : Option String
  faults : List (Nat × String)
  deriving DecidableEq, Repr

/-- `connectDB`: a fresh connection, or the error of `mysql.createConnection` rethrown. -/
def connectDB (env : Server) : Except String Session :=
  match env.connectError with
  | some e => .error e
  | none => .ok ⟨env.db, env.db, false, false, [], env.faults⟩

/-! ## Registering custom fields (`custom.js`, lines 5-133) -/

/-- `columnExists`: `rows.length > 0` for the `information_schema.COLUMNS` query. -/
def columnExists (s : Session) (columnName : String) : Except String Bool × Session :=
  match s.issue (.execute (.selectColumn columnName)) with
  | (some e, s1) => (.error e, s1)
  | (none, s1) => (.ok (s1.view.columns.any (fun c => c.1 == columnName)), s1)

/-- One character of the class `[a-zA-Z0-9_ ]`. -/
def isColumnChar (c : Char) : Bool :=
  c.isAlphanum || c == '_' || c == ' '

/-- `isValidColumnName`: `/^[a-zA-Z0-9_ ]+$/.test(name)`. -/
def isValidColumnName (name : String) : Bool :=
  !name.data.isEmpty && name.data.all isColumnChar

/-- The `switch (fieldType)` of `addColumnToCustomers`; `none` is the `default` branch. -/
def columnTypeOf : JsVal → Option String
  | .str "text" => some "VARCHAR(255)"
  | .str "dropdown" => some "TEXT"
  | .str "dropdown_checkbox" => some "TEXT"
  | .str "datetime" => some "DATETIME"
  | _ => none

/-- The text of the statement `addColumnToCustomers` builds. -/
def alterTableQuery (fieldName columnType : String) : String :=
  "ALTER TABLE customers ADD COLUMN `" ++ fieldName ++ "` " ++ columnType

/-- `addColumnToCustomers`: the error thrown, if any, and the session afterwards. -/
def addColumnToCustomers (s : Session) (fieldName fieldType : JsVal) :
    Option String × Session :=
  if !isValidColumnName fieldName.toString then
    (some ("Invalid column name: " ++ fieldName.toString), s)
  else
    match columnTypeOf fieldType with
    | none => (some ("Unsupported field type: " ++ fieldType.toString), s)
    | some columnType => s.issue (.execute (.alterAddColumn fieldName.toString columnType))

/-- The list `validTypes` of `isValidFieldType`. -/
def validTypes : List JsVal := [.str "text", .str "dropdown", .str "datetime"]

/-- `isValidFieldType`: `validTypes.includes(fieldType)`. -/
def isValidFieldType (fieldType : JsVal) : Bool :=
  validTypes.contains fieldType

/-- `insertCustomField`. `options` is the serialised `dropdownOptions` when that is a
non-empty array and `null` otherwise; the array stands for its JSON text. -/
def insertCustomField (s : Session) (fieldName fieldType : JsVal)
    (dropdownOptions : Option (List String)) : Option String × Session :=
  let options : Option (List String) :=
    match dropdownOptions with
    | some (o :: os) => some (o :: os)
    | _ => none
  if fieldName = .undefined ∨ fieldType = .undefined then
    (some "One or more parameters are undefined", s)
  else
    s.issue (.execute (.insertCustomField fieldName.toSql fieldType.toSql options))

/-- How the body of a `try` block was left. -/
inductive Exit where
  | completed
  | returned (r : Response)
  | threw (message : String)
  deriving DecidableEq, Repr

/-- The body of the `for (const field of formFields)` loop of `addCustomField`. -/
def addCustomFieldEntry (s : Session) (field : FieldSpec) : Exit × Session :=
  if !field.fieldName.truthy then
    (.returned ⟨400, "Field name is required for all fields", none⟩, s)
  else if !isValidFieldType field.fieldType then
    (.returned ⟨400, "Invalid field type '" ++ field.fieldType.toString ++ "' provided.",
      none⟩, s)
  else
    match columnExists s field.fieldName.toString with
    | (.error e, s1) => (.threw e, s1)
    | (.ok true, s1) =>
        (.returned ⟨400, "Column '" ++ field.fieldName.toString ++
          "' already exists in customers table.", none⟩, s1)
    | (.ok false, s1) =>
        match insertCustomField s1 field.fieldName field.fieldType field.dropdownOptions with
        | (some e, s2) => (.threw e, s2)
        | (none, s2) =>
            match addColumnToCustomers s2 field.fieldName field.fieldType with
            | (some e, s3) => (.threw e, s3)
            | (none, s3) => (.completed, s3)

/-- The `for` loop of `addCustomField`: entries are processed in order until one returns
or throws. -/
def addCustomFieldLoop (s : Session) : List FieldSpec → Exit × Session
  | [] => (.completed, s)
  | field :: rest =>
      match addCustomFieldEntry s field with
      | (.completed, s1) => addCustomFieldLoop s1 rest
      | r => r

/-- What a request handler leaves behind: the responses sent, the connection it obtained
(in its final state) and the error that escaped the handler, if any. -/
structure Outcome where
  responses : List Response
  conn : Option Session
  uncaught : Option String
  deriving DecidableEq, Repr

/-- The `try` block of `addCustomField` after the connection was obtained. -/
def addCustomFieldTry (s0 : Session) (formFields : List FieldSpec) : Exit × Session :=
  match s0.issue .beginTransaction with
  | (some e, s1) => (.threw e, s1)
  | (none, s1) =>
      match addCustomFieldLoop s1 formFields with
      | (.completed, s2) =>
          match s2.issue .commit with
          | (some e, s3) => (.threw e, s3)
          | (none, s3) =>
              (.returned ⟨200, "Custom fields added and customers table updated successfully!",
                none⟩, s3)
      | r => r

/-- The `finally` block: `connection.end()`. -/
def finallyEnd (responses : List Response) (uncaught : Option String) (s : Session) : Outcome :=
  match s.issue .endConnection with
  | (some e, s1) => ⟨responses, some s1, some e⟩
  | (none, s1) => ⟨responses, some s1, uncaught⟩

/-- `addCustomField`. `formFields` is `none` when the body has no array under that key. -/
def addCustomField (env : Server) (formFields : Option (List FieldSpec)) : Outcome :=
  match formFields with
  | none => ⟨[⟨400, "Form fields are required", none⟩], none, none⟩
  | some [] => ⟨[⟨400, "Form fields are required", none⟩], none, none⟩
  | some fields =>
      match connectDB env with
      | .error e => ⟨[⟨500, "Failed to add custom fields", some e⟩], none, none⟩
      | .ok s0 =>
          match addCustomFieldTry s0 fields with
          | (.threw e, s) =>
              match s.issue .rollback with
              | (some e2, s1) => finallyEnd [] (some e2) s1
              | (none, s1) => finallyEnd [⟨500, "Failed to add custom fields", some e⟩] none s1
          | (.returned r, s) => finallyEnd [r] none s
          | (.completed, s) => finallyEnd [] none s

/-- The database as the next connection finds it after the request. -/
def Outcome.database (o : Outcome) (env : Server) : Database :=
  match o.conn with
  | some s => s.durable
  | none => env.db

/-! ## Writing custom field values -/

/-- The error `execute` throws before sending anything when a bound parameter is
`undefined`. -/
def bindError : String :=
  "Bind parameters must not contain undefined. To pass SQL NULL specify JS null"

/-- The body of the `for (const field of custom_fields)` loop of `updateCustomer`
(`customers.js`, lines 242-264): select the rows of the key, then update them or insert
a new row. -/
def updateCustomerField (s : Session) (company_unique_id : String) (field : ValueSpec) :
    Option String × Session :=
  match field.fieldId with
  | none => (some bindError, s)
  | some fieldId =>
      match s.issue (.execute (.selectValues company_unique_id fieldId)) with
      | (some e, s1) => (some e, s1)
      | (none, s1) =>
          if field.fieldValue = .undefined then (some bindError, s1)
          else if (selectValues s1.view.custom_field_values company_unique_id fieldId).length > 0
          then s1.issue (.execute (.updateValue field.fieldValue.toSql company_unique_id fieldId))
          else s1.issue (.execute (.insertValue company_unique_id fieldId field.fieldValue.toSql))

/-- The command `insertCustomValues` sends. -/
def insertCustomValuesCmd (comp_unique_id : String) (fieldId : Nat)
    (fieldValue : Option String) : Cmd :=
  .execute (.insertOnDuplicate comp_unique_id fieldId fieldValue)

/-- `insertCustomValues` (`custom.js`, lines 153-159), awaited on its own. -/
def insertCustomValues (s : Session) (comp_unique_id : String) (fieldId : Nat)
    (fieldValue : Option String) : Option String × Session :=
  s.issue (insertCustomValuesCmd comp_unique_id fieldId fieldValue)

/-- The command `checkCustomFieldExists` sends. -/
def checkCustomFieldExistsCmd (comp_unique_id : String) (fieldId : Nat) : Cmd :=
  .execute (.selectCount comp_unique_id fieldId)

/-- `COUNT(*)` of the rows of the key, as `checkCustomFieldExists` reads it:
`result[0].count > 0`. -/
def countPositive (db : Database) (comp_unique_id : String) (fieldId : Nat) : Bool :=
  decide ((selectValues db.custom_field_values comp_unique_id fieldId).length > 0)

/-! ### JSON text of a rejected entry -/

/-- One character inside a JSON string, escaped as `JSON.stringify` does. -/
def jsonEscapeChar (c : Char) : List Char :=
  if c = '"' then ['\\', '"']
  else if c = '\\' then ['\\', '\\']
  else if c = '\n' then ['\\', 'n']
  else if c = '\r' then ['\\', 'r']
  else if c = '\t' then ['\\', 't']
  else if c.toNat = 8 then ['\\', 'b']
  else if c.toNat = 12 then ['\\', 'f']
  else if c.toNat < 32 then
    ['\\', 'u', '0', '0', Nat.digitChar (c.toNat / 16), Nat.digitChar (c.toNat % 16)]
  else [c]

/-- `JSON.stringify` of a string. -/
def jsonString (s : String) : String :=
  "\"" ++ String.mk (s.data.flatMap jsonEscapeChar) ++ "\""

/-- `JSON.stringify(field)` for an entry whose keys come in the order `fieldId`,
`fieldValue`; a key whose value is `undefined` is left out. An entry of the model has these
two keys only: for a body that writes them in the other order, or with further keys, the
text has the keys as the body has them, which changes the message of a rejected entry and
nothing else. -/
def stringifyField (field : ValueSpec) : String :=
  let id : List String :=
    match field.fieldId with
    | some n => ["\"fieldId\":" ++ toString n]
    | none => []
  let value : List String :=
    match field.fieldValue with
    | .undefined => []
    | .null => ["\"fieldValue\":null"]
    | .str v => ["\"fieldValue\":" ++ jsonString v]
  "\x7b" ++ ",".intercalate (id ++ value) ++ "\x7d"

/-! ### The command queue of `addCustomValues`

`customFields.map(async (field) => ...)` runs every callback up to its first `await`
before `Promise.all` is awaited: a rejected entry throws at once, every other entry has
sent its `SELECT COUNT(*)`. The connection executes the commands it was given first-in
first-out, one at a time; when a command completes, the code waiting for it runs and may
send the next command, which goes to the back of the queue. -/

/-- The code that waits for a queued command. -/
inductive Waiting where
  | checkDone (fieldId : Nat) (fieldValue : Option String)
  | insertDone
  | commitDone
  | rollbackDone (message : String)
  | endDone
  deriving DecidableEq, Repr

/-- The state of one `addCustomValues` request. `pending` counts the callbacks that have
not settled; `settled` says that `await Promise.all(insertPromises)` has continued. -/
structure EventLoop where
  conn : Session
  queue : List (Cmd × Waiting)
  pending : Nat
  settled : Bool
  responses : List Response
  uncaught : Option String
  deriving DecidableEq, Repr

/-- A callback returns. When it was the last one, `Promise.all` resolves and the handler
goes on to `connection.commit()`. -/
def EventLoop.resolve (st : EventLoop) : EventLoop :=
  if st.settled then st
  else if st.pending - 1 = 0 then
    { st with pending := 0, settled := true, queue := st.queue ++ [(.commit, .commitDone)] }
  else { st with pending := st.pending - 1 }

/-- A callback throws. The first rejection rejects `Promise.all`: the handler enters its
`catch` block and calls `connection.rollback()`. -/
def EventLoop.reject (st : EventLoop) (message : String) : EventLoop :=
  if st.settled then st
  else { st with settled := true, queue := st.queue ++ [(.rollback, .rollbackDone message)] }

/-- The response of the `catch` block of `addCustomValues`. -/
def failureResponse (message : String) : Response :=
  ⟨500, if message = "" then "Failed to add custom values" else message, none⟩

/-- The connection executes the command at the head of its queue and the code waiting for
it runs. -/
def EventLoop.step (comp_unique_id : String) (st : EventLoop) : EventLoop :=
  match st.queue with
  | [] => st
  | (c, w) :: rest =>
      let r := st.conn.issue c
      let st1 : EventLoop := { st with conn := r.2, queue := rest }
      match w, r.1 with
      | .checkDone _ _, some _ => st1.reject "Database query failed"
      | .checkDone fieldId fieldValue, none =>
          if countPositive r.2.view comp_unique_id fieldId then st1.resolve
          else { st1 with queue := rest ++
            [(insertCustomValuesCmd comp_unique_id fieldId fieldValue, .insertDone)] }
      | .insertDone, some e => st1.reject e
      | .insertDone, none => st1.resolve
      | .commitDone, some e => { st1 with queue := rest ++ [(.rollback, .rollbackDone e)] }
      | .commitDone, none =>
          { st1 with
            responses := st1.responses ++ [⟨200, "Custom values added successfully!", none⟩],
            queue := rest ++ [(.endConnection, .endDone)] }
      | .rollbackDone _, some e =>
          { st1 with uncaught := some e, queue := rest ++ [(.endConnection, .endDone)] }
      | .rollbackDone message, none =>
          { st1 with responses := st1.responses ++ [failureResponse message],
                     queue := rest ++ [(.endConnection, .endDone)] }
      | .endDone, some e => { st1 with uncaught := some e }
      | .endDone, none => st1

/-- Runs the queue for at most `fuel` commands. -/
def EventLoop.run (comp_unique_id : String) : Nat → EventLoop → EventLoop
  | 0, st => st
  | fuel + 1, st => EventLoop.run comp_unique_id fuel (st.step comp_unique_id)

/-- The test `!fieldId || typeof fieldValue === 'undefined'` of the callback. -/
def ValueSpec.rejected (field : ValueSpec) : Bool :=
  (match field.fieldId with
    | some n => decide (n = 0)
    | none => true) || decide (field.fieldValue = .undefined)

/-- The error a rejected entry throws. -/
def rejectedMessage (field : ValueSpec) : String :=
  "Field ID or Field Value is missing or invalid for field: " ++ stringifyField field

/-- The command an accepted entry sends before its first `await`. -/
def firstCommand (comp_unique_id : String) (field : ValueSpec) : Option (Cmd × Waiting) :=
  if field.rejected then none
  else
    match field.fieldId with
    | some fieldId =>
        some (checkCustomFieldExistsCmd comp_unique_id fieldId,
          .checkDone fieldId field.fieldValue.toSql)
    | none => none

/-- The request right after `customFields.map(...)` and the first turn of `Promise.all`:
the accepted entries have queued their checks; when an entry was rejected, the `catch`
block has already queued its `ROLLBACK` behind them. -/
def afterMap (s : Session) (comp_unique_id : String) (customFields : List ValueSpec) :
    EventLoop :=
  let queue := customFields.filterMap (firstCommand comp_unique_id)
  match customFields.find? ValueSpec.rejected with
  | some field =>
      ⟨s, queue ++ [(.rollback, .rollbackDone (rejectedMessage field))],
        customFields.length, true, [], none⟩
  | none => ⟨s, queue, customFields.length, false, [], none⟩

/-- The state in which an `addCustomValues` request that obtained a connection ends. -/
def addCustomValuesLoop (s0 : Session) (comp_unique_id : String)
    (customFields : List ValueSpec) : EventLoop :=
  match s0.issue .beginTransaction with
  | (some e, s1) =>
      EventLoop.run comp_unique_id 2 ⟨s1, [(.rollback, .rollbackDone e)], 0, true, [], none⟩
  | (none, s1) =>
      EventLoop.run comp_unique_id (2 * customFields.length + 3)
        (afterMap s1 comp_unique_id customFields)

/-- `addCustomValues` (`custom.js`, lines 184-234). `customFields` is `none` when the body
has no array under that key. -/
def addCustomValues (env : Server) (comp_unique_id : String)
    (customFields : Option (List ValueSpec)) : Outcome :=
  match customFields with
  | none => ⟨[⟨400, "Invalid request data", none⟩], none, none⟩
  | some [] => ⟨[⟨400, "Invalid request data", none⟩], none, none⟩
  | some fields =>
      if comp_unique_id = "" then ⟨[⟨400, "Invalid request data", none⟩], none, none⟩
      else
        match connectDB env with
        | .error e => ⟨[failureResponse e], none, none⟩
        | .ok s0 =>
            let st := addCustomValuesLoop s0 comp_unique_id fields
            ⟨st.responses, some st.conn, st.uncaught⟩

/-! ## Example inputs -/

/-- A `customers` table with its fixed columns and no custom field yet. -/
def sampleDb : Database :=
  ⟨[("id", "INT"), ("first_name", "VARCHAR(100)"), ("company_unique_id", "VARCHAR(100)")],
    [], [], [], []⟩

/-- A server holding `sampleDb` on which no command fails. -/
def sampleServer : Server := ⟨sampleDb, none, []⟩

/-- Three field specs, the second with a type that is not accepted. -/
def batchWithInvalidType : List FieldSpec :=
  [⟨.str "Region", .str "text", none⟩, ⟨.str "Tier", .str "number", none⟩,
    ⟨.str "Renewal", .str "datetime", none⟩]

/-- Two field specs, the second named like a column of `sampleDb`. -/
def batchWithCollision : List FieldSpec :=
  [⟨.str "Region", .str "text", none⟩, ⟨.str "first_name", .str "text", none⟩]

/-- A session on `sampleDb` with nothing executed yet. -/
def sampleSession : Session := ⟨sampleDb, sampleDb, false, false, [], []⟩

/-- A session on a database in which customer `CUST-001` has a value for field 4. -/
def sampleValueSession : Session :=
  ⟨⟨sampleDb.columns, [], [⟨"CUST-001", 4, some "APAC"⟩, ⟨"CUST-002", 4, none⟩], [], []⟩,
    ⟨sampleDb.columns, [], [⟨"CUST-001", 4, some "APAC"⟩, ⟨"CUST-002", 4, none⟩], [], []⟩,
    false, false, [], []⟩

/-- A server on which customer `CUST-001` has a value for field 4. -/
def sampleValueServer : Server :=
  ⟨⟨sampleDb.columns, [], [⟨"CUST-001", 4, some "APAC"⟩], [], []⟩, none, []⟩

/-! ## Auxiliary definitions for the command queue -/

/-- The session after a command that only reads. -/
def Session.logged (s : Session) (c : Cmd) : Session :=
  { s with log := s.log ++ [c] }

/-- The session after the upsert of `insertCustomValues` inside a transaction. -/
def Session.upserted (s : Session) (comp_unique_id : String) (fieldId : Nat)
    (fieldValue : Option String) : Session :=
  { s with
    view := { s.view with
      custom_field_values :=
        insertOnDuplicate s.view.custom_field_values comp_unique_id fieldId fieldValue },
    log := s.log ++ [insertCustomValuesCmd comp_unique_id fieldId fieldValue] }

/-- The field id of an accepted entry. -/
def ValueSpec.key (field : ValueSpec) : Nat :=
  field.fieldId.getD 0

/-- The queued upserts of the given entries. -/
def insertsOf (comp_unique_id : String) (l : List ValueSpec) : List (Cmd × Waiting) :=
  l.map (fun f => (insertCustomValuesCmd comp_unique_id f.key f.fieldValue.toSql,
    Waiting.insertDone))

/-- The request once every check has been answered: the entries `l` that had no row have
queued their upsert; when there is none, every callback has returned and the handler has
queued `COMMIT`. -/
def afterChecks (comp_unique_id : String) (conn : Session) (l : List ValueSpec)
    (responses : List Response) (uncaught : Option String) : EventLoop :=
  match l with
  | [] => ⟨conn, [(.commit, .commitDone)], 0, true, responses, uncaught⟩
  | _ :: _ => ⟨conn, insertsOf comp_unique_id l, l.length, false, responses, uncaught⟩

/-- The entries of an accepted batch that find no row for their key. -/
def absentEntries (db : Database) (comp_unique_id : String) (l : List ValueSpec) :
    List ValueSpec :=
  l.filter (fun f => !countPositive db comp_unique_id f.key)

/-- The table after the upserts of the given entries, in order. -/
def upsertAll (t : List ValueRow) (comp_unique_id : String) (l : List ValueSpec) :
    List ValueRow :=
  l.foldl (fun t f => insertOnDuplicate t comp_unique_id f.key f.fieldValue.toSql) t

/-- The number of commands that a queued command can still cause, itself included. -/
def Waiting.weight : Waiting → Nat
  | .checkDone _ _ => 2
  | .insertDone => 1
  | .commitDone => 3
  | .rollbackDone _ => 2
  | .endDone => 1

/-- An upper bound on the number of commands a request will still execute. -/
def EventLoop.remaining (st : EventLoop) : Nat :=
  (st.queue.map (fun q => q.2.weight)).sum + (if st.settled then 0 else 3)

/-! ## Replies of the other controllers -/

/-- A row of the join of `getCustomersWithCustomFields`, with the sixteen selected
columns. -/
structure JoinedRow where
  customer_id : Nat
  first_name : Option String
  last_name : Option String
  phone_no : Option String
  email_id : Option String
  date_of_birth : Option String
  address : Option String
  company_name : Option String
  company_unique_id : Option String
  contact_type : Option String
  source : Option String
  disposition : Option String
  agent_name : Option String
  date_created : Option String
  field_name : Option String
  field_value : Option String
  deriving DecidableEq, Repr

/-- The properties collected by `...rest` in `const { customer_id, first_name, last_name,
...rest } = row`: every selected column but those three. -/
structure RestAttrs where
  phone_no : Option String
  email_id : Option String
  date_of_birth : Option String
  address : Option String
  company_name : Option String
  company_unique_id : Option String
  contact_type : Option String
  source : Option String
  disposition : Option String
  agent_name : Option String
  date_created : Option String
  field_name : Option String
  field_value : Option String
  deriving DecidableEq, Repr

/-- An element of `custom_fields`. -/
structure CustomField where
  field_name : String
  field_value : String
  deriving DecidableEq, Repr

/-- A value of the object `customers` of `getCustomersWithCustomFields`:
`{ customer_id, first_name, last_name, custom_fields, ...rest }`. -/
structure CustomerRecord where
  customer_id : Nat
  first_name : Option String
  last_name : Option String
  custom_fields : List CustomField
  rest : RestAttrs
  deriving DecidableEq, Repr

/-- The JSON body a controller of this part sends. `updated` is the body `message`,
`updatedCount`, `customers` of `updateCustomValues`: `customers` is what the call of
`getCustomersWithCustomFields` returns, which is `undefined`, so the key is left out. -/
inductive Body where
  | message (message : String)
  | customers (records : List CustomerRecord)
  | history (message : String) (changeHistory : List HistoryRow)
  | updated (message : String) (updatedCount : Nat)
  deriving DecidableEq, Repr

/-- What `res.status(status).json(body)` sends. -/
structure Reply where
  status : Nat
  body : Body
  deriving DecidableEq, Repr

/-- What a request leaves behind: the replies sent, every connection it obtained (in the
order of the `connectDB` calls, each in its final state), and the error that escaped the
handler, if any. -/
structure Handled where
  replies : List Reply
  conns : List Session
  uncaught : Option String
  deriving DecidableEq, Repr

/-- The error of `res.json` on a response that has been sent already. -/
def headersSentError : String :=
  "Cannot set headers after they are sent to the client"

/-- Sending a reply: `res.json` throws when a reply has been sent before. -/
def sendReply (sent : List Reply) (r : Reply) : Except String (List Reply) :=
  match sent with
  | [] => .ok [r]
  | _ :: _ => .error headersSentError

/-- The value of `v || null` bound to a placeholder. -/
def JsVal.orNull (v : JsVal) : Option String :=
  if v.truthy then v.toSql else none

/-! ## Updating a customer (`customers.js`, lines 187-272) -/

/-- The body of a `PUT /customers/use/:id` request. `custom_fields` is `none` when the body
has no array under that key. -/
structure CustomerBody where
  first_name : JsVal
  last_name : JsVal
  phone_no : JsVal
  email_id : JsVal
  date_of_birth : JsVal
  address : JsVal
  company_name : JsVal
  contact_type : JsVal
  source : JsVal
  disposition : JsVal
  agent_name : JsVal
  custom_fields : Option (List ValueSpec)
  deriving DecidableEq, Repr

/-- `SELECT * FROM customers WHERE company_unique_id = ?`. -/
def selectCustomer (t : List CustomerRow) (company_unique_id : String) : List CustomerRow :=
  t.filter (fun c => decide (c.company_unique_id = company_unique_id))

/-- The `for (const field of custom_fields)` loop of `updateCustomer`. -/
def updateCustomerFields (s : Session) (company_unique_id : String) :
    List ValueSpec → Option String × Session
  | [] => (none, s)
  | field :: rest =>
      match updateCustomerField s company_unique_id field with
      | (some e, s1) => (some e, s1)
      | (none, s1) => updateCustomerFields s1 company_unique_id rest

/-- The parameters of the `UPDATE customers` statement. `formattedDOB` is the date of
birth after formatting. -/
def customerParams (body : CustomerBody) (formattedDOB : Option String) : CustomerUpdate :=
  { first_name := body.first_name.orNull
    last_name := body.last_name.orNull
    phone_no := body.phone_no.orNull
    email_id := body.email_id.orNull
    date_of_birth := if formattedDOB = some "" then none else formattedDOB
    address := body.address.orNull
    company_name := body.company_name.orNull
    contact_type := if body.contact_type.truthy then body.contact_type.toSql
                    else some "customer"
    source := body.source.orNull
    disposition := body.disposition.orNull
    agent_name := body.agent_name.orNull }

/-- The reply of the `catch` block of `updateCustomer`. -/
def updateCustomerFailed : Reply :=
  ⟨500, .message "Failed to update customer"⟩

/-- `updateCustomer`, after the connection was obtained. `toISODate` stands for
`new Date(date_of_birth).toISOString().split('T')[0]`, which throws for a text that is not
a date. The result is the reply and the connection in its final state. -/
def updateCustomerTry (toISODate : String → Except String String) (s0 : Session)
    (company_unique_id : String) (body : CustomerBody) : Reply × Session :=
  match s0.issue (.execute (.selectCustomer company_unique_id)) with
  | (some _, s1) => (updateCustomerFailed, s1)
  | (none, s1) =>
      match selectCustomer s1.view.customers company_unique_id with
      | [] => (⟨404, .message "Customer not found"⟩, s1)
      | existing :: _ =>
          let formatted : Except String (Option String) :=
            if body.date_of_birth.truthy then
              (toISODate body.date_of_birth.toString).map some
            else .ok existing.date_of_birth
          match formatted with
          | .error _ => (updateCustomerFailed, s1)
          | .ok formattedDOB =>
              match s1.issue (.execute
                (.updateCustomer (customerParams body formattedDOB) company_unique_id)) with
              | (some _, s2) => (updateCustomerFailed, s2)
              | (none, s2) =>
                  match updateCustomerFields s2 company_unique_id
                    (body.custom_fields.getD []) with
                  | (some _, s3) => (updateCustomerFailed, s3)
                  | (none, s3) => (⟨200, .message "Customer updated successfully!"⟩, s3)

/-- `updateCustomer`. The handler has no `finally` block and never calls
`connection.end()`. -/
def updateCustomer (toISODate : String → Except String String) (env : Server)
    (company_unique_id : String) (body : CustomerBody) : Handled :=
  match connectDB env with
  | .error _ => ⟨[updateCustomerFailed], [], none⟩
  | .ok s0 =>
      let r := updateCustomerTry toISODate s0 company_unique_id body
      ⟨[r.1], [r.2], none⟩

/-! ## The change history (`customers.js`, lines 277-383) -/

/-- One element of `req.body.changes`. -/
structure Change where
  field : JsVal
  old_value : JsVal
  new_value : JsVal
  isCustomField : Bool
  fieldId : Option Nat
  deriving DecidableEq, Repr

/-- Executes an `INSERT INTO updates_history`; `execute` throws before sending when a
parameter is `undefined`. -/
def insertHistoryRow (s : Session) (com_unique_id : String) (field old_value new_value : JsVal)
    (changed_at : Nat) : Option String × Session :=
  if field = .undefined ∨ old_value = .undefined ∨ new_value = .undefined then
    (some bindError, s)
  else
    s.issue (.execute (.insertHistory
      ⟨com_unique_id, field.toSql, old_value.toSql, new_value.toSql, changed_at⟩))

/-- The value of `v || null`, as a request value. -/
def JsVal.orNullVal (v : JsVal) : JsVal :=
  if v.truthy then v else .null

/-- The first loop of `insertChangeLog`: one row per change, with `field` as label. The
`k`-th evaluation of `new Date()` in the request yields `clock k`. -/
def insertChangeLogAll (clock : Nat → Nat) (s : Session) (com_unique_id : String) (k : Nat) :
    List Change → Option String × Session
  | [] => (none, s)
  | change :: rest =>
      match insertHistoryRow s com_unique_id change.field change.old_value.orNullVal
        change.new_value.orNullVal (clock k) with
      | (some e, s1) => (some e, s1)
      | (none, s1) => insertChangeLogAll clock s1 com_unique_id (k + 1) rest

/-- The label `Custom Field ${fieldId}`. -/
def customFieldLabel (fieldId : Option Nat) : String :=
  "Custom Field " ++
    (match fieldId with
     | some n => toString n
     | none => "undefined")

/-- The second loop of `insertChangeLog`: one more row per custom-field change, labelled
with the field id. -/
def insertChangeLogCustom (clock : Nat → Nat) (s : Session) (com_unique_id : String)
    (k : Nat) : List Change → Option String × Session
  | [] => (none, s)
  | change :: rest =>
      match insertHistoryRow s com_unique_id (.str (customFieldLabel change.fieldId))
        change.old_value change.new_value (clock k) with
      | (some e, s1) => (some e, s1)
      | (none, s1) => insertChangeLogCustom clock s1 com_unique_id (k + 1) rest

/-- `insertChangeLog`. -/
def insertChangeLog (clock : Nat → Nat) (s : Session) (com_unique_id : String)
    (changes : List Change) : Option String × Session :=
  match insertChangeLogAll clock s com_unique_id 0 changes with
  | (some e, s1) => (some e, s1)
  | (none, s1) =>
      insertChangeLogCustom clock s1 com_unique_id changes.length
        (changes.filter (fun c => c.isCustomField))

/-- `SELECT * FROM updates_history WHERE com_unique_id = ? ORDER BY changed_at DESC`;
rows of equal time keep their order in the table. -/
def selectHistory (t : List HistoryRow) (com_unique_id : String) : List HistoryRow :=
  (t.filter (fun r => decide (r.com_unique_id = com_unique_id))).insertionSort
    (fun a b => a.changed_at ≥ b.changed_at)

/-- `getChangeHistory`. -/
def getChangeHistory (s : Session) (company_unique_id : String) :
    Except String (List HistoryRow) × Session :=
  match s.issue (.execute (.selectHistory company_unique_id)) with
  | (some e, s1) => (.error e, s1)
  | (none, s1) => (.ok (selectHistory s1.view.updates_history company_unique_id), s1)

/-- The reply of the `catch` block of `historyCustomer`. -/
def historyFailed : Reply :=
  ⟨500, .message "Failed to log change history"⟩

/-- The `try` block of `historyCustomer` after the connection was obtained. -/
def historyCustomerTry (clock : Nat → Nat) (s0 : Session) (company_unique_id : String)
    (changes : List Change) : Reply × Session :=
  match insertChangeLog clock s0 company_unique_id changes with
  | (some _, s1) => (historyFailed, s1)
  | (none, s1) =>
      match getChangeHistory s1 company_unique_id with
      | (.error _, s2) => (historyFailed, s2)
      | (.ok changeHistory, s2) =>
          (⟨200, .history "Change history recorded successfully!" changeHistory⟩, s2)

/-- `historyCustomer`. `changes` is `none` when the body has no array under that key. -/
def historyCustomer (clock : Nat → Nat) (env : Server) (company_unique_id : JsVal)
    (changes : Option (List Change)) : Handled :=
  match changes with
  | none => ⟨[⟨400, .message "Invalid request data"⟩], [], none⟩
  | some changes =>
      if !company_unique_id.truthy then ⟨[⟨400, .message "Invalid request data"⟩], [], none⟩
      else
        match connectDB env with
        | .error _ => ⟨[historyFailed], [], none⟩
        | .ok s0 =>
            let r := historyCustomerTry clock s0 company_unique_id.toString changes
            match r.2.issue .endConnection with
            | (some e, s1) => ⟨[r.1], [s1], some e⟩
            | (none, s1) => ⟨[r.1], [s1], none⟩

/-- `gethistoryCustomer`. The handler has no `finally` block and never calls
`connection.end()`. -/
def gethistoryCustomer (env : Server) (company_unique_id : String) : Handled :=
  match connectDB env with
  | .error _ => ⟨[⟨500, .message "Failed to fetch change history"⟩], [], none⟩
  | .ok s0 =>
      match getChangeHistory s0 company_unique_id with
      | (.error _, s1) => ⟨[⟨500, .message "Failed to fetch change history"⟩], [s1], none⟩
      | (.ok [], s1) =>
          ⟨[⟨404, .message "No change history found for this customer."⟩], [s1], none⟩
      | (.ok (row :: rows), s1) =>
          ⟨[⟨200, .history "Change history retrieved successfully!" (row :: rows)⟩], [s1],
            none⟩

/-! ## Customers with their custom fields (`custom.js`, lines 296-374) -/

/-- JavaScript truthiness of a selected column: not `NULL` and not the empty string. -/
def sqlTruthy : Option String → Bool
  | some s => decide (s ≠ "")
  | none => false

/-- The properties `...rest` of a row. -/
def JoinedRow.rest (row : JoinedRow) : RestAttrs :=
  { phone_no := row.phone_no
    email_id := row.email_id
    date_of_birth := row.date_of_birth
    address := row.address
    company_name := row.company_name
    company_unique_id := row.company_unique_id
    contact_type := row.contact_type
    source := row.source
    disposition := row.disposition
    agent_name := row.agent_name
    date_created := row.date_created
    field_name := row.field_name
    field_value := row.field_value }

/-- The object stored under `customers[customer_id]` for a customer seen for the first
time. -/
def newRecord (row : JoinedRow) : CustomerRecord :=
  { customer_id := row.customer_id
    first_name := row.first_name
    last_name := row.last_name
    custom_fields := []
    rest := row.rest }

/-- Whether `customers[customer_id]` is set. -/
def hasRecord (customers : List CustomerRecord) (customer_id : Nat) : Bool :=
  customers.any (fun c => c.customer_id == customer_id)

/-- Whether a key is an array index: an integer below `2^32 - 1`. -/
def isArrayIndex (key : Nat) : Bool :=
  decide (key < 4294967295)

/-- Setting `customers[customer_id]` for a new id. The object `customers` is kept as the
list `Object.values(customers)` yields: first the keys that are array indices, in ascending
numeric order whatever the order in which they were set, then the other keys in the order
in which they were set. -/
def insertRecord (r : CustomerRecord) : List CustomerRecord → List CustomerRecord
  | [] => [r]
  | c :: cs =>
      if isArrayIndex r.customer_id = true ∧
          (isArrayIndex c.customer_id = false ∨ r.customer_id < c.customer_id) then
        r :: c :: cs
      else c :: insertRecord r cs

/-- `customers[customer_id].custom_fields.push(entry)`. -/
def pushField (customers : List CustomerRecord) (customer_id : Nat) (entry : CustomField) :
    List CustomerRecord :=
  customers.map (fun c => if c.customer_id = customer_id then
    { c with custom_fields := c.custom_fields ++ [entry] } else c)

/-- The element a row adds to `custom_fields`, when `row.field_name && row.field_value`. -/
def entryOf (row : JoinedRow) : Option CustomField :=
  match row.field_name, row.field_value with
  | some n, some v => if n ≠ "" ∧ v ≠ "" then some ⟨n, v⟩ else none
  | _, _ => none

/-- The body of `rows.forEach(row => ...)`. -/
def groupRow (customers : List CustomerRecord) (row : JoinedRow) : List CustomerRecord :=
  let customers1 :=
    if hasRecord customers row.customer_id then customers
    else insertRecord (newRecord row) customers
  match entryOf row with
  | some entry => pushField customers1 row.customer_id entry
  | none => customers1

/-- The grouping of `getCustomersWithCustomFields`: `customersArray` for the given rows. -/
def groupRows (rows : List JoinedRow) : List CustomerRecord :=
  rows.foldl groupRow []

/-- Modelled from the spec: a field definition has an `id`, which the join compares with
`field_id`; the table definition is not part of the sources. Rows of `custom_field` are
only ever appended, and the id of a row is taken to be its position, counted from 1. -/
def fieldById (t : List CustomFieldRow) (fieldId : Nat) : Option CustomFieldRow :=
  match fieldId with
  | 0 => none
  | n + 1 => t.get? n

/-- A row of the join for a customer, with the given `field_name` and `field_value`. -/
def joinedRow (c : CustomerRow) (field_name field_value : Option String) : JoinedRow :=
  { customer_id := c.id
    first_name := c.first_name
    last_name := c.last_name
    phone_no := c.phone_no
    email_id := c.email_id
    date_of_birth := c.date_of_birth
    address := c.address
    company_name := c.company_name
    company_unique_id := some c.company_unique_id
    contact_type := c.contact_type
    source := c.source
    disposition := c.disposition
    agent_name := c.agent_name
    date_created := c.date_created
    field_name := field_name
    field_value := field_value }

/-- The rows of `customers LEFT JOIN custom_field_values LEFT JOIN custom_field` for one
customer. -/
def joinCustomer (db : Database) (c : CustomerRow) : List JoinedRow :=
  match db.custom_field_values.filter
      (fun v => decide (v.comp_unique_id = c.company_unique_id)) with
  | [] => [joinedRow c none none]
  | v :: vs =>
      (v :: vs).map (fun v =>
        match fieldById db.custom_field v.field_id with
        | some cf => joinedRow c cf.field_name v.field_value
        | none => joinedRow c none v.field_value)

/-- The order of field names: character by character, as the strings are written. -/
def nameLe (a b : String) : Prop :=
  a.toList ≤ b.toList

instance : DecidableRel nameLe := fun a b =>
  inferInstanceAs (Decidable (a.toList ≤ b.toList))

/-- `ORDER BY c.id, cf.field_name`: by customer id, then by field name with `NULL`
first. -/
def joinedLe (a b : JoinedRow) : Prop :=
  a.customer_id < b.customer_id ∨
    (a.customer_id = b.customer_id ∧
      (match a.field_name, b.field_name with
       | none, _ => True
       | some _, none => False
       | some x, some y => nameLe x y))

instance : DecidableRel joinedLe := fun a b => by
  unfold joinedLe
  cases a.field_name <;> cases b.field_name <;> exact inferInstance

/-- The rows the query of `getCustomersWithCustomFields` returns. -/
def joinedRows (db : Database) : List JoinedRow :=
  (db.customers.flatMap (joinCustomer db)).insertionSort joinedLe

/-- `getCustomersWithCustomFields`. -/
def getCustomersWithCustomFields (env : Server) : Handled :=
  match connectDB env with
  | .error _ =>
      ⟨[⟨500, .message "Failed to fetch customers with custom fields"⟩], [], none⟩
  | .ok s0 =>
      let r := s0.issue (.execute .selectJoined)
      let reply : Reply :=
        match r.1 with
        | some _ => ⟨500, .message "Failed to fetch customers with custom fields"⟩
        | none => ⟨200, .customers (groupRows (joinedRows r.2.view))⟩
      match r.2.issue .endConnection with
      | (some e, s1) => ⟨[reply], [s1], some e⟩
      | (none, s1) => ⟨[reply], [s1], none⟩

/-! ## Updating custom values (`custom.js`, lines 236-289) -/

/-- A value bound to a `?` placeholder of `updateCustomValues`. -/
inductive Param where
  | undefined
  | null
  | num (n : Nat)
  | str (s : String)
  deriving DecidableEq, Repr

/-- A field id as a parameter. -/
def idParam : Option Nat → Param
  | some n => .num n
  | none => .undefined

/-- A request value as a parameter. -/
def valueParam : JsVal → Param
  | .undefined => .undefined
  | .null => .null
  | .str s => .str s

/-- The array `params` of `updateCustomValues`: a pair `fieldId, fieldValue` per entry,
then `comp_unique_id`, then the field ids. -/
def updateParams (comp_unique_id : String) (customFields : List ValueSpec) : List Param :=
  customFields.flatMap (fun f => [idParam f.fieldId, valueParam f.fieldValue]) ++
    [.str comp_unique_id] ++ customFields.map (fun f => idParam f.fieldId)

/-- The `WHEN field_id = ? THEN ?` pairs, when no field id is `undefined`. -/
def whensOf : List ValueSpec → Option (List (Nat × Option String))
  | [] => some []
  | f :: fs =>
      match f.fieldId, whensOf fs with
      | some n, some ws => some ((n, f.fieldValue.toSql) :: ws)
      | _, _ => none

/-- The reply of the `catch` block of `updateCustomValues`. -/
def updateValuesFailed (message : String) : Reply :=
  ⟨500, .message (if message = "" then "Failed to update custom values" else message)⟩

/-- How the `try` block of `updateCustomValues` went up to `connection.commit()`. -/
inductive Written where
  | threw (message : String)
  | returned (r : Reply)
  | committed (affectedRows : Nat)
  deriving DecidableEq, Repr

/-- The `try` block of `updateCustomValues` up to `connection.commit()`. -/
def updateCustomValuesWrite (s0 : Session) (comp_unique_id : String)
    (customFields : List ValueSpec) : Written × Session :=
  match s0.issue .beginTransaction with
  | (some e, s1) => (.threw e, s1)
  | (none, s1) =>
      if (updateParams comp_unique_id customFields).length = 0 then
        (.returned ⟨400, .message "No valid custom fields to update."⟩, s1)
      else if (updateParams comp_unique_id customFields).contains .undefined then
        (.threw bindError, s1)
      else
        match whensOf customFields with
        | none => (.threw bindError, s1)
        | some whens =>
            let ids := whens.map (fun w => w.1)
            let matched := (s1.view.custom_field_values.filter
              (fun r => decide (r.comp_unique_id = comp_unique_id ∧ r.field_id ∈ ids))).length
            match s1.issue (.execute (.updateValuesCase whens comp_unique_id ids)) with
            | (some e, s2) => (.threw e, s2)
            | (none, s2) =>
                match s2.issue .commit with
                | (some e, s3) => (.threw e, s3)
                | (none, s3) => (.committed matched, s3)

/-- The `catch` and `finally` blocks of `updateCustomValues`: `rollback`, the failure
reply, `end`. `sent` are the replies sent so far and `others` the connections of the
nested call. -/
def updateCustomValuesCatch (message : String) (s : Session) (sent : List Reply)
    (others : List Session) : Handled :=
  match s.issue .rollback with
  | (some e, s1) =>
      match s1.issue .endConnection with
      | (some e2, s2) => ⟨sent, s2 :: others, some e2⟩
      | (none, s2) => ⟨sent, s2 :: others, some e⟩
  | (none, s1) =>
      match sendReply sent (updateValuesFailed message) with
      | .error e =>
          match s1.issue .endConnection with
          | (some e2, s2) => ⟨sent, s2 :: others, some e2⟩
          | (none, s2) => ⟨sent, s2 :: others, some e⟩
      | .ok sent1 =>
          match s1.issue .endConnection with
          | (some e2, s2) => ⟨sent1, s2 :: others, some e2⟩
          | (none, s2) => ⟨sent1, s2 :: others, none⟩

/-- `updateCustomValues`. `second` tells how the connection of the nested
`getCustomersWithCustomFields(req, res)` call behaves (its `db` is not used: that
connection sees what the first one has committed). `customFields` is `none` when the body
has no array under that key. -/
def updateCustomValues (env second : Server) (comp_unique_id : JsVal)
    (customFields : Option (List ValueSpec)) : Handled :=
  let invalid : Handled :=
    ⟨[⟨400, .message
      "Invalid request data: comp_unique_id and customFields should be a non-empty array."⟩],
      [], none⟩
  match comp_unique_id, customFields with
  | .str id, some (field :: fields) =>
      if id = "" then invalid
      else
        match connectDB env with
        | .error e => ⟨[updateValuesFailed e], [], none⟩
        | .ok s0 =>
            match updateCustomValuesWrite s0 id (field :: fields) with
            | (.threw e, s) => updateCustomValuesCatch e s [] []
            | (.returned r, s) =>
                match s.issue .endConnection with
                | (some e, s1) => ⟨[r], [s1], some e⟩
                | (none, s1) => ⟨[r], [s1], none⟩
            | (.committed updatedCount, s) =>
                let inner := getCustomersWithCustomFields
                  ⟨s.durable, second.connectError, second.faults⟩
                match inner.uncaught with
                | some e => updateCustomValuesCatch e s inner.replies inner.conns
                | none =>
                    match sendReply inner.replies
                      ⟨200, .updated "Custom values updated successfully!" updatedCount⟩ with
                    | .error e => updateCustomValuesCatch e s inner.replies inner.conns
                    | .ok sent =>
                        match s.issue .endConnection with
                        | (some e, s1) => ⟨sent, s1 :: inner.conns, some e⟩
                        | (none, s1) => ⟨sent, s1 :: inner.conns, none⟩
  | _, _ => invalid

/-! ## Example inputs for the customer controllers -/

/-- A customer with the business key `CUST-001`. -/
def sampleCustomer : CustomerRow :=
  ⟨1, some "Ann", some "Lee", none, none, some "1990-01-01", none, none, "CUST-001",
    some "customer", none, none, none, none⟩

/-- A database with one customer, who has the value `APAC` for field 4, and no history. -/
def sampleCrmDb : Database :=
  ⟨sampleDb.columns, [], [⟨"CUST-001", 4, some "APAC"⟩], [sampleCustomer], []⟩

/-- A server holding `sampleCrmDb` on which no command fails. -/
def sampleCrmServer : Server := ⟨sampleCrmDb, none, []⟩

/-- A body that renames the customer and writes two custom values, the second without a
`fieldValue`. -/
def bodyWithBadValue : CustomerBody :=
  ⟨.str "Anna", .str "Lee", .undefined, .undefined, .undefined, .undefined, .undefined,
    .undefined, .undefined, .undefined, .undefined,
    some [⟨some 4, .str "EMEA"⟩, ⟨some 5, .undefined⟩]⟩

/-- A body that renames the customer and writes one custom value. -/
def bodyWithValue : CustomerBody :=
  ⟨.str "Anna", .str "Lee", .undefined, .undefined, .undefined, .undefined, .undefined,
    .undefined, .undefined, .undefined, .undefined, some [⟨some 4, .str "EMEA"⟩]⟩

/-- A date formatter that returns the text it is given. -/
def sampleISODate (s : String) : Except String String := .ok s

/-- A clock that starts at 1000 and advances by one with every reading. -/
def sampleClock (k : Nat) : Nat := 1000 + k

/-- A session on `sampleCrmDb` with nothing executed yet. -/
def sampleCrmSession : Session := ⟨sampleCrmDb, sampleCrmDb, false, false, [], []⟩

/-- A joined row of customer `customer_id` with the given field name and value. -/
def sampleRow (customer_id : Nat) (first_name field_name field_value : Option String) :
    JoinedRow :=
  ⟨customer_id, first_name, none, none, none, none, none, none, none, none, none, none, none,
    none, field_name, field_value⟩

/-- A server on which `CUST-001` has one change-log entry. -/
def sampleHistoryServer : Server :=
  ⟨{ sampleCrmDb with
      updates_history := [⟨"CUST-001", some "first_name", some "Ann", some "Anna", 900⟩] },
    none, []⟩

/-- One change entry, for custom field 4. -/
def customFieldChange : Change :=
  ⟨.str "Region", .str "APAC", .str "EMEA", true, some 4⟩

/-- Rows of two customers as the join returns them: sorted by customer id, then by field
name. -/
def sampleRows : List JoinedRow :=
  [sampleRow 3 (some "Bob") none none,
    sampleRow 7 (some "Ann") (some "Region") (some "APAC"),
    sampleRow 7 (some "Ann") (some "Tier") (some "gold")]

/-- The record of customer 7 for `sampleRows`. -/
def sampleRecord : CustomerRecord :=
  ⟨7, some "Ann", none, [⟨"Region", "APAC"⟩, ⟨"Tier", "gold"⟩],
    (sampleRow 7 (some "Ann") (some "Region") (some "APAC")).rest⟩

/-! ## Auxiliary definitions for the change history -/

/-- The rows the first loop of `insertChangeLog` writes for the given changes, the first
of them at the `k`-th reading of the clock. -/
def loggedRows (clock : Nat → Nat) (com_unique_id : String) (k : Nat) :
    List Change → List HistoryRow
  | [] => []
  | change :: rest =>
      ⟨com_unique_id, change.field.toSql, change.old_value.orNullVal.toSql,
        change.new_value.orNullVal.toSql, clock k⟩ ::
        loggedRows clock com_unique_id (k + 1) rest

/-- The rows the second loop of `insertChangeLog` writes for the given custom-field
changes, the first of them at the `k`-th reading of the clock. -/
def loggedCustomRows (clock : Nat → Nat) (com_unique_id : String) (k : Nat) :
    List Change → List HistoryRow
  | [] => []
  | change :: rest =>
      ⟨com_unique_id, some (customFieldLabel change.fieldId), change.old_value.toSql,
        change.new_value.toSql, clock k⟩ ::
        loggedCustomRows clock com_unique_id (k + 1) rest

/-! ## Auxiliary definitions for the grouping -/

/-- The value of `customers[customer_id]`. -/
def findRecord (customers : List CustomerRecord) (customer_id : Nat) : Option CustomerRecord :=
  customers.find? (fun c => c.customer_id == customer_id)

/-- The elements the rows of a customer add to `custom_fields`, in row order. -/
def entriesOf (customer_id : Nat) (rows : List JoinedRow) : List CustomField :=
  (rows.filter (fun r => r.customer_id == customer_id)).filterMap entryOf

/-! ## Auxiliary definitions for the release of connections -/

/-- The number of times `connection.end()` was executed on a connection. -/
def Session.ends (s : Session) : Nat :=
  s.log.count .endConnection

/-- Whether a queued command belongs to the handler itself (`commit`, `rollback`, `end`)
rather than to a callback of the `map`. -/
def Waiting.isMain : Waiting → Bool
  | .commitDone => true
  | .rollbackDone _ => true
  | .endDone => true
  | _ => false

/-- The invariant of an `addCustomValues` request: only the command queued by the
`finally` block closes the connection; the connection has been closed, or exactly one
command of the handler is queued, or `Promise.all` has not settled yet; and while it has
not settled, `pending` counts the queued commands of the callbacks, of which there is at
least one. -/
def EventLoop.Inv (st : EventLoop) : Prop :=
  (∀ q ∈ st.queue, (q.1 = Cmd.endConnection ↔ q.2 = Waiting.endDone)) ∧
    st.conn.ends + st.queue.countP (fun q => q.2.isMain) + (if st.settled then 0 else 1) = 1 ∧
    (st.settled = false →
      st.pending = st.queue.countP (fun q => !q.2.isMain) ∧ 0 < st.pending)

/-! ## The text of the statements -/

/-- The text `updateQuery` of `updateCustomValues`: one `WHEN field_id = ? THEN ?` per
entry, joined by blanks, and one `?` per entry, joined by commas, in the `IN` list. White
space between the parts is written as one blank. -/
def updateQuery (customFields : List ValueSpec) : String :=
  "UPDATE custom_field_values SET field_value = CASE " ++
    " ".intercalate (customFields.map (fun _ => "WHEN field_id = ? THEN ?")) ++
    " END WHERE comp_unique_id = ? AND field_id IN (" ++
    ", ".intercalate (customFields.map (fun _ => "?")) ++ ")"

/-- The number of `?` placeholders of a statement text. -/
def placeholders (query : String) : Nat :=
  query.data.count '?'

/-- The text of a statement as the controllers write it, with `?` for every bound
parameter; white space between words is written as one blank. The text of
`ALTER TABLE` holds the column name itself: it is executed without parameters. The two
`INSERT INTO updates_history` of `insertChangeLog` differ only in blanks next to the
brackets; the text of the first is given. -/
def Stmt.text : Stmt → String
  | .selectColumn _ =>
      "SELECT * FROM information_schema.COLUMNS WHERE TABLE_NAME = 'customers' " ++
        "AND COLUMN_NAME = ?"
  | .insertCustomField _ _ _ =>
      "INSERT INTO custom_field (field_name, field_type, dropdown_options) VALUES (?, ?, ?)"
  | .alterAddColumn fieldName columnType => alterTableQuery fieldName columnType
  | .selectCount _ _ =>
      "SELECT COUNT(*) as count FROM custom_field_values " ++
        "WHERE comp_unique_id = ? AND field_id = ?"
  | .insertOnDuplicate _ _ _ =>
      "INSERT INTO custom_field_values (comp_unique_id, field_id, field_value) " ++
        "VALUES (?, ?, ?) ON DUPLICATE KEY UPDATE field_value = VALUES(field_value)"
  | .selectValues _ _ =>
      "SELECT * FROM custom_field_values WHERE comp_unique_id = ? AND field_id = ?"
  | .updateValue _ _ _ =>
      "UPDATE custom_field_values SET field_value = ? " ++
        "WHERE comp_unique_id = ? AND field_id = ?"
  | .insertValue _ _ _ =>
      "INSERT INTO custom_field_values (comp_unique_id, field_id, field_value) " ++
        "VALUES (?, ?, ?)"
  | .selectCustomer _ => "SELECT * FROM customers WHERE company_unique_id = ?"
  | .updateCustomer _ _ =>
      "UPDATE customers SET first_name = ?, last_name = ?, phone_no = ?, email_id = ?, " ++
        "date_of_birth = ?, address = ?, company_name = ?, contact_type = ?, source = ?, " ++
        "disposition = ?, agent_name = ? WHERE company_unique_id = ?"
  | .insertHistory _ =>
      "INSERT INTO updates_history ( com_unique_id, field, old_value, new_value, " ++
        "changed_at) VALUES ( ?, ?, ?, ?, ?)"
  | .selectHistory _ =>
      "SELECT * FROM updates_history WHERE com_unique_id = ? ORDER BY changed_at DESC"
  | .updateValuesCase whens _ fieldIds =>
      "UPDATE custom_field_values SET field_value = CASE " ++
        " ".intercalate (whens.map (fun _ => "WHEN field_id = ? THEN ?")) ++
        " END WHERE comp_unique_id = ? AND field_id IN (" ++
        ", ".intercalate (fieldIds.map (fun _ => "?")) ++ ")"
  | .selectJoined =>
      "SELECT c.id AS customer_id, c.first_name, c.last_name, c.phone_no, c.email_id, " ++
        "c.date_of_birth, c.address, c.company_name, c.company_unique_id, c.contact_type, " ++
        "c.source, c.disposition, c.agent_name, c.date_created, cf.field_name, " ++
        "cfv.field_value FROM customers AS c LEFT JOIN custom_field_values AS cfv " ++
        "ON c.company_unique_id = cfv.comp_unique_id LEFT JOIN custom_field AS cf " ++
        "ON cfv.field_id = cf.id ORDER BY c.id, cf.field_name;"

/-- An ASCII letter, an ASCII digit, the underscore or the blank. -/
def isNameChar (c : Char) : Prop :=
  (65 ≤ c.toNat ∧ c.toNat ≤ 90) ∨ (97 ≤ c.toNat ∧ c.toNat ≤ 122) ∨
    (48 ≤ c.toNat ∧ c.toNat ≤ 57) ∨ c = '_' ∨ c = ' '

instance : DecidablePred isNameChar := fun c =>
  inferInstanceAs (Decidable ((65 ≤ c.toNat ∧ c.toNat ≤ 90) ∨ (97 ≤ c.toNat ∧ c.toNat ≤ 122) ∨
    (48 ≤ c.toNat ∧ c.toNat ≤ 57) ∨ c = '_' ∨ c = ' '))

/-! ## Auxiliary definitions for the replies of `updateCustomValues` -/

/-- Whether a reply carries the body `message`, `updatedCount`, `customers` that
`updateCustomValues` builds after the commit. -/
def Reply.isUpdated (r : Reply) : Bool :=
  match r.body with
  | .updated _ _ => true
  | _ => false

/-- A database in which field 1 is `Region` and customer `CUST-001` has the value `APAC`
for it. -/
def sampleRegionDb : Database :=
  ⟨sampleDb.columns, [⟨some "Region", some "text", none⟩], [⟨"CUST-001", 1, some "APAC"⟩],
    [sampleCustomer], []⟩

/-- A server holding `sampleRegionDb` on which no command fails. -/
def sampleRegionServer : Server := ⟨sampleRegionDb, none, []⟩

/-! ## Auxiliary definitions for runs that differ in an error message -/

/-- Two error messages are the same, or they are `m` in the one run and `m'` in the
other. -/
def sameText (m m' e e' : String) : Prop :=
  e = e' ∨ (e = m ∧ e' = m')

/-- Two commands both succeed, or both fail with messages related by `sameText`. -/
def sameError (m m' : String) : Option String → Option String → Prop
  | none, none => True
  | some e, some e' => sameText m m' e e'
  | _, _ => False

/-- Two fault plans make the same commands fail, with messages related by `sameText`. -/
def sameFaults (m m' : String) (f f' : List (Nat × String)) : Prop :=
  List.Forall₂ (fun p p' => p.1 = p'.1 ∧ sameText m m' p.2 p'.2) f f'

/-- Two connections in the same state whose fault plans are related by `sameFaults`. -/
def Session.Alike (m m' : String) (s s' : Session) : Prop :=
  sameFaults m m' s.faults s'.faults ∧ s' = { s with faults := s'.faults }

/-- Two servers with the same database and the same connection error whose fault plans are
related by `sameFaults`. -/
def Server.Alike (m m' : String) (env env' : Server) : Prop :=
  env.db = env'.db ∧ env.connectError = env'.connectError ∧
    sameFaults m m' env.faults env'.faults

/-- Two values are equal, or they are what `f` makes of `m` in the one run and of `m'` in
the other. -/
def alikeVia {α : Type} (f : String → α) (m m' : String) (a a' : α) : Prop :=
  a = a' ∨ (a = f m ∧ a' = f m')

/-- The failure response of `addCustomField` for an error message. -/
def addFieldFailed (message : String) : Response :=
  ⟨500, "Failed to add custom fields", some message⟩

/-- Two results are the same value, or both are errors with messages related by
`sameText`. -/
def sameExcept {α : Type} (m m' : String) : Except String α → Except String α → Prop
  | .ok a, .ok a' => a = a'
  | .error e, .error e' => sameText m m' e e'
  | _, _ => False

/-- Two `try` blocks were left the same way, with thrown messages related by `sameText`. -/
def sameExit (m m' : String) : Exit → Exit → Prop
  | .completed, .completed => True
  | .returned r, .returned r' => r = r'
  | .threw e, .threw e' => sameText m m' e e'
  | _, _ => False

/-- Two `try` blocks of `updateCustomValues` went the same way, with thrown messages
related by `sameText`. -/
def sameWritten (m m' : String) : Written → Written → Prop
  | .committed n, .committed n' => n = n'
  | .returned r, .returned r' => r = r'
  | .threw e, .threw e' => sameText m m' e e'
  | _, _ => False

/-- Two pieces of waiting code are the same, with messages related by `sameText` in the
`catch` block. -/
def Waiting.Alike (m m' : String) (w w' : Waiting) : Prop :=
  w = w' ∨ ∃ e e', sameText m m' e e' ∧ w = .rollbackDone e ∧ w' = .rollbackDone e'

/-- Two `addCustomValues` requests in the same state, up to the messages of the errors. -/
def EventLoop.Alike (m m' : String) (st st' : EventLoop) : Prop :=
  Session.Alike m m' st.conn st'.conn ∧
    List.Forall₂ (fun q q' => q.1 = q'.1 ∧ Waiting.Alike m m' q.2 q'.2) st.queue st'.queue ∧
    st.pending = st'.pending ∧ st.settled = st'.settled ∧
    List.Forall₂ (alikeVia failureResponse m m') st.responses st'.responses

/-- A server holding `db` on which the command at position `k` fails with `message`. -/
def failingServer (db : Database) (k : Nat) (message : String) : Server :=
  ⟨db, none, [(k, message)]⟩

/-- A message of the database server. -/
def deadlockFound : String :=
  "Deadlock found when trying to get lock; try restarting transaction"

/-- Another message of the database server. -/
def lockTimeout : String :=
  "Lock wait timeout exceeded; try restarting transaction"

/-! ## Basic facts about the connection -/

theorem Session.issue_log (s : Session) (c : Cmd) : (s.issue c).2.log = s.log ++ [c] := by
  unfold Session.issue
  split
  · rfl
  · split <;> rfl

theorem Session.fault_none (s : Session) (h : s.faults = []) : s.fault = none := by
  simp [Session.fault, h]

theorem Session.issue_ok (s : Session) (c : Cmd) (hc : s.closed = false) (hf : s.faults = []) :
    s.issue c = ((s.apply c).1, { (s.apply c).2 with log := s.log ++ [c] }) := by
  simp [Session.issue, hc, Session.fault_none s hf]

/-- A statement that is not a data definition and that the server accepts changes the
session's view, and the committed database too when no transaction is open. -/
theorem Session.issue_dml (s : Session) (st : Stmt) (db : Database) (hc : s.closed = false)
    (hf : s.faults = []) (hd : st.isDDL = false) (hx : s.view.exec st = .ok db) :
    s.issue (.execute st) =
      (none, { s with view := db, durable := if s.inTx then s.durable else db,
                      log := s.log ++ [.execute st] }) := by
  rw [Session.issue_ok s _ hc hf]
  simp [Session.apply, hd, hx]

/-! ## Registering custom fields -/

/-- C1: on the batch `batchWithInvalidType` (entry 2 of 3 has an invalid type) the request
is answered with 400, no `ROLLBACK` is sent, and the column and the `custom_field` row of
the first entry are in the database afterwards. -/
theorem addCustomField_invalid_type_keeps_first_entry :
    (addCustomField sampleServer (some batchWithInvalidType)).responses =
        [⟨400, "Invalid field type 'number' provided.", none⟩] ∧
      ((addCustomField sampleServer (some batchWithInvalidType)).conn.map Session.log) =
        some [.beginTransaction, .execute (.selectColumn "Region"),
          .execute (.insertCustomField (some "Region") (some "text") none),
          .execute (.alterAddColumn "Region" "VARCHAR(255)"), .endConnection] ∧
      (addCustomField sampleServer (some batchWithInvalidType)).database sampleServer =
        ⟨sampleDb.columns ++ [("Region", "VARCHAR(255)")],
          [⟨some "Region", some "text", none⟩], [], [], []⟩ := by
  decide

/-- C2: on the batch `batchWithCollision` (entry 2 is named like an existing column) the
request is answered with 400 and the column and the `custom_field` row of the first entry
are in the database afterwards. -/
theorem addCustomField_collision_keeps_first_entry :
    (addCustomField sampleServer (some batchWithCollision)).responses =
        [⟨400, "Column 'first_name' already exists in customers table.", none⟩] ∧
      (addCustomField sampleServer (some batchWithCollision)).database sampleServer =
        ⟨sampleDb.columns ++ [("Region", "VARCHAR(255)")],
          [⟨some "Region", some "text", none⟩], [], [], []⟩ ∧
      (addCustomField sampleServer (some batchWithCollision)).database sampleServer ≠
        sampleDb := by
  decide

/-- C3: a request whose only entry has an invalid type begins a transaction and leaves the
handler through the early return: the connection receives `beginTransaction` and
`endConnection` only, neither `commit` nor `rollback`. -/
theorem addCustomField_early_return_without_rollback :
    ((addCustomField sampleServer (some [⟨.str "Tier", .str "number", none⟩])).conn.map
        Session.log) = some [.beginTransaction, .endConnection] ∧
      (addCustomField sampleServer (some [⟨.str "Tier", .str "number", none⟩])).responses =
        [⟨400, "Invalid field type 'number' provided.", none⟩] := by
  decide

/-- C4: a field of type `dropdown_checkbox` with a fresh valid name is rejected as an
invalid type and nothing is registered, although `addColumnToCustomers` maps that type to
`TEXT`. -/
theorem addCustomField_rejects_dropdown_checkbox :
    (addCustomField sampleServer (some [⟨.str "Tags", .str "dropdown_checkbox", none⟩])).responses
        = [⟨400, "Invalid field type 'dropdown_checkbox' provided.", none⟩] ∧
      (addCustomField sampleServer
        (some [⟨.str "Tags", .str "dropdown_checkbox", none⟩])).database sampleServer = sampleDb ∧
      isValidFieldType (.str "dropdown_checkbox") = false ∧
      columnTypeOf (.str "dropdown_checkbox") = some "TEXT" := by
  decide

/-- C5: a field named `a-b` (not matching the pattern) of type `text` is answered with 500,
not with the 400 of an invalid type, and the `INSERT INTO custom_field` for it has been
executed before the name is rejected. -/
theorem addCustomField_invalid_name_rejected_late :
    (addCustomField sampleServer (some [⟨.str "a-b", .str "text", none⟩])).responses =
        [⟨500, "Failed to add custom fields", some "Invalid column name: a-b"⟩] ∧
      ((addCustomField sampleServer (some [⟨.str "a-b", .str "text", none⟩])).conn.map
        Session.log) =
        some [.beginTransaction, .execute (.selectColumn "a-b"),
          .execute (.insertCustomField (some "a-b") (some "text") none),
          .rollback, .endConnection] ∧
      (addCustomField sampleServer (some [⟨.str "a-b", .str "number", none⟩])).responses =
        [⟨400, "Invalid field type 'number' provided.", none⟩] := by
  decide

/-- C6: for a name that matches the pattern, `addColumnToCustomers` executes exactly one
statement and returns its outcome: `ALTER TABLE customers ADD COLUMN` with `VARCHAR(255)`
for `text`, `TEXT` for `dropdown` and for `dropdown_checkbox`, `DATETIME` for `datetime`;
for every other type it throws `Unsupported field type` and sends nothing to the
connection. -/
theorem addColumnToCustomers_column_type (s : Session) (fieldName fieldType : JsVal)
    (hname : isValidColumnName fieldName.toString = true) :
    addColumnToCustomers s fieldName (.str "text") =
        s.issue (.execute (.alterAddColumn fieldName.toString "VARCHAR(255)")) ∧
    addColumnToCustomers s fieldName (.str "dropdown") =
        s.issue (.execute (.alterAddColumn fieldName.toString "TEXT")) ∧
    addColumnToCustomers s fieldName (.str "dropdown_checkbox") =
        s.issue (.execute (.alterAddColumn fieldName.toString "TEXT")) ∧
    addColumnToCustomers s fieldName (.str "datetime") =
        s.issue (.execute (.alterAddColumn fieldName.toString "DATETIME")) ∧
    (fieldType ≠ .str "text" → fieldType ≠ .str "dropdown" →
      fieldType ≠ .str "dropdown_checkbox" → fieldType ≠ .str "datetime" →
      addColumnToCustomers s fieldName fieldType =
        (some ("Unsupported field type: " ++ fieldType.toString), s)) := by
  refine ⟨?_, ?_, ?_, ?_, ?_⟩
  · simp [addColumnToCustomers, hname, columnTypeOf]
  · simp [addColumnToCustomers, hname, columnTypeOf]
  · simp [addColumnToCustomers, hname, columnTypeOf]
  · simp [addColumnToCustomers, hname, columnTypeOf]
  · intro h1 h2 h3 h4
    have hnone : columnTypeOf fieldType = none := by
      unfold columnTypeOf
      split <;> simp_all
    simp [addColumnToCustomers, hname, hnone]

theorem addColumnToCustomers_column_type_witness :
    isValidColumnName (JsVal.str "Region 1").toString = true ∧
      (addColumnToCustomers sampleSession (.str "Region 1") (.str "text")).2.log =
        [.execute (.alterAddColumn "Region 1" "VARCHAR(255)")] ∧
      addColumnToCustomers sampleSession (.str "Region 1") (.str "number") =
        (some "Unsupported field type: number", sampleSession) :=
  ⟨by decide,
    by
      rw [(addColumnToCustomers_column_type sampleSession (.str "Region 1") (.str "number")
        (by decide)).1]
      decide,
    (addColumnToCustomers_column_type sampleSession (.str "Region 1") (.str "number")
      (by decide)).2.2.2.2 (by decide) (by decide) (by decide) (by decide)⟩

/-- The facts used about a statement that is not a data definition and that the server
accepts, one per component of the session. -/
theorem Session.issue_dml_facts (s : Session) (st : Stmt) (db : Database)
    (hc : s.closed = false) (hf : s.faults = []) (hd : st.isDDL = false)
    (hx : s.view.exec st = .ok db) :
    (s.issue (.execute st)).1 = none ∧ (s.issue (.execute st)).2.view = db ∧
      (s.issue (.execute st)).2.durable = (if s.inTx then s.durable else db) ∧
      (s.issue (.execute st)).2.inTx = s.inTx ∧ (s.issue (.execute st)).2.closed = false ∧
      (s.issue (.execute st)).2.faults = [] := by
  rw [Session.issue_dml s st db hc hf hd hx]
  simp [hc, hf]

/-! ## Upserting a custom field value -/

theorem hasKey_eq (r : ValueRow) (k : String) (f : Nat) (h : r.hasKey k f = true) :
    r.comp_unique_id = k ∧ r.field_id = f := by
  simpa [ValueRow.hasKey] using h

theorem hasKey_update (r : ValueRow) (v : Option String) (k k' : String) (f f' : Nat) :
    (if r.hasKey k f then { r with field_value := v } else r).hasKey k' f' = r.hasKey k' f' := by
  split <;> rfl

theorem selectValues_updateValue (t : List ValueRow) (v : Option String) (k k' : String)
    (f f' : Nat) :
    selectValues (updateValue t v k f) k' f' =
      (selectValues t k' f').map
        (fun r => if r.hasKey k f then { r with field_value := v } else r) := by
  induction t with
  | nil => rfl
  | cons r t ih =>
      simp only [selectValues, updateValue, List.map_cons, List.filter_cons] at ih ⊢
      rw [hasKey_update]
      split <;> simp [ih]

theorem selectValues_eq_nil (t : List ValueRow) (k : String) (f : Nat)
    (h : ¬ (selectValues t k f).length > 0) : selectValues t k f = [] := by
  cases hs : selectValues t k f with
  | nil => rfl
  | cons a l => simp [hs] at h

theorem updateValue_of_absent (t : List ValueRow) (v : Option String) (k : String) (f : Nat)
    (h : selectValues t k f = []) : updateValue t v k f = t := by
  induction t with
  | nil => rfl
  | cons r t ih =>
      simp only [selectValues, List.filter_cons] at h
      by_cases hr : r.hasKey k f = true
      · simp [hr] at h
      · simp only [hr] at h
        simp only [updateValue, List.map_cons] at ih ⊢
        simp [hr, ih h]

theorem updateValue_idem (t : List ValueRow) (v : Option String) (k : String) (f : Nat) :
    updateValue (updateValue t v k f) v k f = updateValue t v k f := by
  induction t with
  | nil => rfl
  | cons r t ih =>
      simp only [updateValue, List.map_cons] at ih ⊢
      rw [hasKey_update, ih]
      by_cases hr : r.hasKey k f = true <;> simp [hr]

theorem updateValue_others (t : List ValueRow) (v : Option String) (k : String) (f : Nat) :
    (updateValue t v k f).filter (fun r => !r.hasKey k f) =
      t.filter (fun r => !r.hasKey k f) := by
  induction t with
  | nil => rfl
  | cons r t ih =>
      simp only [updateValue, List.map_cons, List.filter_cons] at ih ⊢
      rw [hasKey_update, ih]
      by_cases hr : r.hasKey k f = true <;> simp [hr]

theorem insertOnDuplicate_of_present (t : List ValueRow) (k : String) (f : Nat)
    (v : Option String) (h : (selectValues t k f).length > 0) :
    insertOnDuplicate t k f v = updateValue t v k f := by
  simp [insertOnDuplicate, h]

theorem insertOnDuplicate_of_absent (t : List ValueRow) (k : String) (f : Nat)
    (v : Option String) (h : ¬ (selectValues t k f).length > 0) :
    insertOnDuplicate t k f v = t ++ [⟨k, f, v⟩] := by
  simp only [insertOnDuplicate, if_neg h]

/-- After an upsert the key has a row. -/
theorem selectValues_insertOnDuplicate_pos (t : List ValueRow) (k : String) (f : Nat)
    (v : Option String) : (selectValues (insertOnDuplicate t k f v) k f).length > 0 := by
  by_cases h : (selectValues t k f).length > 0
  · rw [insertOnDuplicate_of_present t k f v h, selectValues_updateValue]
    simpa using h
  · rw [insertOnDuplicate_of_absent t k f v h]
    simp [selectValues, ValueRow.hasKey]

/-- Upserting the same key and value a second time changes nothing. -/
theorem insertOnDuplicate_idem (t : List ValueRow) (k : String) (f : Nat) (v : Option String) :
    insertOnDuplicate (insertOnDuplicate t k f v) k f v = insertOnDuplicate t k f v := by
  rw [insertOnDuplicate_of_present _ k f v (selectValues_insertOnDuplicate_pos t k f v)]
  by_cases h : (selectValues t k f).length > 0
  · rw [insertOnDuplicate_of_present t k f v h]
    exact updateValue_idem t v k f
  · rw [insertOnDuplicate_of_absent t k f v h]
    have h0 := updateValue_of_absent t v k f (selectValues_eq_nil t k f h)
    simp only [updateValue, List.map_append, List.map_cons, List.map_nil] at h0 ⊢
    rw [h0]
    simp [ValueRow.hasKey]

/-- When the key has at most one row, an upsert leaves it exactly the row with the new
value. -/
theorem selectValues_insertOnDuplicate (t : List ValueRow) (k : String) (f : Nat)
    (v : Option String) (h : (selectValues t k f).length ≤ 1) :
    selectValues (insertOnDuplicate t k f v) k f = [⟨k, f, v⟩] := by
  by_cases hpos : (selectValues t k f).length > 0
  · rw [insertOnDuplicate_of_present t k f v hpos, selectValues_updateValue]
    cases hs : selectValues t k f with
    | nil => simp [hs] at hpos
    | cons r l =>
        cases l with
        | cons _ _ => simp [hs] at h
        | nil =>
            have hr : r ∈ selectValues t k f := by simp [hs]
            have hk : r.hasKey k f = true := by
              simp only [selectValues, List.mem_filter] at hr
              exact hr.2
            obtain ⟨h1, h2⟩ := hasKey_eq r k f hk
            subst h1 h2
            simp [hk]
  · rw [insertOnDuplicate_of_absent t k f v hpos]
    have h0 := selectValues_eq_nil t k f hpos
    simp only [selectValues, List.filter_append] at h0 ⊢
    rw [h0]
    simp [ValueRow.hasKey]

/-- An upsert leaves the rows of every other key as they are. -/
theorem insertOnDuplicate_others (t : List ValueRow) (k : String) (f : Nat)
    (v : Option String) :
    (insertOnDuplicate t k f v).filter (fun r => !r.hasKey k f) =
      t.filter (fun r => !r.hasKey k f) := by
  by_cases hpos : (selectValues t k f).length > 0
  · rw [insertOnDuplicate_of_present t k f v hpos]
    exact updateValue_others t v k f
  · rw [insertOnDuplicate_of_absent t k f v hpos]
    simp [List.filter_append, ValueRow.hasKey]

/-- The loop body of `updateCustomer` on a connection that works: no error, and the
session's `custom_field_values` is upserted (the committed table too, unless a transaction
is open). -/
theorem updateCustomerField_ok (s : Session) (k : String) (f : Nat) (v : JsVal)
    (hc : s.closed = false) (hf : s.faults = []) (hv : v ≠ .undefined) :
    (updateCustomerField s k ⟨some f, v⟩).1 = none ∧
      (updateCustomerField s k ⟨some f, v⟩).2.closed = false ∧
      (updateCustomerField s k ⟨some f, v⟩).2.faults = [] ∧
      (updateCustomerField s k ⟨some f, v⟩).2.inTx = s.inTx ∧
      (updateCustomerField s k ⟨some f, v⟩).2.view.custom_field_values =
        insertOnDuplicate s.view.custom_field_values k f v.toSql ∧
      (updateCustomerField s k ⟨some f, v⟩).2.durable.custom_field_values =
        (if s.inTx then s.durable.custom_field_values
          else insertOnDuplicate s.view.custom_field_values k f v.toSql) := by
  obtain ⟨a1, a2, a3, a4, a5, a6⟩ :=
    Session.issue_dml_facts s (.selectValues k f) s.view hc hf rfl rfl
  rcases hs : s.issue (.execute (.selectValues k f)) with ⟨e1, s1⟩
  rw [hs] at a1 a2 a3 a4 a5 a6
  simp only at a1 a2 a3 a4 a5 a6
  subst a1
  simp only [updateCustomerField, hs, hv, if_false, a2]
  by_cases hpos : (selectValues s.view.custom_field_values k f).length > 0
  · rw [if_pos hpos]
    obtain ⟨b1, b2, b3, b4, b5, b6⟩ := Session.issue_dml_facts s1 (.updateValue v.toSql k f)
      { s1.view with custom_field_values := updateValue s1.view.custom_field_values v.toSql k f }
      a5 a6 rfl rfl
    refine ⟨b1, b5, b6, b4.trans a4, ?_, ?_⟩
    · rw [b2, a2, insertOnDuplicate_of_present _ k f _ hpos]
    · rw [b3, a3, a4, a2, insertOnDuplicate_of_present _ k f _ hpos]
      cases s.inTx <;> simp
  · rw [if_neg hpos]
    obtain ⟨b1, b2, b3, b4, b5, b6⟩ := Session.issue_dml_facts s1 (.insertValue k f v.toSql)
      { s1.view with custom_field_values := s1.view.custom_field_values ++ [⟨k, f, v.toSql⟩] }
      a5 a6 rfl (by simp [Database.exec, a2, hpos])
    refine ⟨b1, b5, b6, b4.trans a4, ?_, ?_⟩
    · rw [b2, a2, insertOnDuplicate_of_absent _ k f _ hpos]
    · rw [b3, a3, a4, a2, insertOnDuplicate_of_absent _ k f _ hpos]
      cases s.inTx <;> simp

/-- `insertCustomValues` on a connection that works: no error, and the session's
`custom_field_values` is upserted. -/
theorem insertCustomValues_ok (s : Session) (k : String) (f : Nat) (v : Option String)
    (hc : s.closed = false) (hf : s.faults = []) :
    (insertCustomValues s k f v).1 = none ∧
      (insertCustomValues s k f v).2.closed = false ∧
      (insertCustomValues s k f v).2.faults = [] ∧
      (insertCustomValues s k f v).2.inTx = s.inTx ∧
      (insertCustomValues s k f v).2.view.custom_field_values =
        insertOnDuplicate s.view.custom_field_values k f v ∧
      (insertCustomValues s k f v).2.durable.custom_field_values =
        (if s.inTx then s.durable.custom_field_values
          else insertOnDuplicate s.view.custom_field_values k f v) := by
  obtain ⟨b1, b2, b3, b4, b5, b6⟩ := Session.issue_dml_facts s (.insertOnDuplicate k f v)
    { s.view with custom_field_values := insertOnDuplicate s.view.custom_field_values k f v }
    hc hf rfl rfl
  unfold insertCustomValues insertCustomValuesCmd
  refine ⟨b1, b5, b6, b4, by rw [b2], ?_⟩
  rw [b3]
  cases s.inTx <;> simp

/-- C7: on a working connection whose `custom_field_values` has at most one row per
(comp_unique_id, field_id), writing `v1` and then `v2` for the same key, through the loop
body of `updateCustomer` or through `insertCustomValues`, raises no error, leaves exactly
one row for the key, holding `v2`, and leaves the rows of all other keys as they were. -/
theorem upsert_twice_keeps_last_value (s : Session) (k : String) (f : Nat) (v1 v2 : JsVal)
    (hc : s.closed = false) (hf : s.faults = []) (h1 : v1 ≠ .undefined)
    (h2 : v2 ≠ .undefined)
    (huniq : ∀ k' f', (selectValues s.view.custom_field_values k' f').length ≤ 1) :
    ((updateCustomerField s k ⟨some f, v1⟩).1 = none ∧
      (updateCustomerField (updateCustomerField s k ⟨some f, v1⟩).2 k ⟨some f, v2⟩).1 = none ∧
      selectValues (updateCustomerField (updateCustomerField s k ⟨some f, v1⟩).2 k
        ⟨some f, v2⟩).2.view.custom_field_values k f = [⟨k, f, v2.toSql⟩] ∧
      (updateCustomerField (updateCustomerField s k ⟨some f, v1⟩).2 k
        ⟨some f, v2⟩).2.view.custom_field_values.filter (fun r => !r.hasKey k f) =
        s.view.custom_field_values.filter (fun r => !r.hasKey k f)) ∧
    ((insertCustomValues s k f v1.toSql).1 = none ∧
      (insertCustomValues (insertCustomValues s k f v1.toSql).2 k f v2.toSql).1 = none ∧
      selectValues (insertCustomValues (insertCustomValues s k f v1.toSql).2 k f
        v2.toSql).2.view.custom_field_values k f = [⟨k, f, v2.toSql⟩] ∧
      (insertCustomValues (insertCustomValues s k f v1.toSql).2 k f
        v2.toSql).2.view.custom_field_values.filter (fun r => !r.hasKey k f) =
        s.view.custom_field_values.filter (fun r => !r.hasKey k f)) := by
  have hone : (selectValues (insertOnDuplicate s.view.custom_field_values k f v1.toSql) k
      f).length ≤ 1 := by
    rw [selectValues_insertOnDuplicate _ k f _ (huniq k f)]
    simp
  constructor
  · obtain ⟨a1, a2, a3, -, a5, -⟩ := updateCustomerField_ok s k f v1 hc hf h1
    obtain ⟨b1, -, -, -, b5, -⟩ :=
      updateCustomerField_ok (updateCustomerField s k ⟨some f, v1⟩).2 k f v2 a2 a3 h2
    refine ⟨a1, b1, ?_, ?_⟩
    · rw [b5, a5]
      exact selectValues_insertOnDuplicate _ k f _ hone
    · rw [b5, a5, insertOnDuplicate_others, insertOnDuplicate_others]
  · obtain ⟨a1, a2, a3, -, a5, -⟩ := insertCustomValues_ok s k f v1.toSql hc hf
    obtain ⟨b1, -, -, -, b5, -⟩ :=
      insertCustomValues_ok (insertCustomValues s k f v1.toSql).2 k f v2.toSql a2 a3
    refine ⟨a1, b1, ?_, ?_⟩
    · rw [b5, a5]
      exact selectValues_insertOnDuplicate _ k f _ hone
    · rw [b5, a5, insertOnDuplicate_others, insertOnDuplicate_others]

theorem sampleValueSession_unique (k : String) (f : Nat) :
    (selectValues sampleValueSession.view.custom_field_values k f).length ≤ 1 := by
  simp only [sampleValueSession, selectValues, List.filter_cons, List.filter_nil,
    ValueRow.hasKey]
  by_cases h1 : "CUST-001" = k
  · subst h1
    by_cases h3 : 4 = f <;> simp [h3]
  · by_cases h2 : "CUST-002" = k <;> by_cases h3 : 4 = f <;> simp [h1, h2, h3]

theorem upsert_twice_keeps_last_value_witness :
    selectValues (updateCustomerField (updateCustomerField sampleValueSession "CUST-001"
        ⟨some 4, .str "EMEA"⟩).2 "CUST-001"
        ⟨some 4, .str "LATAM"⟩).2.view.custom_field_values "CUST-001" 4 =
      [⟨"CUST-001", 4, some "LATAM"⟩] :=
  (upsert_twice_keeps_last_value sampleValueSession "CUST-001" 4 (.str "EMEA") (.str "LATAM")
    rfl rfl (by decide) (by decide) sampleValueSession_unique).1.2.2.1

/-- C8: on a working connection, for every table state, key, field id and value, writing
the value a second time through the loop body of `updateCustomer` or through
`insertCustomValues` leaves `custom_field_values` (as the session sees it and as committed)
equal to what the first write left. -/
theorem upsert_idempotent (s : Session) (k : String) (f : Nat) (v : JsVal)
    (hc : s.closed = false) (hf : s.faults = []) (hv : v ≠ .undefined) :
    ((updateCustomerField (updateCustomerField s k ⟨some f, v⟩).2 k
          ⟨some f, v⟩).2.view.custom_field_values =
        (updateCustomerField s k ⟨some f, v⟩).2.view.custom_field_values ∧
      (updateCustomerField (updateCustomerField s k ⟨some f, v⟩).2 k
          ⟨some f, v⟩).2.durable.custom_field_values =
        (updateCustomerField s k ⟨some f, v⟩).2.durable.custom_field_values) ∧
    ((insertCustomValues (insertCustomValues s k f v.toSql).2 k f
          v.toSql).2.view.custom_field_values =
        (insertCustomValues s k f v.toSql).2.view.custom_field_values ∧
      (insertCustomValues (insertCustomValues s k f v.toSql).2 k f
          v.toSql).2.durable.custom_field_values =
        (insertCustomValues s k f v.toSql).2.durable.custom_field_values) := by
  constructor
  · obtain ⟨-, a2, a3, a4, a5, a6⟩ := updateCustomerField_ok s k f v hc hf hv
    obtain ⟨-, -, -, -, b5, b6⟩ :=
      updateCustomerField_ok (updateCustomerField s k ⟨some f, v⟩).2 k f v a2 a3 hv
    refine ⟨?_, ?_⟩
    · rw [b5, a5, insertOnDuplicate_idem]
    · rw [b6, a4, a5, insertOnDuplicate_idem, a6]
      cases s.inTx <;> simp
  · obtain ⟨-, a2, a3, a4, a5, a6⟩ := insertCustomValues_ok s k f v.toSql hc hf
    obtain ⟨-, -, -, -, b5, b6⟩ :=
      insertCustomValues_ok (insertCustomValues s k f v.toSql).2 k f v.toSql a2 a3
    refine ⟨?_, ?_⟩
    · rw [b5, a5, insertOnDuplicate_idem]
    · rw [b6, a4, a5, insertOnDuplicate_idem, a6]
      cases s.inTx <;> simp

theorem upsert_idempotent_witness :
    (insertCustomValues (insertCustomValues sampleValueSession "CUST-002" 4 (some "EMEA")).2
        "CUST-002" 4 (some "EMEA")).2.view.custom_field_values =
      (insertCustomValues sampleValueSession "CUST-002" 4
        (some "EMEA")).2.view.custom_field_values :=
  (upsert_idempotent sampleValueSession "CUST-002" 4 (.str "EMEA") rfl rfl (by decide)).2.1

/-! ## The command queue of `addCustomValues` -/

theorem EventLoop.run_add (id : String) (a b : Nat) (st : EventLoop) :
    EventLoop.run id (a + b) st = EventLoop.run id a (EventLoop.run id b st) := by
  induction b generalizing st with
  | zero => rfl
  | succ b ih => exact ih (st.step id)

theorem EventLoop.run_of_empty (id : String) (k : Nat) (st : EventLoop) (h : st.queue = []) :
    EventLoop.run id k st = st := by
  induction k with
  | zero => rfl
  | succ k ih =>
      have hs : st.step id = st := by simp [EventLoop.step, h]
      simp only [EventLoop.run, hs, ih]

theorem firstCommand_accepted (id : String) (f : ValueSpec) (h : f.rejected = false) :
    firstCommand id f =
      some (checkCustomFieldExistsCmd id f.key, .checkDone f.key f.fieldValue.toSql) := by
  rcases f with ⟨fid, v⟩
  cases fid with
  | none => simp [ValueSpec.rejected] at h
  | some n => simp [firstCommand, h, ValueSpec.key]

theorem Session.issue_check (s : Session) (id : String) (n : Nat) (hc : s.closed = false)
    (hf : s.faults = []) (ht : s.inTx = true) :
    s.issue (checkCustomFieldExistsCmd id n) = (none, s.logged (checkCustomFieldExistsCmd id n)) := by
  rw [checkCustomFieldExistsCmd, Session.issue_dml s (.selectCount id n) s.view hc hf rfl rfl]
  simp [Session.logged, ht]

theorem Session.issue_upsert (s : Session) (id : String) (n : Nat) (v : Option String)
    (hc : s.closed = false) (hf : s.faults = []) (ht : s.inTx = true) :
    s.issue (insertCustomValuesCmd id n v) = (none, s.upserted id n v) := by
  rw [insertCustomValuesCmd, Session.issue_dml s (.insertOnDuplicate id n v)
    { s.view with custom_field_values := insertOnDuplicate s.view.custom_field_values id n v }
    hc hf rfl rfl]
  simp [Session.upserted, ht, insertCustomValuesCmd]

/-- While the checks are answered, the entries without a row queue their upsert behind
them; no upsert is executed before the last check. -/
theorem EventLoop.run_checks (id : String) (es : List ValueSpec) :
    ∀ (ins : List ValueSpec) (conn : Session) (resp : List Response) (unc : Option String),
      conn.closed = false → conn.faults = [] → conn.inTx = true →
      (∀ f ∈ es, f.rejected = false) → (es ≠ [] ∨ ins ≠ []) →
      EventLoop.run id es.length
          ⟨conn, es.filterMap (firstCommand id) ++ insertsOf id ins,
            es.length + ins.length, false, resp, unc⟩ =
        afterChecks id
          (es.foldl (fun s f => s.logged (checkCustomFieldExistsCmd id f.key)) conn)
          (ins ++ absentEntries conn.view id es) resp unc := by
  induction es with
  | nil =>
      intro ins conn resp unc _ _ _ _ hne
      cases ins with
      | nil => simp at hne
      | cons a l => simp [EventLoop.run, afterChecks, absentEntries]
  | cons e es ih =>
      intro ins conn resp unc hc hf ht hacc hne
      have he : e.rejected = false := hacc e (by simp)
      have hes : ∀ f ∈ es, f.rejected = false := fun f hf => hacc f (by simp [hf])
      simp only [List.length_cons, EventLoop.run, List.filterMap_cons,
        firstCommand_accepted id e he, List.cons_append, List.foldl_cons]
      by_cases hpos : countPositive conn.view id e.key = true
      · -- the row exists: the callback returns
        have hstep : EventLoop.step id
            ⟨conn, (checkCustomFieldExistsCmd id e.key,
                Waiting.checkDone e.key e.fieldValue.toSql) ::
              (es.filterMap (firstCommand id) ++ insertsOf id ins),
              es.length + 1 + ins.length, false, resp, unc⟩ =
            EventLoop.resolve ⟨conn.logged (checkCustomFieldExistsCmd id e.key),
              es.filterMap (firstCommand id) ++ insertsOf id ins,
              es.length + 1 + ins.length, false, resp, unc⟩ := by
          simp [EventLoop.step, Session.issue_check conn id e.key hc hf ht, Session.logged,
            hpos]
        rw [hstep]
        have habs : absentEntries conn.view id (e :: es) = absentEntries conn.view id es := by
          simp [absentEntries, hpos]
        rw [habs]
        by_cases hz : es.length + ins.length = 0
        · have h1 : es = [] := List.length_eq_zero.mp (by omega)
          have h2 : ins = [] := List.length_eq_zero.mp (by omega)
          subst h1 h2
          simp [EventLoop.resolve, EventLoop.run, afterChecks, absentEntries, insertsOf]
        · have hne' : es ≠ [] ∨ ins ≠ [] := by
            by_contra hcon
            push_neg at hcon
            simp [hcon.1, hcon.2] at hz
          have hres : EventLoop.resolve ⟨conn.logged (checkCustomFieldExistsCmd id e.key),
              es.filterMap (firstCommand id) ++ insertsOf id ins,
              es.length + 1 + ins.length, false, resp, unc⟩ =
              ⟨conn.logged (checkCustomFieldExistsCmd id e.key),
                es.filterMap (firstCommand id) ++ insertsOf id ins,
                es.length + ins.length, false, resp, unc⟩ := by
            have : es.length + 1 + ins.length - 1 = es.length + ins.length := by omega
            simp [EventLoop.resolve, this, hz]
          rw [hres]
          exact ih ins _ resp unc hc hf ht hes hne'
      · -- no row: the callback queues its upsert
        have hneg : countPositive conn.view id e.key = false := by
          simpa using hpos
        have hstep : EventLoop.step id
            ⟨conn, (checkCustomFieldExistsCmd id e.key,
                Waiting.checkDone e.key e.fieldValue.toSql) ::
              (es.filterMap (firstCommand id) ++ insertsOf id ins),
              es.length + 1 + ins.length, false, resp, unc⟩ =
            ⟨conn.logged (checkCustomFieldExistsCmd id e.key),
              es.filterMap (firstCommand id) ++ insertsOf id (ins ++ [e]),
              es.length + (ins ++ [e]).length, false, resp, unc⟩ := by
          simp [EventLoop.step, Session.issue_check conn id e.key hc hf ht, Session.logged,
            hneg, insertsOf]
          omega
        rw [hstep]
        have habs : ins ++ absentEntries conn.view id (e :: es) =
            (ins ++ [e]) ++ absentEntries conn.view id es := by
          simp [absentEntries, hneg]
        rw [habs]
        exact ih (ins ++ [e]) _ resp unc hc hf ht hes (Or.inr (by simp))

/-- The queued upserts are executed in order; the last callback to return lets the handler
queue `COMMIT`. -/
theorem EventLoop.run_inserts (id : String) (l : List ValueSpec) :
    ∀ (conn : Session) (resp : List Response) (unc : Option String),
      conn.closed = false → conn.faults = [] → conn.inTx = true → l ≠ [] →
      EventLoop.run id l.length ⟨conn, insertsOf id l, l.length, false, resp, unc⟩ =
        ⟨l.foldl (fun s f => s.upserted id f.key f.fieldValue.toSql) conn,
          [(.commit, .commitDone)], 0, true, resp, unc⟩ := by
  induction l with
  | nil => intro _ _ _ _ _ _ h; exact absurd rfl h
  | cons e l ih =>
      intro conn resp unc hc hf ht _
      have hstep : EventLoop.step id
          ⟨conn, insertsOf id (e :: l), (e :: l).length, false, resp, unc⟩ =
          EventLoop.resolve ⟨conn.upserted id e.key e.fieldValue.toSql, insertsOf id l,
            l.length + 1, false, resp, unc⟩ := by
        simp [EventLoop.step, insertsOf, Session.issue_upsert conn id e.key _ hc hf ht]
      simp only [List.length_cons, EventLoop.run, List.foldl_cons]
      simp only [List.length_cons] at hstep
      rw [hstep]
      cases l with
      | nil => simp [EventLoop.resolve, EventLoop.run, insertsOf]
      | cons e' l' =>
          have hres : EventLoop.resolve ⟨conn.upserted id e.key e.fieldValue.toSql,
              insertsOf id (e' :: l'), (e' :: l').length + 1, false, resp, unc⟩ =
              ⟨conn.upserted id e.key e.fieldValue.toSql, insertsOf id (e' :: l'),
                (e' :: l').length, false, resp, unc⟩ := by
            simp [EventLoop.resolve]
          rw [hres]
          exact ih _ resp unc hc hf ht (by simp)

theorem Session.issue_commit (s : Session) (hc : s.closed = false) (hf : s.faults = []) :
    s.issue .commit =
      (none, { s with durable := s.view, inTx := false, log := s.log ++ [.commit] }) := by
  rw [Session.issue_ok s _ hc hf]
  rfl

theorem Session.issue_end (s : Session) (hc : s.closed = false) (hf : s.faults = []) :
    s.issue .endConnection =
      (none, { s with view := s.durable, inTx := false, closed := true,
                      log := s.log ++ [.endConnection] }) := by
  rw [Session.issue_ok s _ hc hf]
  rfl

theorem Session.issue_begin (s : Session) (hc : s.closed = false) (hf : s.faults = []) :
    s.issue .beginTransaction =
      (none, { s with durable := s.view, inTx := true,
                      log := s.log ++ [.beginTransaction] }) := by
  rw [Session.issue_ok s _ hc hf]
  rfl

/-- The session after `COMMIT` and the closing of the connection. -/
theorem EventLoop.run_commit (id : String) (k : Nat) (conn : Session)
    (hc : conn.closed = false) (hf : conn.faults = []) :
    EventLoop.run id (k + 2) ⟨conn, [(.commit, .commitDone)], 0, true, [], none⟩ =
      ⟨{ conn with durable := conn.view, inTx := false, closed := true,
                   log := conn.log ++ [.commit, .endConnection] }, [], 0, true,
        [⟨200, "Custom values added successfully!", none⟩], none⟩ := by
  rw [EventLoop.run_add id k 2]
  have h2 : EventLoop.run id 2 ⟨conn, [(.commit, .commitDone)], 0, true, [], none⟩ =
      ⟨{ conn with durable := conn.view, inTx := false, closed := true,
                   log := conn.log ++ [.commit, .endConnection] }, [], 0, true,
        [⟨200, "Custom values added successfully!", none⟩], none⟩ := by
    have he := Session.issue_end
      { conn with durable := conn.view, inTx := false, log := conn.log ++ [.commit] } hc hf
    simp only [List.append_assoc, List.singleton_append] at he
    simp [EventLoop.run, EventLoop.step, Session.issue_commit conn hc hf, he]
  rw [h2]
  exact EventLoop.run_of_empty id k _ rfl

theorem foldl_logged (id : String) (es : List ValueSpec) :
    ∀ conn : Session,
      es.foldl (fun s f => s.logged (checkCustomFieldExistsCmd id f.key)) conn =
        { conn with log := conn.log ++ es.map (fun f => checkCustomFieldExistsCmd id f.key) } := by
  induction es with
  | nil => intro conn; simp
  | cons e es ih =>
      intro conn
      rw [List.foldl_cons, ih]
      simp [Session.logged]

theorem foldl_upserted (id : String) (l : List ValueSpec) :
    ∀ conn : Session,
      l.foldl (fun s f => s.upserted id f.key f.fieldValue.toSql) conn =
        { conn with
          view := { conn.view with
            custom_field_values := upsertAll conn.view.custom_field_values id l },
          log := conn.log ++
            l.map (fun f => insertCustomValuesCmd id f.key f.fieldValue.toSql) } := by
  induction l with
  | nil => intro conn; simp [upsertAll]
  | cons e l ih =>
      intro conn
      rw [List.foldl_cons, ih]
      simp [Session.upserted, upsertAll]

theorem find_rejected_none (es : List ValueSpec) (h : ∀ f ∈ es, f.rejected = false) :
    es.find? ValueSpec.rejected = none := by
  rw [List.find?_eq_none]
  intro f hf
  simp [h f hf]

/-- The end state of an accepted batch on a working connection: every check ran against
the table as it was, the entries without a row were upserted in order, the transaction
was committed and the connection closed. -/
theorem addCustomValuesLoop_accepted (s0 : Session) (id : String) (es : List ValueSpec)
    (hc : s0.closed = false) (hf : s0.faults = []) (hne : es ≠ [])
    (hacc : ∀ f ∈ es, f.rejected = false) :
    addCustomValuesLoop s0 id es =
      ⟨{ s0 with
          durable := { s0.view with
            custom_field_values :=
              upsertAll s0.view.custom_field_values id (absentEntries s0.view id es) },
          view := { s0.view with
            custom_field_values :=
              upsertAll s0.view.custom_field_values id (absentEntries s0.view id es) },
          inTx := false, closed := true,
          log := s0.log ++ [.beginTransaction] ++
            es.map (fun f => checkCustomFieldExistsCmd id f.key) ++
            (absentEntries s0.view id es).map
              (fun f => insertCustomValuesCmd id f.key f.fieldValue.toSql) ++
            [.commit, .endConnection] },
        [], 0, true, [⟨200, "Custom values added successfully!", none⟩], none⟩ := by
  simp only [addCustomValuesLoop, Session.issue_begin s0 hc hf, afterMap,
    find_rejected_none es hacc]
  have hlen : (absentEntries s0.view id es).length ≤ es.length := by
    simp only [absentEntries]
    exact List.length_filter_le _ _
  have h1 := EventLoop.run_checks id es [] 
    { s0 with durable := s0.view, inTx := true, log := s0.log ++ [.beginTransaction] }
    [] none hc hf rfl hacc (Or.inl hne)
  simp only [insertsOf, List.map_nil, List.append_nil, List.length_nil, Nat.add_zero,
    List.nil_append] at h1
  have hfuel : 2 * es.length + 3 = (es.length + 3) + es.length := by omega
  rw [hfuel, EventLoop.run_add, h1, foldl_logged]
  cases hl : absentEntries s0.view id es with
  | nil =>
      simp only [afterChecks]
      have : es.length + 3 = (es.length + 1) + 2 := by omega
      rw [this, EventLoop.run_commit id _
        { s0 with durable := s0.view, inTx := true,
                  log := s0.log ++ [.beginTransaction] ++
                    es.map (fun f => checkCustomFieldExistsCmd id f.key) } hc hf]
      simp [upsertAll]
  | cons a l =>
      simp only [afterChecks]
      rw [hl] at hlen
      have hfuel2 : es.length + 3 = (es.length - (a :: l).length + 3) + (a :: l).length := by
        omega
      rw [hfuel2, EventLoop.run_add]
      rw [EventLoop.run_inserts id (a :: l)
        { s0 with durable := s0.view, inTx := true,
                  log := s0.log ++ [.beginTransaction] ++
                    es.map (fun f => checkCustomFieldExistsCmd id f.key) }
        [] none hc hf rfl (by simp), foldl_upserted]
      have : es.length - (a :: l).length + 3 = (es.length - (a :: l).length + 1) + 2 := by
        omega
      rw [this, EventLoop.run_commit id _
        { s0 with
          durable := s0.view,
          view := { s0.view with
            custom_field_values := upsertAll s0.view.custom_field_values id (a :: l) },
          inTx := true,
          log := s0.log ++ [.beginTransaction] ++
            es.map (fun f => checkCustomFieldExistsCmd id f.key) ++
            (a :: l).map (fun f => insertCustomValuesCmd id f.key f.fieldValue.toSql) } hc hf]

theorem selectValues_insertOnDuplicate_other (t : List ValueRow) (k : String) (f f' : Nat)
    (v : Option String) (h : f ≠ f') :
    selectValues (insertOnDuplicate t k f v) k f' = selectValues t k f' := by
  by_cases hpos : (selectValues t k f).length > 0
  · rw [insertOnDuplicate_of_present t k f v hpos, selectValues_updateValue]
    conv_rhs => rw [← List.map_id (selectValues t k f')]
    apply List.map_congr_left
    intro r hr
    have hk : r.hasKey k f' = true := by
      simp only [selectValues, List.mem_filter] at hr
      exact hr.2
    have hk' : r.hasKey k f = false := by
      obtain ⟨-, h2⟩ := hasKey_eq r k f' hk
      simp [ValueRow.hasKey, h2, Ne.symm h]
    simp [hk']
  · rw [insertOnDuplicate_of_absent t k f v hpos]
    simp [selectValues, List.filter_append, ValueRow.hasKey, h]

theorem mem_insertOnDuplicate (t : List ValueRow) (k : String) (f : Nat) (v : Option String) :
    (⟨k, f, v⟩ : ValueRow) ∈ insertOnDuplicate t k f v := by
  by_cases hpos : (selectValues t k f).length > 0
  · rw [insertOnDuplicate_of_present t k f v hpos]
    cases hs : selectValues t k f with
    | nil => simp [hs] at hpos
    | cons r l =>
        have hr : r ∈ selectValues t k f := by simp [hs]
        simp only [selectValues, List.mem_filter] at hr
        obtain ⟨h1, h2⟩ := hasKey_eq r k f hr.2
        simp only [updateValue, List.mem_map]
        refine ⟨r, hr.1, ?_⟩
        subst h1 h2
        simp [hr.2]
  · rw [insertOnDuplicate_of_absent t k f v hpos]
    simp

theorem mem_insertOnDuplicate_of_mem (t : List ValueRow) (k : String) (f : Nat)
    (v : Option String) (r : ValueRow) (hr : r ∈ t) (hk : r.hasKey k f = false) :
    r ∈ insertOnDuplicate t k f v := by
  by_cases hpos : (selectValues t k f).length > 0
  · rw [insertOnDuplicate_of_present t k f v hpos]
    simp only [updateValue, List.mem_map]
    exact ⟨r, hr, by simp [hk]⟩
  · rw [insertOnDuplicate_of_absent t k f v hpos]
    simp [hr]

/-- Upserts for other field ids leave the rows of a key as they are. -/
theorem selectValues_upsertAll_other (id : String) (n : Nat) (l : List ValueSpec) :
    ∀ t : List ValueRow, (∀ g ∈ l, g.key ≠ n) →
      selectValues (upsertAll t id l) id n = selectValues t id n := by
  induction l with
  | nil => intro t _; rfl
  | cons g l ih =>
      intro t h
      have hg : g.key ≠ n := h g (by simp)
      simp only [upsertAll, List.foldl_cons] at ih ⊢
      rw [ih _ (fun g' hg' => h g' (by simp [hg'])),
        selectValues_insertOnDuplicate_other t id g.key n _ hg]

/-- After the upserts, a field id that occurs among them has a row. -/
theorem selectValues_upsertAll_pos (id : String) (n : Nat) (l : List ValueSpec) :
    ∀ t : List ValueRow, ((∃ g ∈ l, g.key = n) ∨ (selectValues t id n).length > 0) →
      (selectValues (upsertAll t id l) id n).length > 0 := by
  induction l with
  | nil =>
      intro t h
      rcases h with ⟨g, hg, -⟩ | h
      · simp at hg
      · exact h
  | cons g l ih =>
      intro t h
      simp only [upsertAll, List.foldl_cons] at ih ⊢
      by_cases hk : g.key = n
      · apply ih
        right
        rw [← hk]
        exact selectValues_insertOnDuplicate_pos t id g.key _
      · apply ih
        rcases h with ⟨g', hg', hn⟩ | h
        · left
          refine ⟨g', ?_, hn⟩
          rcases List.mem_cons.mp hg' with rfl | hmem
          · exact absurd hn hk
          · exact hmem
        · right
          rw [selectValues_insertOnDuplicate_other t id g.key n _ hk]
          exact h

/-- After the upserts, a field id whose entries all carry the same value holds that
value. -/
theorem mem_upsertAll (id : String) (n : Nat) (v : Option String) (l : List ValueSpec) :
    ∀ t : List ValueRow, ((∃ g ∈ l, g.key = n) ∨ (⟨id, n, v⟩ : ValueRow) ∈ t) →
      (∀ g ∈ l, g.key = n → g.fieldValue.toSql = v) →
      (⟨id, n, v⟩ : ValueRow) ∈ upsertAll t id l := by
  induction l with
  | nil =>
      intro t h _
      rcases h with ⟨g, hg, -⟩ | h
      · simp at hg
      · exact h
  | cons g l ih =>
      intro t h hv
      simp only [upsertAll, List.foldl_cons] at ih ⊢
      have hv' : ∀ g' ∈ l, g'.key = n → g'.fieldValue.toSql = v :=
        fun g' hg' => hv g' (by simp [hg'])
      by_cases hk : g.key = n
      · have hval := hv g (by simp) hk
        apply ih _ _ hv'
        right
        rw [← hval, ← hk]
        exact mem_insertOnDuplicate t id g.key g.fieldValue.toSql
      · apply ih _ _ hv'
        rcases h with ⟨g', hg', hn⟩ | h
        · left
          refine ⟨g', ?_, hn⟩
          rcases List.mem_cons.mp hg' with rfl | hmem
          · exact absurd hn hk
          · exact hmem
        · right
          apply mem_insertOnDuplicate_of_mem _ _ _ _ _ h
          simp [ValueRow.hasKey, Ne.symm hk]

/-- C9: for a batch of accepted entries on a working server, the request succeeds; an entry
whose key (comp_unique_id, fieldId) had a row before the request leaves the rows of that
key as they were; an entry whose key had no row has its upsert with the given value
executed, the key has a row afterwards, and that row holds the given value when no entry of
the batch gives the same fieldId another value. -/
theorem addCustomValues_skip_if_present (db : Database) (id : String) (es : List ValueSpec)
    (e : ValueSpec) (n : Nat) (hid : id ≠ "") (hacc : ∀ f ∈ es, f.rejected = false)
    (he : e ∈ es) (hn : e.fieldId = some n) :
    (addCustomValues ⟨db, none, []⟩ id (some es)).responses =
        [⟨200, "Custom values added successfully!", none⟩] ∧
    ((selectValues db.custom_field_values id n).length > 0 →
      selectValues ((addCustomValues ⟨db, none, []⟩ id (some es)).database
          ⟨db, none, []⟩).custom_field_values id n =
        selectValues db.custom_field_values id n) ∧
    ((selectValues db.custom_field_values id n).length = 0 →
      (∃ s, (addCustomValues ⟨db, none, []⟩ id (some es)).conn = some s ∧
        insertCustomValuesCmd id n e.fieldValue.toSql ∈ s.log) ∧
      (selectValues ((addCustomValues ⟨db, none, []⟩ id (some es)).database
          ⟨db, none, []⟩).custom_field_values id n).length > 0 ∧
      ((∀ f ∈ es, f.fieldId = some n → f.fieldValue = e.fieldValue) →
        (⟨id, n, e.fieldValue.toSql⟩ : ValueRow) ∈
          ((addCustomValues ⟨db, none, []⟩ id (some es)).database
            ⟨db, none, []⟩).custom_field_values)) := by
  have hne : es ≠ [] := List.ne_nil_of_mem he
  have hkey : e.key = n := by simp [ValueSpec.key, hn]
  have hloop := addCustomValuesLoop_accepted ⟨db, db, false, false, [], []⟩ id es rfl rfl hne
    hacc
  have hout : addCustomValues ⟨db, none, []⟩ id (some es) =
      ⟨(addCustomValuesLoop ⟨db, db, false, false, [], []⟩ id es).responses,
        some (addCustomValuesLoop ⟨db, db, false, false, [], []⟩ id es).conn,
        (addCustomValuesLoop ⟨db, db, false, false, [], []⟩ id es).uncaught⟩ := by
    cases es with
    | nil => exact absurd rfl hne
    | cons a l => simp [addCustomValues, hid, connectDB]
  rw [hout, hloop]
  refine ⟨rfl, ?_, ?_⟩
  · intro hpos
    simp only [Outcome.database]
    apply selectValues_upsertAll_other
    intro g hg hgn
    simp only [absentEntries, List.mem_filter, countPositive] at hg
    rw [hgn] at hg
    simp [hpos] at hg
  · intro hzero
    have habs : e ∈ absentEntries db id es := by
      simp only [absentEntries, List.mem_filter, countPositive]
      refine ⟨he, ?_⟩
      rw [hkey]
      simp [hzero]
    refine ⟨⟨_, rfl, ?_⟩, ?_, ?_⟩
    · simp only [List.mem_append, List.mem_map]
      left
      right
      exact ⟨e, habs, by rw [hkey]⟩
    · simp only [Outcome.database]
      exact selectValues_upsertAll_pos id n _ _ (Or.inl ⟨e, habs, hkey⟩)
    · intro hsame
      simp only [Outcome.database]
      apply mem_upsertAll id n _ _ _ (Or.inl ⟨e, habs, hkey⟩)
      intro g hg hgn
      have hges : g ∈ es := by
        simp only [absentEntries, List.mem_filter] at hg
        exact hg.1
      have hgacc := hacc g hges
      have hgid : g.fieldId = some n := by
        rcases g with ⟨fid, gv⟩
        cases fid with
        | none => simp [ValueSpec.rejected] at hgacc
        | some m =>
            simp only [ValueSpec.key, Option.getD_some] at hgn
            rw [hgn]
      rw [hsame g hges hgid]

theorem addCustomValues_skip_if_present_witness :
    (selectValues ((addCustomValues ⟨sampleValueServer.db, none, []⟩ "CUST-001"
        (some [⟨some 4, .str "EMEA"⟩, ⟨some 5, .str "gold"⟩])).database
        ⟨sampleValueServer.db, none, []⟩).custom_field_values "CUST-001" 4 =
      selectValues sampleValueServer.db.custom_field_values "CUST-001" 4) ∧
    (⟨"CUST-001", 5, some "gold"⟩ : ValueRow) ∈
      ((addCustomValues ⟨sampleValueServer.db, none, []⟩ "CUST-001"
        (some [⟨some 4, .str "EMEA"⟩, ⟨some 5, .str "gold"⟩])).database
        ⟨sampleValueServer.db, none, []⟩).custom_field_values :=
  ⟨(addCustomValues_skip_if_present sampleValueServer.db "CUST-001"
      [⟨some 4, .str "EMEA"⟩, ⟨some 5, .str "gold"⟩] ⟨some 4, .str "EMEA"⟩ 4
      (by decide) (by decide) (by decide) rfl).2.1 (by decide),
    ((addCustomValues_skip_if_present sampleValueServer.db "CUST-001"
      [⟨some 4, .str "EMEA"⟩, ⟨some 5, .str "gold"⟩] ⟨some 5, .str "gold"⟩ 5
      (by decide) (by decide) (by decide) rfl).2.2 (by decide)).2.2 (by decide)⟩

/-- C10: a batch with one entry that lacks its `fieldId` and one accepted entry is answered
with 500, whichever comes first, and the row of the accepted entry is in the database
afterwards: its upsert is executed after the `ROLLBACK`. -/
theorem addCustomValues_rejected_entry_keeps_other_rows :
    (addCustomValues sampleValueServer "CUST-001"
        (some [⟨none, .str "EMEA"⟩, ⟨some 7, .str "gold"⟩])).responses =
      [⟨500, "Field ID or Field Value is missing or invalid for field: " ++
        "\x7b\"fieldValue\":\"EMEA\"\x7d", none⟩] ∧
    ((addCustomValues sampleValueServer "CUST-001"
        (some [⟨none, .str "EMEA"⟩, ⟨some 7, .str "gold"⟩])).conn.map Session.log) =
      some [.beginTransaction, .execute (.selectCount "CUST-001" 7), .rollback,
        .execute (.insertOnDuplicate "CUST-001" 7 (some "gold")), .endConnection] ∧
    ((addCustomValues sampleValueServer "CUST-001"
        (some [⟨none, .str "EMEA"⟩, ⟨some 7, .str "gold"⟩])).database
        sampleValueServer).custom_field_values =
      [⟨"CUST-001", 4, some "APAC"⟩, ⟨"CUST-001", 7, some "gold"⟩] ∧
    ((addCustomValues sampleValueServer "CUST-001"
        (some [⟨some 7, .str "gold"⟩, ⟨none, .str "EMEA"⟩])).database
        sampleValueServer).custom_field_values =
      [⟨"CUST-001", 4, some "APAC"⟩, ⟨"CUST-001", 7, some "gold"⟩] := by
  decide

/-- Every executed command lowers the bound `remaining`. -/
theorem EventLoop.remaining_step (id : String) (st : EventLoop) (h : st.queue ≠ []) :
    (st.step id).remaining < st.remaining := by
  rcases st with ⟨conn, queue, pending, settled, resp, unc⟩
  cases queue with
  | nil => exact absurd rfl h
  | cons q rest =>
      rcases q with ⟨c, w⟩
      simp only [EventLoop.step]
      cases w <;> cases (conn.issue c).1 <;> cases settled <;>
        simp only [EventLoop.resolve, EventLoop.reject, EventLoop.remaining] <;>
        (repeat' split) <;>
        simp_all [Waiting.weight] <;> omega

/-- With fuel for `remaining` commands the queue is run until it is empty. -/
theorem EventLoop.run_drains (id : String) (k : Nat) :
    ∀ st : EventLoop, st.remaining ≤ k → (EventLoop.run id k st).queue = [] := by
  induction k with
  | zero =>
      intro st h
      rcases st with ⟨conn, queue, pending, settled, resp, unc⟩
      cases queue with
      | nil => rfl
      | cons q rest =>
          rcases q with ⟨c, w⟩
          cases w <;> simp [EventLoop.remaining, Waiting.weight] at h
  | succ k ih =>
      intro st h
      by_cases hq : st.queue = []
      · rw [EventLoop.run_of_empty id _ st hq, hq]
      · have := EventLoop.remaining_step id st hq
        exact ih _ (by omega)

/-- The fuel `addCustomValuesLoop` gives always suffices: whatever the entries and whichever
commands fail, the request ends with an empty command queue. -/
theorem addCustomValuesLoop_queue_empty (s0 : Session) (id : String) (es : List ValueSpec) :
    (addCustomValuesLoop s0 id es).queue = [] := by
  have hsum : ∀ l : List ValueSpec,
      ((l.filterMap (firstCommand id)).map (fun q => q.2.weight)).sum ≤ 2 * l.length := by
    intro l
    induction l with
    | nil => simp
    | cons f l ih =>
        simp only [List.filterMap_cons, List.length_cons]
        cases hf : firstCommand id f with
        | none => simp only; omega
        | some q =>
            have hw : q.2.weight = 2 := by
              simp only [firstCommand] at hf
              split at hf
              · simp at hf
              · split at hf
                · simp only [Option.some.injEq] at hf
                  rw [← hf]
                  rfl
                · simp at hf
            simp only [List.map_cons, List.sum_cons, hw]
            omega
  unfold addCustomValuesLoop
  split
  · apply EventLoop.run_drains
    simp [EventLoop.remaining, Waiting.weight]
  · apply EventLoop.run_drains
    simp only [afterMap]
    have hw : ∀ m, Waiting.weight (.rollbackDone m) = 2 := fun _ => rfl
    split
    · have := hsum es
      simp only [EventLoop.remaining, List.map_append, List.sum_append, List.map_cons,
        List.map_nil, List.sum_cons, List.sum_nil, hw, if_true]
      omega
    · have := hsum es
      simp only [EventLoop.remaining]
      simp only [Bool.false_eq_true, if_false]
      omega

/-! ## Updating a customer -/

/-- C11: a request that renames customer `CUST-001` and writes two custom values, the
second without `fieldValue`, is answered with 500 after the second write has thrown; the
connection has received neither `beginTransaction` nor `rollback`, and the new name and
the first value are in the database afterwards. -/
theorem updateCustomer_keeps_writes_before_failure :
    (updateCustomer sampleISODate sampleCrmServer "CUST-001" bodyWithBadValue).replies =
        [⟨500, .message "Failed to update customer"⟩] ∧
      (updateCustomer sampleISODate sampleCrmServer "CUST-001" bodyWithBadValue).conns.map
          Session.log =
        [[.execute (.selectCustomer "CUST-001"),
          .execute (.updateCustomer (customerParams bodyWithBadValue (some "1990-01-01"))
            "CUST-001"),
          .execute (.selectValues "CUST-001" 4),
          .execute (.updateValue (some "EMEA") "CUST-001" 4),
          .execute (.selectValues "CUST-001" 5)]] ∧
      (updateCustomer sampleISODate sampleCrmServer "CUST-001" bodyWithBadValue).conns.map
          (fun s => s.durable.customers.map (fun c => c.first_name)) = [[some "Anna"]] ∧
      (updateCustomer sampleISODate sampleCrmServer "CUST-001" bodyWithBadValue).conns.map
          (fun s => s.durable.custom_field_values) = [[⟨"CUST-001", 4, some "EMEA"⟩]] := by
  decide

/-- C18: when no row of `customers` has the given `company_unique_id`, the connection of
`updateCustomer` receives the `SELECT` on `customers` and nothing else, whatever the body
and whichever command would fail; when the connection is obtained and the `SELECT` does
not fail, the reply is 404 `Customer not found`. -/
theorem updateCustomer_not_found (toISODate : String → Except String String) (env : Server)
    (company_unique_id : String) (body : CustomerBody)
    (h : selectCustomer env.db.customers company_unique_id = []) :
    (∀ s ∈ (updateCustomer toISODate env company_unique_id body).conns,
        s.log = [.execute (.selectCustomer company_unique_id)]) ∧
      (env.connectError = none → env.faults.lookup 0 = none →
        (updateCustomer toISODate env company_unique_id body).replies =
          [⟨404, .message "Customer not found"⟩]) := by
  rcases env with ⟨db, connectError, faults⟩
  cases connectError with
  | some e => simp [updateCustomer, connectDB]
  | none =>
      simp only [updateCustomer, connectDB, updateCustomerTry, Session.issue, Session.fault,
        List.length_nil]
      cases hf : faults.lookup 0 with
      | some e => simp
      | none =>
          simp only at h
          simp [Session.apply, Stmt.isDDL, Database.exec, h]

theorem updateCustomer_not_found_witness :
    (updateCustomer sampleISODate sampleCrmServer "CUST-404" bodyWithValue).replies =
      [⟨404, .message "Customer not found"⟩] :=
  (updateCustomer_not_found sampleISODate sampleCrmServer "CUST-404" bodyWithValue
    (by decide)).2 rfl rfl

/-- C20: a successful `updateCustomer` request and a successful `gethistoryCustomer`
request each leave their connection open, no `endConnection` having been sent; a
successful `updateCustomValues` request obtains two connections. -/
theorem connection_not_released :
    (updateCustomer sampleISODate sampleCrmServer "CUST-001" bodyWithValue).replies =
        [⟨200, .message "Customer updated successfully!"⟩] ∧
      (updateCustomer sampleISODate sampleCrmServer "CUST-001" bodyWithValue).conns.map
          (fun s => (s.closed, decide (Cmd.endConnection ∈ s.log))) = [(false, false)] ∧
      (gethistoryCustomer sampleHistoryServer "CUST-001").replies.map Reply.status = [200] ∧
      (gethistoryCustomer sampleHistoryServer "CUST-001").conns.map
          (fun s => (s.closed, decide (Cmd.endConnection ∈ s.log))) = [(false, false)] ∧
      (updateCustomValues sampleCrmServer sampleCrmServer (.str "CUST-001")
          (some [⟨some 4, .str "EMEA"⟩])).conns.length = 2 := by
  decide

/-! ## The change history -/

/-- C16, as the claim states it: for `CUST-001`, which has no history, and a list of one
change entry, a custom-field change, `insertChangeLog` followed by `getChangeHistory` does
not return one entry but two: the change is logged once under its `field` and once more
under `Custom Field 4`. -/
theorem insertChangeLog_logs_custom_change_twice :
    (insertChangeLog sampleClock sampleCrmSession "CUST-001" [customFieldChange]).1 = none ∧
      (getChangeHistory
          (insertChangeLog sampleClock sampleCrmSession "CUST-001" [customFieldChange]).2
          "CUST-001").1.toOption =
        some [⟨"CUST-001", some "Custom Field 4", some "APAC", some "EMEA", 1001⟩,
          ⟨"CUST-001", some "Region", some "APAC", some "EMEA", 1000⟩] ∧
      (getChangeHistory
          (insertChangeLog sampleClock sampleCrmSession "CUST-001" [customFieldChange]).2
          "CUST-001").1.toOption.map List.length ≠ some [customFieldChange].length := by
  decide

theorem JsVal.orNullVal_ne_undefined (v : JsVal) : v.orNullVal ≠ .undefined := by
  cases v <;> simp [JsVal.orNullVal, JsVal.truthy]
  split <;> simp

theorem insertHistoryRow_ok (s : Session) (id : String) (field old_value new_value : JsVal)
    (t : Nat) (hc : s.closed = false) (hf : s.faults = []) (h1 : field ≠ .undefined)
    (h2 : old_value ≠ .undefined) (h3 : new_value ≠ .undefined) :
    (insertHistoryRow s id field old_value new_value t).1 = none ∧
      (insertHistoryRow s id field old_value new_value t).2.view.updates_history =
        s.view.updates_history ++ [⟨id, field.toSql, old_value.toSql, new_value.toSql, t⟩] ∧
      (insertHistoryRow s id field old_value new_value t).2.closed = false ∧
      (insertHistoryRow s id field old_value new_value t).2.faults = [] := by
  have hx : s.view.exec (.insertHistory
      ⟨id, field.toSql, old_value.toSql, new_value.toSql, t⟩) =
      .ok { s.view with updates_history := s.view.updates_history ++
        [⟨id, field.toSql, old_value.toSql, new_value.toSql, t⟩] } := rfl
  have h := Session.issue_dml_facts s (.insertHistory
    ⟨id, field.toSql, old_value.toSql, new_value.toSql, t⟩) _ hc hf rfl hx
  simp only [insertHistoryRow, h1, h2, h3, or_self, if_false]
  exact ⟨h.1, by rw [h.2.1], h.2.2.2.2.1, h.2.2.2.2.2⟩

theorem insertChangeLogAll_ok (clock : Nat → Nat) (id : String) (changes : List Change) :
    ∀ (s : Session) (k : Nat), s.closed = false → s.faults = [] →
      (∀ c ∈ changes, c.field ≠ .undefined) →
      (insertChangeLogAll clock s id k changes).1 = none ∧
        (insertChangeLogAll clock s id k changes).2.view.updates_history =
          s.view.updates_history ++ loggedRows clock id k changes ∧
        (insertChangeLogAll clock s id k changes).2.closed = false ∧
        (insertChangeLogAll clock s id k changes).2.faults = [] := by
  induction changes with
  | nil => intro s k hc hf _; simp [insertChangeLogAll, loggedRows, hc, hf]
  | cons c rest ih =>
      intro s k hc hf hfield
      have h := insertHistoryRow_ok s id c.field c.old_value.orNullVal c.new_value.orNullVal
        (clock k) hc hf (hfield c (List.mem_cons_self _ _))
        (JsVal.orNullVal_ne_undefined _) (JsVal.orNullVal_ne_undefined _)
      rcases hr : insertHistoryRow s id c.field c.old_value.orNullVal c.new_value.orNullVal
        (clock k) with ⟨e, s1⟩
      rw [hr] at h
      simp only at h
      obtain ⟨he, hv, hc1, hf1⟩ := h
      subst he
      have ih1 := ih s1 (k + 1) hc1 hf1 (fun c hcm => hfield c (List.mem_cons_of_mem _ hcm))
      simp only [insertChangeLogAll, hr, loggedRows]
      refine ⟨ih1.1, ?_, ih1.2.2.1, ih1.2.2.2⟩
      rw [ih1.2.1, hv, List.append_assoc, List.singleton_append]

theorem insertChangeLogCustom_ok (clock : Nat → Nat) (id : String) (changes : List Change) :
    ∀ (s : Session) (k : Nat), s.closed = false → s.faults = [] →
      (∀ c ∈ changes, c.old_value ≠ .undefined ∧ c.new_value ≠ .undefined) →
      (insertChangeLogCustom clock s id k changes).1 = none ∧
        (insertChangeLogCustom clock s id k changes).2.view.updates_history =
          s.view.updates_history ++ loggedCustomRows clock id k changes ∧
        (insertChangeLogCustom clock s id k changes).2.closed = false ∧
        (insertChangeLogCustom clock s id k changes).2.faults = [] := by
  induction changes with
  | nil => intro s k hc hf _; simp [insertChangeLogCustom, loggedCustomRows, hc, hf]
  | cons c rest ih =>
      intro s k hc hf hvals
      have hcv := hvals c (List.mem_cons_self _ _)
      have h := insertHistoryRow_ok s id (.str (customFieldLabel c.fieldId)) c.old_value
        c.new_value (clock k) hc hf (by simp) hcv.1 hcv.2
      rcases hr : insertHistoryRow s id (.str (customFieldLabel c.fieldId)) c.old_value
        c.new_value (clock k) with ⟨e, s1⟩
      rw [hr] at h
      simp only at h
      obtain ⟨he, hv, hc1, hf1⟩ := h
      subst he
      have ih1 := ih s1 (k + 1) hc1 hf1 (fun c hcm => hvals c (List.mem_cons_of_mem _ hcm))
      simp only [insertChangeLogCustom, hr, loggedCustomRows]
      refine ⟨ih1.1, ?_, ih1.2.2.1, ih1.2.2.2⟩
      rw [ih1.2.1, hv, List.append_assoc, List.singleton_append]
      rfl

theorem loggedRows_length (clock : Nat → Nat) (id : String) (changes : List Change) :
    ∀ k, (loggedRows clock id k changes).length = changes.length := by
  induction changes with
  | nil => intro k; rfl
  | cons c rest ih => intro k; simp [loggedRows, ih]

theorem loggedCustomRows_length (clock : Nat → Nat) (id : String) (changes : List Change) :
    ∀ k, (loggedCustomRows clock id k changes).length = changes.length := by
  induction changes with
  | nil => intro k; rfl
  | cons c rest ih => intro k; simp [loggedCustomRows, ih]

theorem loggedRows_id (clock : Nat → Nat) (id : String) (changes : List Change) :
    ∀ k, ∀ r ∈ loggedRows clock id k changes, r.com_unique_id = id := by
  induction changes with
  | nil => intro k r hr; simp [loggedRows] at hr
  | cons c rest ih =>
      intro k r hr
      simp only [loggedRows, List.mem_cons] at hr
      rcases hr with rfl | hr
      · rfl
      · exact ih _ r hr

theorem loggedCustomRows_id (clock : Nat → Nat) (id : String) (changes : List Change) :
    ∀ k, ∀ r ∈ loggedCustomRows clock id k changes, r.com_unique_id = id := by
  induction changes with
  | nil => intro k r hr; simp [loggedCustomRows] at hr
  | cons c rest ih =>
      intro k r hr
      simp only [loggedCustomRows, List.mem_cons] at hr
      rcases hr with rfl | hr
      · rfl
      · exact ih _ r hr

theorem getChangeHistory_ok (s : Session) (id : String) (hc : s.closed = false)
    (hf : s.faults = []) :
    (getChangeHistory s id).1 = .ok (selectHistory s.view.updates_history id) := by
  have hx : s.view.exec (.selectHistory id) = .ok s.view := rfl
  have h := Session.issue_dml_facts s (.selectHistory id) _ hc hf rfl hx
  rcases hr : s.issue (.execute (.selectHistory id)) with ⟨e, s1⟩
  rw [hr] at h
  simp only at h
  obtain ⟨he, hv, -⟩ := h
  subst he
  simp only [getChangeHistory, hr, hv]

theorem selectHistory_sorted (t : List HistoryRow) (id : String) :
    (selectHistory t id).Pairwise (fun a b => a.changed_at ≥ b.changed_at) := by
  haveI : IsTotal HistoryRow (fun a b => a.changed_at ≥ b.changed_at) :=
    ⟨fun a b => Nat.le_total b.changed_at a.changed_at⟩
  haveI : IsTrans HistoryRow (fun a b => a.changed_at ≥ b.changed_at) :=
    ⟨fun a b c hab hbc => Nat.le_trans hbc hab⟩
  exact List.sorted_insertionSort _ _

theorem selectHistory_perm (t : List HistoryRow) (id : String) :
    (selectHistory t id).Perm (t.filter (fun r => decide (r.com_unique_id = id))) :=
  List.perm_insertionSort _ _

/-- C16, amended: on an open connection on which no command fails, for an entity without
prior history and a list of `N` change entries of which `k` are custom-field changes, every
`field` being given and the values of the custom-field changes too, `insertChangeLog`
succeeds and `getChangeHistory` then returns `N + k` entries, ordered by `changed_at`
descending: one per change entry under its `field`, and one more per custom-field change
under `Custom Field` followed by the field id. -/
theorem insertChangeLog_then_getChangeHistory (clock : Nat → Nat) (s : Session)
    (com_unique_id : String) (changes : List Change)
    (hopen : s.closed = false) (hfaults : s.faults = [])
    (hprior : s.view.updates_history.filter
      (fun r => decide (r.com_unique_id = com_unique_id)) = [])
    (hfield : ∀ c ∈ changes, c.field ≠ .undefined)
    (hvalues : ∀ c ∈ changes, c.isCustomField = true →
      c.old_value ≠ .undefined ∧ c.new_value ≠ .undefined) :
    (insertChangeLog clock s com_unique_id changes).1 = none ∧
      ∃ rows,
        (getChangeHistory (insertChangeLog clock s com_unique_id changes).2
          com_unique_id).1 = .ok rows ∧
        rows.length = changes.length + (changes.filter (fun c => c.isCustomField)).length ∧
        rows.Perm (loggedRows clock com_unique_id 0 changes ++
          loggedCustomRows clock com_unique_id changes.length
            (changes.filter (fun c => c.isCustomField))) ∧
        rows.Pairwise (fun a b => a.changed_at ≥ b.changed_at) := by
  have h1 := insertChangeLogAll_ok clock com_unique_id changes s 0 hopen hfaults hfield
  rcases hr1 : insertChangeLogAll clock s com_unique_id 0 changes with ⟨e1, s1⟩
  rw [hr1] at h1
  simp only at h1
  obtain ⟨he1, hv1, hc1, hf1⟩ := h1
  subst he1
  have hcustom : ∀ c ∈ changes.filter (fun c => c.isCustomField),
      c.old_value ≠ .undefined ∧ c.new_value ≠ .undefined := by
    intro c hc
    rw [List.mem_filter] at hc
    exact hvalues c hc.1 hc.2
  have h2 := insertChangeLogCustom_ok clock com_unique_id
    (changes.filter (fun c => c.isCustomField)) s1 changes.length hc1 hf1 hcustom
  have hlog : insertChangeLog clock s com_unique_id changes =
      insertChangeLogCustom clock s1 com_unique_id changes.length
        (changes.filter (fun c => c.isCustomField)) := by
    simp only [insertChangeLog, hr1]
  rw [hlog]
  obtain ⟨he2, hv2, hc2, hf2⟩ := h2
  refine ⟨he2, _, getChangeHistory_ok _ _ hc2 hf2, ?_, ?_, selectHistory_sorted _ _⟩
  all_goals
    have hfilter : (insertChangeLogCustom clock s1 com_unique_id changes.length
        (changes.filter (fun c => c.isCustomField))).2.view.updates_history.filter
        (fun r => decide (r.com_unique_id = com_unique_id)) =
        loggedRows clock com_unique_id 0 changes ++
          loggedCustomRows clock com_unique_id changes.length
            (changes.filter (fun c => c.isCustomField)) := by
      rw [hv2, hv1, List.filter_append, List.filter_append, hprior, List.nil_append,
        List.filter_eq_self.mpr, List.filter_eq_self.mpr]
      · intro r hr
        simpa using loggedCustomRows_id clock com_unique_id _ _ r hr
      · intro r hr
        simpa using loggedRows_id clock com_unique_id _ _ r hr
  · have hp := (selectHistory_perm (insertChangeLogCustom clock s1 com_unique_id
      changes.length (changes.filter (fun c => c.isCustomField))).2.view.updates_history
      com_unique_id).length_eq
    rw [hp, hfilter, List.length_append, loggedRows_length, loggedCustomRows_length]
  · have hp := selectHistory_perm (insertChangeLogCustom clock s1 com_unique_id
      changes.length (changes.filter (fun c => c.isCustomField))).2.view.updates_history
      com_unique_id
    rw [hfilter] at hp
    exact hp

theorem insertChangeLog_then_getChangeHistory_witness :
    (insertChangeLog sampleClock sampleCrmSession "CUST-001" [customFieldChange]).1 = none ∧
      ∃ rows,
        (getChangeHistory (insertChangeLog sampleClock sampleCrmSession "CUST-001"
          [customFieldChange]).2 "CUST-001").1 = .ok rows ∧
        rows.length = [customFieldChange].length +
          ([customFieldChange].filter (fun c => c.isCustomField)).length ∧
        rows.Perm (loggedRows sampleClock "CUST-001" 0 [customFieldChange] ++
          loggedCustomRows sampleClock "CUST-001" [customFieldChange].length
            ([customFieldChange].filter (fun c => c.isCustomField))) ∧
        rows.Pairwise (fun a b => a.changed_at ≥ b.changed_at) :=
  insertChangeLog_then_getChangeHistory sampleClock sampleCrmSession "CUST-001"
    [customFieldChange] rfl rfl (by decide) (by decide) (by decide)

theorem selectHistory_eq_nil (t : List HistoryRow) (id : String)
    (h : t.filter (fun r => decide (r.com_unique_id = id)) = []) : selectHistory t id = [] := by
  simp [selectHistory, h]

/-- C17, as the claim states it: for `CUST-001`, which has no change-log entry,
`gethistoryCustomer` does not answer with a success carrying an empty sequence; the reply
is 404. -/
theorem gethistoryCustomer_empty_not_success :
    (gethistoryCustomer sampleCrmServer "CUST-001").replies =
        [⟨404, .message "No change history found for this customer."⟩] ∧
      ¬ ∃ r ∈ (gethistoryCustomer sampleCrmServer "CUST-001").replies, r.status = 200 := by
  decide

/-- C17, amended: for an entity without change-log entries, on a server where the
connection is obtained and the query does not fail, `getChangeHistory` returns the empty
sequence without error and `gethistoryCustomer` answers 404 with the message
`No change history found for this customer.`. -/
theorem gethistoryCustomer_empty_is_not_found (env : Server) (company_unique_id : String)
    (hconn : env.connectError = none) (hfault : env.faults.lookup 0 = none)
    (h : env.db.updates_history.filter
      (fun r => decide (r.com_unique_id = company_unique_id)) = []) :
    (getChangeHistory ⟨env.db, env.db, false, false, [], env.faults⟩ company_unique_id).1 =
        .ok [] ∧
      (gethistoryCustomer env company_unique_id).replies =
        [⟨404, .message "No change history found for this customer."⟩] := by
  rcases env with ⟨db, connectError, faults⟩
  simp only at hconn hfault h
  subst hconn
  have hsel := selectHistory_eq_nil db.updates_history company_unique_id h
  have hget : getChangeHistory ⟨db, db, false, false, [], faults⟩ company_unique_id =
      (.ok [], ⟨db, db, false, false, [.execute (.selectHistory company_unique_id)],
        faults⟩) := by
    simp [getChangeHistory, Session.issue, Session.fault, hfault, Session.apply, Stmt.isDDL,
      Database.exec, hsel]
  constructor
  · rw [hget]
  · simp only [gethistoryCustomer, connectDB, hget]

theorem gethistoryCustomer_empty_is_not_found_witness :
    (gethistoryCustomer sampleCrmServer "CUST-001").replies =
      [⟨404, .message "No change history found for this customer."⟩] :=
  (gethistoryCustomer_empty_is_not_found sampleCrmServer "CUST-001" rfl rfl (by decide)).2

/-! ## Customers with their custom fields -/

/-- C15: the record of a customer carries the `field_name` and `field_value` of the row of
that customer that came first: for customer 7 with the rows `Region = APAC` and
`Tier = gold` the record has the top-level `field_name` `Region`, and `Tier` when the two
rows come in the other order. -/
theorem groupRows_record_keeps_first_field :
    (groupRows [sampleRow 7 (some "Ann") (some "Region") (some "APAC"),
        sampleRow 7 (some "Ann") (some "Tier") (some "gold")]).map
        (fun c => (c.rest.field_name, c.rest.field_value)) =
      [(some "Region", some "APAC")] ∧
    (groupRows [sampleRow 7 (some "Ann") (some "Tier") (some "gold"),
        sampleRow 7 (some "Ann") (some "Region") (some "APAC")]).map
        (fun c => (c.rest.field_name, c.rest.field_value)) =
      [(some "Tier", some "gold")] := by
  decide

theorem findRecord_id (cs : List CustomerRecord) (id : Nat) (c : CustomerRecord)
    (h : findRecord cs id = some c) : c.customer_id = id := by
  have := List.find?_some h
  simpa using this

theorem hasRecord_eq (cs : List CustomerRecord) (id : Nat) :
    hasRecord cs id = (findRecord cs id).isSome := by
  induction cs with
  | nil => rfl
  | cons c cs ih =>
      simp only [hasRecord, findRecord, List.any_cons, List.find?_cons] at ih ⊢
      by_cases h : (c.customer_id == id) = true
      · simp [h]
      · simp only [Bool.not_eq_true] at h
        simp [h, ih]

theorem findRecord_insertRecord (r : CustomerRecord) (cs : List CustomerRecord) (id : Nat)
    (h : findRecord cs r.customer_id = none) :
    findRecord (insertRecord r cs) id =
      if r.customer_id = id then some r else findRecord cs id := by
  induction cs with
  | nil =>
      by_cases hr : r.customer_id = id <;> simp [insertRecord, findRecord, hr]
  | cons c cs ih =>
      have hc : c.customer_id ≠ r.customer_id := by
        intro hcr
        simp [findRecord, List.find?_cons, hcr] at h
      have htail : findRecord cs r.customer_id = none := by
        have hb : (c.customer_id == r.customer_id) = false := by simpa using hc
        simp only [findRecord, List.find?_cons, hb] at h
        exact h
      simp only [insertRecord]
      split
      · by_cases hr : r.customer_id = id <;> simp [findRecord, List.find?_cons, hr]
      · have ih' := ih htail
        simp only [findRecord, List.find?_cons] at ih' ⊢
        by_cases hr : r.customer_id = id
        · have : (c.customer_id == id) = false := by
            rw [← hr]
            simpa using hc
          simp [this, ih', hr]
        · by_cases hci : (c.customer_id == id) = true
          · simp [hci, hr]
          · simp only [Bool.not_eq_true] at hci
            simp [hci, ih', hr]

theorem findRecord_pushField (cs : List CustomerRecord) (k : Nat) (e : CustomField) (id : Nat) :
    findRecord (pushField cs k e) id =
      (findRecord cs id).map (fun c => if c.customer_id = k then
        { c with custom_fields := c.custom_fields ++ [e] } else c) := by
  induction cs with
  | nil => rfl
  | cons c cs ih =>
      simp only [findRecord, pushField, List.map_cons, List.find?_cons] at ih ⊢
      have hid : (if c.customer_id = k then
          { c with custom_fields := c.custom_fields ++ [e] } else c).customer_id =
          c.customer_id := by
        split <;> rfl
      rw [hid]
      by_cases hci : (c.customer_id == id) = true
      · simp [hci]
      · simp only [Bool.not_eq_true] at hci
        simp [hci, ih]

/-- What one row does to `customers[id]`. -/
theorem findRecord_groupRow (acc : List CustomerRecord) (row : JoinedRow) (id : Nat) :
    findRecord (groupRow acc row) id =
      if row.customer_id = id then
        match findRecord acc id with
        | some c => some { c with custom_fields := c.custom_fields ++ (entryOf row).toList }
        | none => some { newRecord row with custom_fields := (entryOf row).toList }
      else findRecord acc id := by
  simp only [groupRow, hasRecord_eq]
  by_cases hid : row.customer_id = id
  · subst hid
    simp only [if_true]
    cases hf : findRecord acc row.customer_id with
    | some c =>
        have hc := findRecord_id acc _ c hf
        simp only [Option.isSome_some, if_true]
        cases entryOf row with
        | none => simp [hf]
        | some e => simp [findRecord_pushField, hf, hc]
    | none =>
        simp only [Option.isSome_none, Bool.false_eq_true, if_false]
        have hins : findRecord (insertRecord (newRecord row) acc) row.customer_id =
            some (newRecord row) := by
          rw [findRecord_insertRecord (newRecord row) acc row.customer_id hf]
          simp [newRecord]
        cases entryOf row with
        | none =>
            simp only [hins]
            rfl
        | some e =>
            simp only [findRecord_pushField, hins]
            simp [newRecord]
  · simp only [hid, if_false]
    have hbase : findRecord (if (findRecord acc row.customer_id).isSome = true then acc
        else insertRecord (newRecord row) acc) id = findRecord acc id := by
      cases hf : findRecord acc row.customer_id with
      | some c => simp
      | none =>
          simp only [Option.isSome_none, Bool.false_eq_true, if_false]
          rw [findRecord_insertRecord (newRecord row) acc id hf]
          simp [newRecord, hid]
    cases entryOf row with
    | none => exact hbase
    | some e =>
        simp only [findRecord_pushField, hbase]
        cases hf : findRecord acc id with
        | none => rfl
        | some c =>
            have hc := findRecord_id acc _ c hf
            have : c.customer_id ≠ row.customer_id := by
              rw [hc]
              exact Ne.symm hid
            simp [this]

theorem entriesOf_cons (id : Nat) (row : JoinedRow) (rows : List JoinedRow) :
    entriesOf id (row :: rows) =
      if row.customer_id = id then (entryOf row).toList ++ entriesOf id rows
      else entriesOf id rows := by
  by_cases h : row.customer_id = id
  · simp only [entriesOf, List.filter_cons, h, beq_self_eq_true, if_true, List.filterMap_cons]
    cases entryOf row <;> simp
  · have : (row.customer_id == id) = false := by simpa using h
    simp [entriesOf, List.filter_cons, this, h]

/-- The value of `customers[id]` after all rows: the record made from the first row of the
customer, with the entries of all rows of the customer. -/
theorem findRecord_foldl (rows : List JoinedRow) :
    ∀ (acc : List CustomerRecord) (id : Nat),
      findRecord (rows.foldl groupRow acc) id =
        match findRecord acc id with
        | some c => some { c with custom_fields := c.custom_fields ++ entriesOf id rows }
        | none => (rows.find? (fun r => r.customer_id == id)).map
            (fun r => { newRecord r with custom_fields := entriesOf id rows }) := by
  induction rows with
  | nil =>
      intro acc id
      cases hf : findRecord acc id with
      | some c => simp [hf, entriesOf]
      | none => simp [hf]
  | cons row rows ih =>
      intro acc id
      rw [List.foldl_cons, ih, findRecord_groupRow, entriesOf_cons, List.find?_cons]
      by_cases hid : row.customer_id = id
      · simp only [hid, if_true, beq_self_eq_true]
        cases hf : findRecord acc id with
        | some c => simp
        | none => simp
      · have hb : (row.customer_id == id) = false := by simpa using hid
        simp only [hid, if_false, hb]

theorem findRecord_groupRows (rows : List JoinedRow) (id : Nat) :
    findRecord (groupRows rows) id =
      (rows.find? (fun r => r.customer_id == id)).map
        (fun r => { newRecord r with custom_fields := entriesOf id rows }) := by
  rw [groupRows, findRecord_foldl]
  rfl

theorem mem_insertRecord (r x : CustomerRecord) (cs : List CustomerRecord) :
    x ∈ insertRecord r cs ↔ x = r ∨ x ∈ cs := by
  induction cs with
  | nil => simp [insertRecord]
  | cons c cs ih =>
      simp only [insertRecord]
      split
      · simp
      · simp only [List.mem_cons, ih]
        tauto

theorem findRecord_eq_none (cs : List CustomerRecord) (id : Nat)
    (h : findRecord cs id = none) : ∀ c ∈ cs, c.customer_id ≠ id := by
  intro c hc
  have := List.find?_eq_none.mp h c hc
  simpa using this

/-- Setting a new key keeps the keys distinct. -/
theorem distinct_insertRecord (r : CustomerRecord) (cs : List CustomerRecord)
    (hs : cs.Pairwise (fun a b => a.customer_id ≠ b.customer_id))
    (hr : ∀ c ∈ cs, c.customer_id ≠ r.customer_id) :
    (insertRecord r cs).Pairwise (fun a b => a.customer_id ≠ b.customer_id) := by
  induction cs with
  | nil => simp [insertRecord]
  | cons c cs ih =>
      rw [List.pairwise_cons] at hs
      simp only [insertRecord]
      split
      · refine List.Pairwise.cons ?_ (List.Pairwise.cons hs.1 hs.2)
        intro x hx
        exact Ne.symm (hr x hx)
      · refine List.Pairwise.cons ?_ (ih hs.2 (fun x hx => hr x (by simp [hx])))
        intro x hx
        rcases (mem_insertRecord r x cs).mp hx with rfl | hx
        · exact hr c (by simp)
        · exact hs.1 x hx

theorem pushField_customer_id (c : CustomerRecord) (k : Nat) (e : CustomField) :
    (if c.customer_id = k then
      { c with custom_fields := c.custom_fields ++ [e] } else c).customer_id =
      c.customer_id := by
  split <;> rfl

theorem distinct_pushField (cs : List CustomerRecord) (k : Nat) (e : CustomField)
    (hs : cs.Pairwise (fun a b => a.customer_id ≠ b.customer_id)) :
    (pushField cs k e).Pairwise (fun a b => a.customer_id ≠ b.customer_id) := by
  rw [pushField, List.pairwise_map]
  refine hs.imp ?_
  intro a b hab
  rw [pushField_customer_id, pushField_customer_id]
  exact hab

theorem distinct_groupRow (acc : List CustomerRecord) (row : JoinedRow)
    (hs : acc.Pairwise (fun a b => a.customer_id ≠ b.customer_id)) :
    (groupRow acc row).Pairwise (fun a b => a.customer_id ≠ b.customer_id) := by
  have hbase : (if hasRecord acc row.customer_id = true then acc
      else insertRecord (newRecord row) acc).Pairwise
      (fun a b => a.customer_id ≠ b.customer_id) := by
    rw [hasRecord_eq]
    cases hf : findRecord acc row.customer_id with
    | some c => simpa using hs
    | none =>
        simp only [Option.isSome_none, Bool.false_eq_true, if_false]
        exact distinct_insertRecord _ _ hs (findRecord_eq_none acc _ hf)
  simp only [groupRow]
  cases entryOf row with
  | none => exact hbase
  | some e => exact distinct_pushField _ _ _ hbase

/-- No two records have the same `customer_id`, whatever the order of the rows. -/
theorem distinct_groupRows (rows : List JoinedRow) :
    (groupRows rows).Pairwise (fun a b => a.customer_id ≠ b.customer_id) := by
  have : ∀ acc : List CustomerRecord,
      acc.Pairwise (fun a b => a.customer_id ≠ b.customer_id) →
      (rows.foldl groupRow acc).Pairwise (fun a b => a.customer_id ≠ b.customer_id) := by
    induction rows with
    | nil => intro acc h; exact h
    | cons row rows ih => intro acc h; exact ih _ (distinct_groupRow acc row h)
  exact this [] List.Pairwise.nil

/-- A key above all the keys set so far goes to the end, array index or not. -/
theorem insertRecord_of_lt (r : CustomerRecord) (cs : List CustomerRecord)
    (h : ∀ c ∈ cs, c.customer_id < r.customer_id) : insertRecord r cs = cs ++ [r] := by
  induction cs with
  | nil => rfl
  | cons c cs ih =>
      have hc : c.customer_id < r.customer_id := h c (by simp)
      have hcond : ¬ (isArrayIndex r.customer_id = true ∧
          (isArrayIndex c.customer_id = false ∨ r.customer_id < c.customer_id)) := by
        simp only [isArrayIndex, decide_eq_true_eq, decide_eq_false_iff_not]
        omega
      simp only [insertRecord, hcond, if_false, List.cons_append]
      rw [ih (fun x hx => h x (by simp [hx]))]

theorem sorted_pushField (cs : List CustomerRecord) (k : Nat) (e : CustomField)
    (hs : cs.Pairwise (fun a b => a.customer_id < b.customer_id)) :
    (pushField cs k e).Pairwise (fun a b => a.customer_id < b.customer_id) := by
  rw [pushField, List.pairwise_map]
  refine hs.imp ?_
  intro a b hab
  rw [pushField_customer_id, pushField_customer_id]
  exact hab

theorem pushField_le (cs : List CustomerRecord) (k : Nat) (e : CustomField) (bound : Nat)
    (h : ∀ c ∈ cs, c.customer_id ≤ bound) : ∀ c ∈ pushField cs k e, c.customer_id ≤ bound := by
  intro c hc
  rw [pushField, List.mem_map] at hc
  obtain ⟨c0, hc0, rfl⟩ := hc
  rw [pushField_customer_id]
  exact h c0 hc0

/-- A row whose customer id is not below the keys set so far keeps the records in
ascending order of `customer_id`, and no key is above that id afterwards. -/
theorem sorted_groupRow (acc : List CustomerRecord) (row : JoinedRow)
    (hs : acc.Pairwise (fun a b => a.customer_id < b.customer_id))
    (hle : ∀ c ∈ acc, c.customer_id ≤ row.customer_id) :
    (groupRow acc row).Pairwise (fun a b => a.customer_id < b.customer_id) ∧
      ∀ c ∈ groupRow acc row, c.customer_id ≤ row.customer_id := by
  have hbase : (if hasRecord acc row.customer_id = true then acc
      else insertRecord (newRecord row) acc).Pairwise
        (fun a b => a.customer_id < b.customer_id) ∧
      ∀ c ∈ (if hasRecord acc row.customer_id = true then acc
        else insertRecord (newRecord row) acc), c.customer_id ≤ row.customer_id := by
    rw [hasRecord_eq]
    cases hf : findRecord acc row.customer_id with
    | some c => simpa using ⟨hs, hle⟩
    | none =>
        simp only [Option.isSome_none, Bool.false_eq_true, if_false]
        have hne := findRecord_eq_none acc _ hf
        have hlt : ∀ c ∈ acc, c.customer_id < (newRecord row).customer_id := by
          intro c hc
          have h1 := hle c hc
          have h2 := hne c hc
          simp only [newRecord]
          omega
        rw [insertRecord_of_lt _ _ hlt]
        constructor
        · rw [List.pairwise_append]
          refine ⟨hs, List.pairwise_singleton _ _, ?_⟩
          intro a ha b hb
          rw [List.mem_singleton] at hb
          subst hb
          exact hlt a ha
        · intro c hc
          rcases List.mem_append.mp hc with hc | hc
          · exact hle c hc
          · rw [List.mem_singleton] at hc
            subst hc
            exact Nat.le_refl _
  simp only [groupRow]
  cases entryOf row with
  | none => exact hbase
  | some e => exact ⟨sorted_pushField _ _ _ hbase.1, pushField_le _ _ _ _ hbase.2⟩

/-- For rows in ascending order of customer id the records are in strictly ascending
order of `customer_id`. -/
theorem sorted_groupRows (rows : List JoinedRow)
    (hrows : rows.Pairwise (fun a b => a.customer_id ≤ b.customer_id)) :
    (groupRows rows).Pairwise (fun a b => a.customer_id < b.customer_id) := by
  have : ∀ (rows : List JoinedRow) (acc : List CustomerRecord),
      rows.Pairwise (fun a b => a.customer_id ≤ b.customer_id) →
      acc.Pairwise (fun a b => a.customer_id < b.customer_id) →
      (∀ c ∈ acc, ∀ r ∈ rows, c.customer_id ≤ r.customer_id) →
      (rows.foldl groupRow acc).Pairwise (fun a b => a.customer_id < b.customer_id) := by
    intro rows
    induction rows with
    | nil => intro acc _ h _; exact h
    | cons row rows ih =>
        intro acc hrows hacc hle
        rw [List.pairwise_cons] at hrows
        have hstep := sorted_groupRow acc row hacc (fun c hc => hle c hc row (by simp))
        refine ih _ hrows.2 hstep.1 ?_
        intro c hc r hr
        exact Nat.le_trans (hstep.2 c hc) (hrows.1 r hr)
  exact this rows [] hrows List.Pairwise.nil (by simp)

/-- Keys that are not array indices stay in the order of the rows, behind the array
indices, which come in ascending order. -/
theorem groupRows_large_ids_in_row_order :
    (groupRows [sampleRow 4294967296 none none none, sampleRow 7 none none none,
        sampleRow 4294967295 none none none, sampleRow 3 none none none]).map
        (fun c => c.customer_id) = [3, 7, 4294967296, 4294967295] := by
  decide

theorem findRecord_of_mem (cs : List CustomerRecord) (c : CustomerRecord)
    (hs : cs.Pairwise (fun a b => a.customer_id ≠ b.customer_id)) (hc : c ∈ cs) :
    findRecord cs c.customer_id = some c := by
  induction cs with
  | nil => simp at hc
  | cons a cs ih =>
      rw [List.pairwise_cons] at hs
      simp only [findRecord, List.find?_cons] at ih ⊢
      rcases List.mem_cons.mp hc with rfl | hmem
      · simp
      · have hne := hs.1 c hmem
        have hb : (a.customer_id == c.customer_id) = false := by
          simpa using hne
        simp only [hb]
        exact ih hs.2 hmem

/-- A record of the result is the one made from the first row of its customer, with the
entries of all rows of that customer. -/
theorem record_of_mem (rows : List JoinedRow) (c : CustomerRecord) (hc : c ∈ groupRows rows) :
    ∃ r ∈ rows, r.customer_id = c.customer_id ∧
      c = { newRecord r with custom_fields := entriesOf c.customer_id rows } := by
  have h := findRecord_of_mem _ c (distinct_groupRows rows) hc
  rw [findRecord_groupRows] at h
  cases hf : rows.find? (fun r => r.customer_id == c.customer_id) with
  | none => simp [hf] at h
  | some r =>
      rw [hf] at h
      simp only [Option.map_some', Option.some.injEq] at h
      refine ⟨r, List.mem_of_find?_eq_some hf, ?_, h.symm⟩
      have := List.find?_some hf
      simpa using this

theorem entriesOf_eq (id : Nat) (rows : List JoinedRow) :
    entriesOf id rows =
      (rows.filter (fun r => decide (r.customer_id = id) && sqlTruthy r.field_name &&
        sqlTruthy r.field_value)).map
        (fun r => ⟨r.field_name.getD "", r.field_value.getD ""⟩) := by
  induction rows with
  | nil => rfl
  | cons row rows ih =>
      rw [entriesOf_cons, ih]
      by_cases hid : row.customer_id = id
      · rcases hn : row.field_name with _ | n <;> rcases hv : row.field_value with _ | v
        · simp [hid, entryOf, hn, hv, sqlTruthy, List.filter_cons]
        · simp [hid, entryOf, hn, hv, sqlTruthy, List.filter_cons]
        · simp [hid, entryOf, hn, hv, sqlTruthy, List.filter_cons]
        · by_cases h1 : n = "" <;> by_cases h2 : v = "" <;>
            simp [hid, entryOf, hn, hv, sqlTruthy, List.filter_cons, h1, h2]
      · simp [hid, List.filter_cons]

/-- C12: every customer id that occurs in the rows occurs exactly once among the records,
every record belongs to a customer of the rows, and a record whose customer has only rows
with `NULL` as `field_name` and `field_value` has the empty list as `custom_fields`. -/
theorem groupRows_each_customer_once (rows : List JoinedRow) :
    (∀ id ∈ rows.map (fun r => r.customer_id),
        ((groupRows rows).map (fun c => c.customer_id)).count id = 1) ∧
      (∀ c ∈ groupRows rows, c.customer_id ∈ rows.map (fun r => r.customer_id)) ∧
      (∀ c ∈ groupRows rows,
        (∀ r ∈ rows, r.customer_id = c.customer_id →
          r.field_name = none ∧ r.field_value = none) →
        c.custom_fields = []) := by
  refine ⟨?_, ?_, ?_⟩
  · intro id hid
    have hnodup : ((groupRows rows).map (fun c => c.customer_id)).Nodup := by
      rw [List.Nodup, List.pairwise_map]
      exact distinct_groupRows rows
    have hmem : id ∈ (groupRows rows).map (fun c => c.customer_id) := by
      obtain ⟨r, hr, hrid⟩ := List.mem_map.mp hid
      have hfind : (rows.find? (fun r => r.customer_id == id)).isSome = true := by
        rw [List.find?_isSome]
        exact ⟨r, hr, by simpa using hrid⟩
      have h := findRecord_groupRows rows id
      cases hf : rows.find? (fun r => r.customer_id == id) with
      | none => simp [hf] at hfind
      | some r0 =>
          rw [hf] at h
          simp only [Option.map_some'] at h
          have hin := List.mem_of_find?_eq_some h
          have hcid := findRecord_id _ _ _ h
          exact List.mem_map.mpr ⟨_, hin, hcid⟩
    exact List.count_eq_one_of_mem hnodup hmem
  · intro c hc
    obtain ⟨r, hr, hrid, -⟩ := record_of_mem rows c hc
    exact List.mem_map.mpr ⟨r, hr, hrid⟩
  · intro c hc hnull
    obtain ⟨r, -, -, heq⟩ := record_of_mem rows c hc
    have hcf : c.custom_fields = entriesOf c.customer_id rows := by
      conv_lhs => rw [heq]
    rw [hcf, entriesOf_eq]
    have : rows.filter (fun r => decide (r.customer_id = c.customer_id) &&
        sqlTruthy r.field_name && sqlTruthy r.field_value) = [] := by
      rw [List.filter_eq_nil_iff]
      intro r hr
      by_cases hid : r.customer_id = c.customer_id
      · simp [(hnull r hr hid).1, sqlTruthy]
      · simp [hid]
    rw [this]
    rfl

theorem groupRows_each_customer_once_witness :
    ((groupRows [sampleRow 7 (some "Ann") (some "Region") (some "APAC"),
        sampleRow 3 (some "Bob") none none,
        sampleRow 7 (some "Ann") (some "Tier") (some "gold")]).map
        (fun c => c.customer_id)).count 7 = 1 :=
  (groupRows_each_customer_once [sampleRow 7 (some "Ann") (some "Region") (some "APAC"),
    sampleRow 3 (some "Bob") none none,
    sampleRow 7 (some "Ann") (some "Tier") (some "gold")]).1 7 (by decide)

/-- C13: the `custom_fields` of a record are the `field_name`/`field_value` pairs of the
rows of its customer in which both are neither `NULL` nor empty, one per such row and in
row order. -/
theorem groupRows_custom_fields (rows : List JoinedRow) :
    ∀ c ∈ groupRows rows,
      c.custom_fields =
        (rows.filter (fun r => decide (r.customer_id = c.customer_id) &&
          sqlTruthy r.field_name && sqlTruthy r.field_value)).map
          (fun r => ⟨r.field_name.getD "", r.field_value.getD ""⟩) := by
  intro c hc
  obtain ⟨r, -, -, heq⟩ := record_of_mem rows c hc
  have hcf : c.custom_fields = entriesOf c.customer_id rows := by
    conv_lhs => rw [heq]
  rw [hcf, entriesOf_eq]

/-- C14: when the rows are sorted by customer id and then by field name, the records are
in strictly ascending order of `customer_id` and every `custom_fields` list is in
ascending order of `field_name`. -/
theorem groupRows_sorted (rows : List JoinedRow) (hsorted : rows.Pairwise joinedLe) :
    ((groupRows rows).map (fun c => c.customer_id)).Pairwise (fun a b => a < b) ∧
      ∀ c ∈ groupRows rows,
        (c.custom_fields.map (fun e => e.field_name)).Pairwise nameLe := by
  constructor
  · rw [List.pairwise_map]
    refine sorted_groupRows rows (hsorted.imp ?_)
    intro a b hab
    rcases hab with hlt | ⟨heq, -⟩
    · exact Nat.le_of_lt hlt
    · exact Nat.le_of_eq heq
  · intro c hc
    obtain ⟨r, -, -, heq⟩ := record_of_mem rows c hc
    have hcf : c.custom_fields = entriesOf c.customer_id rows := by
      conv_lhs => rw [heq]
    rw [hcf, entriesOf, List.pairwise_map, List.pairwise_filterMap]
    have hfilter := List.Pairwise.filter (fun r => r.customer_id == c.customer_id) hsorted
    refine List.Pairwise.imp_of_mem ?_ hfilter
    intro a b ha hb hab ea hea eb heb
    have haid : a.customer_id = c.customer_id := by
      simpa using (List.mem_filter.mp ha).2
    have hbid : b.customer_id = c.customer_id := by
      simpa using (List.mem_filter.mp hb).2
    simp only [Option.mem_def] at hea heb
    rcases hn : a.field_name with _ | x
    · simp [entryOf, hn] at hea
    rcases hm : b.field_name with _ | y
    · simp [entryOf, hm] at heb
    rcases hab with hlt | ⟨-, hle⟩
    · omega
    · rw [hn, hm] at hle
      simp only at hle
      have hx : ea.field_name = x := by
        rcases hv : a.field_value with _ | v
        · simp [entryOf, hn, hv] at hea
        · simp only [entryOf, hn, hv] at hea
          split at hea
          · simp only [Option.some.injEq] at hea
            rw [← hea]
          · simp at hea
      have hy : eb.field_name = y := by
        rcases hv : b.field_value with _ | v
        · simp [entryOf, hm, hv] at heb
        · simp only [entryOf, hm, hv] at heb
          split at heb
          · simp only [Option.some.injEq] at heb
            rw [← heb]
          · simp at heb
      rw [hx, hy]
      exact hle

theorem groupRows_custom_fields_witness :
    sampleRecord ∈ groupRows sampleRows ∧
      sampleRecord.custom_fields =
        (sampleRows.filter (fun r => decide (r.customer_id = sampleRecord.customer_id) &&
          sqlTruthy r.field_name && sqlTruthy r.field_value)).map
          (fun r => ⟨r.field_name.getD "", r.field_value.getD ""⟩) :=
  ⟨by decide, groupRows_custom_fields sampleRows sampleRecord (by decide)⟩

theorem groupRows_sorted_witness :
    sampleRows.Pairwise joinedLe ∧
      ((groupRows sampleRows).map (fun c => c.customer_id)).Pairwise (fun a b => a < b) ∧
      (sampleRecord.custom_fields.map (fun e => e.field_name)).Pairwise nameLe :=
  ⟨by decide, (groupRows_sorted sampleRows (by decide)).1,
    (groupRows_sorted sampleRows (by decide)).2 sampleRecord (by decide)⟩

theorem nameLe_total (a b : String) : nameLe a b ∨ nameLe b a :=
  le_total a.toList b.toList

theorem nameLe_trans (a b c : String) (hab : nameLe a b) (hbc : nameLe b c) : nameLe a c :=
  le_trans (α := List Char) hab hbc

theorem joinedLe_total (a b : JoinedRow) : joinedLe a b ∨ joinedLe b a := by
  unfold joinedLe
  rcases Nat.lt_trichotomy a.customer_id b.customer_id with h | h | h
  · exact Or.inl (Or.inl h)
  · cases ha : a.field_name with
    | none => exact Or.inl (Or.inr ⟨h, trivial⟩)
    | some x =>
        cases hb : b.field_name with
        | none => exact Or.inr (Or.inr ⟨h.symm, trivial⟩)
        | some y =>
            rcases nameLe_total x y with hxy | hxy
            · exact Or.inl (Or.inr ⟨h, hxy⟩)
            · exact Or.inr (Or.inr ⟨h.symm, hxy⟩)
  · exact Or.inr (Or.inl h)

theorem joinedLe_trans (a b c : JoinedRow) (hab : joinedLe a b) (hbc : joinedLe b c) :
    joinedLe a c := by
  unfold joinedLe at hab hbc ⊢
  rcases hab with hab | ⟨hab, hn⟩
  · rcases hbc with hbc | ⟨hbc, -⟩
    · exact Or.inl (Nat.lt_trans hab hbc)
    · exact Or.inl (hbc ▸ hab)
  · rcases hbc with hbc | ⟨hbc, hm⟩
    · exact Or.inl (hab ▸ hbc)
    · refine Or.inr ⟨hab.trans hbc, ?_⟩
      cases ha : a.field_name with
      | none => trivial
      | some x =>
          rw [ha] at hn
          cases hb : b.field_name with
          | none => rw [hb] at hn; exact hn.elim
          | some y =>
              rw [hb] at hn hm
              cases hc : c.field_name with
              | none => rw [hc] at hm; exact hm.elim
              | some z =>
                  rw [hc] at hm
                  exact nameLe_trans x y z hn hm

/-- The rows of the query are sorted by customer id and then by field name. -/
theorem joinedRows_sorted (db : Database) : (joinedRows db).Pairwise joinedLe := by
  haveI : IsTotal JoinedRow joinedLe := ⟨joinedLe_total⟩
  haveI : IsTrans JoinedRow joinedLe := ⟨joinedLe_trans⟩
  exact List.sorted_insertionSort _ _

/-! ## Release of the connection -/

theorem Session.issue_ends (s : Session) (c : Cmd) :
    (s.issue c).2.ends = s.ends + (if c = .endConnection then 1 else 0) := by
  simp only [Session.ends, Session.issue_log, List.count_append, List.count_singleton]
  by_cases h : c = .endConnection
  · simp [h]
  · have : (c == Cmd.endConnection) = false := by simpa using h
    simp [h, this]

theorem Session.issue_ends_of_ne (s : Session) (c : Cmd) (h : c ≠ .endConnection) :
    (s.issue c).2.ends = s.ends := by
  simp [Session.issue_ends, h]

theorem Waiting.isMain_checkDone (n : Nat) (v : Option String) :
    (Waiting.checkDone n v).isMain = false := rfl

theorem Waiting.isMain_insertDone : Waiting.insertDone.isMain = false := rfl

theorem Waiting.isMain_commitDone : Waiting.commitDone.isMain = true := rfl

theorem Waiting.isMain_rollbackDone (m : String) : (Waiting.rollbackDone m).isMain = true := rfl

theorem Waiting.isMain_endDone : Waiting.endDone.isMain = true := rfl

/-- A callback that returns keeps the invariant. -/
theorem EventLoop.inv_resolve (conn : Session) (rest : List (Cmd × Waiting)) (pending : Nat)
    (settled : Bool) (resp : List Response) (unc : Option String)
    (h1 : ∀ q ∈ rest, (q.1 = Cmd.endConnection ↔ q.2 = Waiting.endDone))
    (h2 : conn.ends + rest.countP (fun q => q.2.isMain) + (if settled then 0 else 1) = 1)
    (h3 : settled = false → pending = rest.countP (fun q => !q.2.isMain) + 1) :
    (EventLoop.resolve ⟨conn, rest, pending, settled, resp, unc⟩).Inv := by
  cases settled with
  | true => exact ⟨h1, by simpa [EventLoop.resolve] using h2, by simp [EventLoop.resolve]⟩
  | false =>
      have hp := h3 rfl
      simp only [Bool.false_eq_true, if_false] at h2
      simp only [EventLoop.resolve, Bool.false_eq_true, if_false]
      by_cases hz : pending - 1 = 0
      · rw [if_pos hz]
        refine ⟨?_, ?_, ?_⟩
        · intro q hq
          rcases List.mem_append.mp hq with hq | hq
          · exact h1 q hq
          · simp only [List.mem_singleton] at hq
            subst hq
            simp
        · simp only [List.countP_append, List.countP_cons, List.countP_nil,
            Waiting.isMain_commitDone, if_true]
          omega
        · intro hcon
          simp at hcon
      · rw [if_neg hz]
        refine ⟨h1, ?_, ?_⟩
        · simpa using h2
        · intro _
          simp only
          omega

/-- A callback that throws keeps the invariant. -/
theorem EventLoop.inv_reject (conn : Session) (rest : List (Cmd × Waiting)) (pending : Nat)
    (settled : Bool) (resp : List Response) (unc : Option String) (message : String)
    (h1 : ∀ q ∈ rest, (q.1 = Cmd.endConnection ↔ q.2 = Waiting.endDone))
    (h2 : conn.ends + rest.countP (fun q => q.2.isMain) + (if settled then 0 else 1) = 1) :
    (EventLoop.reject ⟨conn, rest, pending, settled, resp, unc⟩ message).Inv := by
  cases settled with
  | true => exact ⟨h1, by simpa [EventLoop.reject] using h2, by simp [EventLoop.reject]⟩
  | false =>
      simp only [Bool.false_eq_true, if_false] at h2
      simp only [EventLoop.reject, Bool.false_eq_true, if_false]
      refine ⟨?_, ?_, ?_⟩
      · intro q hq
        rcases List.mem_append.mp hq with hq | hq
        · exact h1 q hq
        · simp only [List.mem_singleton] at hq
          subst hq
          simp
      · simp only [List.countP_append, List.countP_cons, List.countP_nil,
          Waiting.isMain_rollbackDone, if_true]
        omega
      · intro hcon
        simp at hcon

/-- A command of the handler that is followed by the next one keeps the invariant. -/
theorem EventLoop.inv_next (conn : Session) (rest : List (Cmd × Waiting)) (pending : Nat)
    (resp : List Response) (unc : Option String) (next : Cmd × Waiting)
    (hn : next.2.isMain = true) (hne : next.1 = Cmd.endConnection ↔ next.2 = Waiting.endDone)
    (h1 : ∀ q ∈ rest, (q.1 = Cmd.endConnection ↔ q.2 = Waiting.endDone))
    (h2 : conn.ends + rest.countP (fun q => q.2.isMain) = 0) :
    EventLoop.Inv ⟨conn, rest ++ [next], pending, true, resp, unc⟩ := by
  refine ⟨?_, ?_, ?_⟩
  · intro q hq
    rcases List.mem_append.mp hq with hq | hq
    · exact h1 q hq
    · simp only [List.mem_singleton] at hq
      subst hq
      exact hne
  · simp only [List.countP_append, List.countP_cons, List.countP_nil, hn, if_true]
    omega
  · intro hcon
    simp at hcon

/-- One executed command keeps the invariant of the request. -/
theorem EventLoop.inv_step (id : String) (st : EventLoop) (h : st.Inv) :
    (st.step id).Inv := by
  rcases st with ⟨conn, queue, pending, settled, resp, unc⟩
  cases queue with
  | nil => simpa [EventLoop.step] using h
  | cons q rest =>
      rcases q with ⟨c, w⟩
      obtain ⟨h1, h2, h3⟩ := h
      have hhead := h1 (c, w) (by simp)
      have hrest : ∀ q ∈ rest, (q.1 = Cmd.endConnection ↔ q.2 = Waiting.endDone) :=
        fun q hq => h1 q (by simp [hq])
      have hends := Session.issue_ends conn c
      simp only [List.countP_cons] at h2 h3
      simp only [EventLoop.step]
      generalize conn.issue c = r at hends ⊢
      rcases r with ⟨e, conn1⟩
      simp only at hends hhead ⊢
      cases w with
      | checkDone fieldId fieldValue =>
          have hc : c ≠ Cmd.endConnection := fun hc => by simpa using hhead.mp hc
          simp only [hc, if_false, Nat.add_zero] at hends
          simp only [Waiting.isMain_checkDone, Bool.false_eq_true, if_false, Nat.add_zero,
            Bool.not_false, if_true] at h2 h3
          rw [← hends] at h2
          cases e with
          | some e => exact EventLoop.inv_reject _ _ _ _ _ _ _ hrest h2
          | none =>
              simp only
              split
              · exact EventLoop.inv_resolve _ _ _ _ _ _ hrest h2 (fun hs => (h3 hs).1)
              · refine ⟨?_, ?_, ?_⟩
                · intro q hq
                  rcases List.mem_append.mp hq with hq | hq
                  · exact hrest q hq
                  · simp only [List.mem_singleton] at hq
                    subst hq
                    simp [insertCustomValuesCmd]
                · simp only [List.countP_append, List.countP_cons, List.countP_nil,
                    Waiting.isMain_insertDone, Bool.false_eq_true, if_false, Nat.add_zero]
                  exact h2
                · intro hs
                  have := h3 hs
                  simp only [List.countP_append, List.countP_cons, List.countP_nil,
                    Waiting.isMain_insertDone, Bool.not_false, if_true]
                  omega
      | insertDone =>
          have hc : c ≠ Cmd.endConnection := fun hc => by simpa using hhead.mp hc
          simp only [hc, if_false, Nat.add_zero] at hends
          simp only [Waiting.isMain_insertDone, Bool.false_eq_true, if_false, Nat.add_zero,
            Bool.not_false, if_true] at h2 h3
          rw [← hends] at h2
          cases e with
          | some e => exact EventLoop.inv_reject _ _ _ _ _ _ _ hrest h2
          | none => exact EventLoop.inv_resolve _ _ _ _ _ _ hrest h2 (fun hs => (h3 hs).1)
      | commitDone =>
          have hc : c ≠ Cmd.endConnection := fun hc => by simpa using hhead.mp hc
          simp only [hc, if_false, Nat.add_zero] at hends
          simp only [Waiting.isMain_commitDone, Waiting.isMain_rollbackDone,
            Waiting.isMain_endDone, if_true] at h2
          have hset : settled = true := by
            cases settled
            · simp only [Bool.false_eq_true, if_false] at h2
              omega
            · rfl
          subst hset
          simp only [if_true, Nat.add_zero] at h2
          rw [← hends] at h2
          cases e with
          | some e => exact EventLoop.inv_next _ _ _ _ _ _ rfl (by simp) hrest (by omega)
          | none => exact EventLoop.inv_next _ _ _ _ _ _ rfl (by simp) hrest (by omega)
      | rollbackDone message =>
          have hc : c ≠ Cmd.endConnection := fun hc => by simpa using hhead.mp hc
          simp only [hc, if_false, Nat.add_zero] at hends
          simp only [Waiting.isMain_commitDone, Waiting.isMain_rollbackDone,
            Waiting.isMain_endDone, if_true] at h2
          have hset : settled = true := by
            cases settled
            · simp only [Bool.false_eq_true, if_false] at h2
              omega
            · rfl
          subst hset
          simp only [if_true, Nat.add_zero] at h2
          rw [← hends] at h2
          cases e with
          | some e => exact EventLoop.inv_next _ _ _ _ _ _ rfl (by simp) hrest (by omega)
          | none => exact EventLoop.inv_next _ _ _ _ _ _ rfl (by simp) hrest (by omega)
      | endDone =>
          have hc : c = Cmd.endConnection := hhead.mpr rfl
          simp only [hc, if_true] at hends
          simp only [Waiting.isMain_commitDone, Waiting.isMain_rollbackDone,
            Waiting.isMain_endDone, if_true] at h2
          have hset : settled = true := by
            cases settled
            · simp only [Bool.false_eq_true, if_false] at h2
              omega
            · rfl
          subst hset
          simp only [if_true, Nat.add_zero] at h2
          cases e with
          | some e => exact ⟨hrest, by simp only [if_true]; omega, by simp⟩
          | none => exact ⟨hrest, by simp only [if_true]; omega, by simp⟩

theorem EventLoop.inv_run (id : String) (k : Nat) :
    ∀ st : EventLoop, st.Inv → (EventLoop.run id k st).Inv := by
  induction k with
  | zero => intro st h; exact h
  | succ k ih => intro st h; exact ih _ (EventLoop.inv_step id st h)

/-- A request whose queue is empty and whose invariant holds has closed its connection
exactly once. -/
theorem EventLoop.ends_of_inv (st : EventLoop) (h : st.Inv) (hq : st.queue = []) :
    st.conn.ends = 1 := by
  obtain ⟨-, h2, h3⟩ := h
  rw [hq] at h2 h3
  simp only [List.countP_nil, Nat.add_zero] at h2 h3
  cases hs : st.settled with
  | true => simpa [hs] using h2
  | false =>
      have := h3 hs
      omega

theorem firstCommand_callback (id : String) (f : ValueSpec) (q : Cmd × Waiting)
    (h : firstCommand id f = some q) :
    q.2.isMain = false ∧ q.1 ≠ Cmd.endConnection ∧ q.2 ≠ Waiting.endDone := by
  simp only [firstCommand] at h
  split at h
  · simp at h
  · split at h
    · simp only [Option.some.injEq] at h
      subst h
      simp [Waiting.isMain, checkCustomFieldExistsCmd]
    · simp at h

theorem filterMap_firstCommand_callbacks (id : String) (es : List ValueSpec) :
    (∀ q ∈ es.filterMap (firstCommand id),
        (q.1 = Cmd.endConnection ↔ q.2 = Waiting.endDone)) ∧
      (es.filterMap (firstCommand id)).countP (fun q => q.2.isMain) = 0 ∧
      (es.filterMap (firstCommand id)).countP (fun q => !q.2.isMain) =
        (es.filterMap (firstCommand id)).length := by
  have hall : ∀ q ∈ es.filterMap (firstCommand id),
      q.2.isMain = false ∧ q.1 ≠ Cmd.endConnection ∧ q.2 ≠ Waiting.endDone := by
    intro q hq
    obtain ⟨f, -, hf⟩ := List.mem_filterMap.mp hq
    exact firstCommand_callback id f q hf
  refine ⟨?_, ?_, ?_⟩
  · intro q hq
    obtain ⟨-, h2, h3⟩ := hall q hq
    exact ⟨fun h => absurd h h2, fun h => absurd h h3⟩
  · rw [List.countP_eq_zero]
    intro q hq
    simp [(hall q hq).1]
  · rw [List.countP_eq_length]
    intro q hq
    simp [(hall q hq).1]

theorem filterMap_firstCommand_length (id : String) (es : List ValueSpec)
    (h : es.find? ValueSpec.rejected = none) :
    (es.filterMap (firstCommand id)).length = es.length := by
  rw [List.find?_eq_none] at h
  induction es with
  | nil => rfl
  | cons f es ih =>
      have hf : f.rejected = false := by simpa using h f (by simp)
      rw [List.filterMap_cons, firstCommand_accepted id f hf]
      simp only [List.length_cons]
      rw [ih (fun x hx => h x (by simp [hx]))]

/-- The request satisfies the invariant when the queue starts to run. -/
theorem afterMap_inv (s : Session) (id : String) (es : List ValueSpec) (hs : s.ends = 0)
    (hne : es ≠ []) : (afterMap s id es).Inv := by
  obtain ⟨h1, h2, h3⟩ := filterMap_firstCommand_callbacks id es
  simp only [afterMap]
  cases hfind : es.find? ValueSpec.rejected with
  | some f =>
      refine ⟨?_, ?_, ?_⟩
      · intro q hq
        rcases List.mem_append.mp hq with hq | hq
        · exact h1 q hq
        · simp only [List.mem_singleton] at hq
          subst hq
          simp
      · simp only [List.countP_append, List.countP_cons, List.countP_nil,
          Waiting.isMain_rollbackDone, if_true, h2, hs]
      · intro hcon
        simp at hcon
  | none =>
      have hlen := filterMap_firstCommand_length id es hfind
      have hpos : 0 < es.length := List.length_pos.mpr hne
      refine ⟨h1, ?_, ?_⟩
      · simp [h2, hs]
      · intro _
        simp only [h3, hlen]
        exact ⟨trivial, hpos⟩

/-- Every `addCustomValues` request that obtained a connection executes `connection.end()`
exactly once on it, whatever the entries and whichever commands fail. -/
theorem addCustomValuesLoop_ends (s0 : Session) (id : String) (es : List ValueSpec)
    (hs : s0.ends = 0) (hne : es ≠ []) : (addCustomValuesLoop s0 id es).conn.ends = 1 := by
  apply EventLoop.ends_of_inv _ _ (addCustomValuesLoop_queue_empty s0 id es)
  have hbegin := Session.issue_ends_of_ne s0 .beginTransaction (by simp)
  unfold addCustomValuesLoop
  rcases hi : s0.issue .beginTransaction with ⟨e, s1⟩
  rw [hi] at hbegin
  simp only at hbegin
  cases e with
  | some e =>
      simp only
      apply EventLoop.inv_run
      refine ⟨?_, ?_, ?_⟩
      · intro q hq
        simp only [List.mem_singleton] at hq
        subst hq
        simp
      · simp only [List.countP_cons, List.countP_nil, Waiting.isMain_rollbackDone, if_true,
          hbegin, hs]
      · intro hcon
        simp at hcon
  | none =>
      simp only
      apply EventLoop.inv_run
      exact afterMap_inv s1 id es (by rw [hbegin, hs]) hne

theorem addCustomValues_ends (env : Server) (id : String)
    (customFields : Option (List ValueSpec)) :
    ∀ s, (addCustomValues env id customFields).conn = some s → s.ends = 1 := by
  intro s hconn
  rcases env with ⟨db, connectError, faults⟩
  cases customFields with
  | none => simp [addCustomValues] at hconn
  | some es =>
      cases es with
      | nil => simp [addCustomValues] at hconn
      | cons a l =>
          simp only [addCustomValues] at hconn
          split at hconn
          · simp at hconn
          · cases connectError with
            | some e => simp [connectDB] at hconn
            | none =>
                simp only [connectDB, Option.some.injEq] at hconn
                rw [← hconn]
                exact addCustomValuesLoop_ends _ id (a :: l) rfl (by simp)

theorem columnExists_ends (s : Session) (n : String) : (columnExists s n).2.ends = s.ends := by
  have h := Session.issue_ends_of_ne s (.execute (.selectColumn n)) (by simp)
  unfold columnExists
  rcases hi : s.issue (.execute (.selectColumn n)) with ⟨e, s1⟩
  rw [hi] at h
  cases e <;> exact h

theorem insertCustomField_ends (s : Session) (n t : JsVal) (o : Option (List String)) :
    (insertCustomField s n t o).2.ends = s.ends := by
  unfold insertCustomField
  simp only
  split
  · rfl
  · exact Session.issue_ends_of_ne s _ (by simp)

theorem addColumnToCustomers_ends (s : Session) (n t : JsVal) :
    (addColumnToCustomers s n t).2.ends = s.ends := by
  unfold addColumnToCustomers
  split
  · rfl
  · split
    · rfl
    · exact Session.issue_ends_of_ne s _ (by simp)

theorem addCustomFieldEntry_ends (s : Session) (field : FieldSpec) :
    (addCustomFieldEntry s field).2.ends = s.ends := by
  have h1 := columnExists_ends s field.fieldName.toString
  unfold addCustomFieldEntry
  split
  · rfl
  · split
    · rfl
    · rcases hc : columnExists s field.fieldName.toString with ⟨r, s1⟩
      rw [hc] at h1
      simp only at h1
      have h2 := insertCustomField_ends s1 field.fieldName field.fieldType field.dropdownOptions
      rcases r with e | b
      · exact h1
      · cases b with
        | true => exact h1
        | false =>
            simp only
            rcases hi : insertCustomField s1 field.fieldName field.fieldType
              field.dropdownOptions with ⟨e2, s2⟩
            rw [hi] at h2
            simp only at h2
            have h3 := addColumnToCustomers_ends s2 field.fieldName field.fieldType
            cases e2 with
            | some e2 => simp only; omega
            | none =>
                simp only
                rcases ha : addColumnToCustomers s2 field.fieldName field.fieldType with
                  ⟨e3, s3⟩
                rw [ha] at h3
                simp only at h3
                cases e3 <;> simp only <;> omega

theorem addCustomFieldLoop_ends (fields : List FieldSpec) :
    ∀ s : Session, (addCustomFieldLoop s fields).2.ends = s.ends := by
  induction fields with
  | nil => intro s; rfl
  | cons f fs ih =>
      intro s
      have h1 := addCustomFieldEntry_ends s f
      simp only [addCustomFieldLoop]
      rcases he : addCustomFieldEntry s f with ⟨x, s1⟩
      rw [he] at h1
      simp only at h1
      cases x with
      | completed => simp only; rw [ih s1, h1]
      | returned r => exact h1
      | threw m => exact h1

theorem addCustomFieldTry_ends (s0 : Session) (fields : List FieldSpec) :
    (addCustomFieldTry s0 fields).2.ends = s0.ends := by
  have h1 := Session.issue_ends_of_ne s0 .beginTransaction (by simp)
  unfold addCustomFieldTry
  rcases hb : s0.issue .beginTransaction with ⟨e, s1⟩
  rw [hb] at h1
  simp only at h1
  cases e with
  | some e => exact h1
  | none =>
      simp only
      have h2 := addCustomFieldLoop_ends fields s1
      rcases hl : addCustomFieldLoop s1 fields with ⟨x, s2⟩
      rw [hl] at h2
      simp only at h2
      have h3 := Session.issue_ends_of_ne s2 .commit (by simp)
      cases x with
      | completed =>
          simp only
          rcases hc : s2.issue .commit with ⟨e3, s3⟩
          rw [hc] at h3
          simp only at h3
          cases e3 <;> simp only <;> omega
      | returned r => simp only; omega
      | threw m => simp only; omega

theorem finallyEnd_ends (responses : List Response) (uncaught : Option String) (s : Session) :
    ∀ s', (finallyEnd responses uncaught s).conn = some s' → s'.ends = s.ends + 1 := by
  intro s' h
  have h1 := Session.issue_ends s .endConnection
  simp only [if_true] at h1
  unfold finallyEnd at h
  rcases he : s.issue .endConnection with ⟨e, s1⟩
  rw [he] at h h1
  cases e <;> simp only [Option.some.injEq] at h <;> rw [← h] <;> exact h1

theorem addCustomField_ends (env : Server) (formFields : Option (List FieldSpec)) :
    ∀ s, (addCustomField env formFields).conn = some s → s.ends = 1 := by
  intro s hconn
  rcases env with ⟨db, connectError, faults⟩
  cases formFields with
  | none => simp [addCustomField] at hconn
  | some fields =>
      cases fields with
      | nil => simp [addCustomField] at hconn
      | cons a l =>
          cases connectError with
          | some e => simp [addCustomField, connectDB] at hconn
          | none =>
              simp only [addCustomField, connectDB] at hconn
              have h1 := addCustomFieldTry_ends ⟨db, db, false, false, [], faults⟩ (a :: l)
              rcases ht : addCustomFieldTry ⟨db, db, false, false, [], faults⟩ (a :: l) with
                ⟨x, s1⟩
              rw [ht] at h1 hconn
              have h0 : s1.ends = 0 := h1
              cases x with
              | completed =>
                  have := finallyEnd_ends _ _ _ s hconn
                  omega
              | returned r =>
                  have := finallyEnd_ends _ _ _ s hconn
                  omega
              | threw m =>
                  simp only at hconn
                  have h2 := Session.issue_ends_of_ne s1 .rollback (by simp)
                  rcases hr : s1.issue .rollback with ⟨e2, s2⟩
                  rw [hr] at h2 hconn
                  simp only at h2
                  cases e2 with
                  | some e2 =>
                      have := finallyEnd_ends _ _ _ s hconn
                      omega
                  | none =>
                      have := finallyEnd_ends _ _ _ s hconn
                      omega

theorem getCustomersWithCustomFields_ends (env : Server) :
    ∀ s ∈ (getCustomersWithCustomFields env).conns, s.ends = 1 := by
  intro s hs
  rcases env with ⟨db, connectError, faults⟩
  cases connectError with
  | some e => simp [getCustomersWithCustomFields, connectDB] at hs
  | none =>
      simp only [getCustomersWithCustomFields, connectDB] at hs
      have h1 := Session.issue_ends_of_ne ⟨db, db, false, false, [], faults⟩
        (.execute .selectJoined) (by simp)
      have h2 := Session.issue_ends
        (Session.issue ⟨db, db, false, false, [], faults⟩ (.execute .selectJoined)).2
        .endConnection
      simp only [if_true] at h2
      rcases he : (Session.issue ⟨db, db, false, false, [], faults⟩
        (.execute .selectJoined)).2.issue .endConnection with ⟨e, s1⟩
      rw [he] at hs h2
      have h0 : (⟨db, db, false, false, [], faults⟩ : Session).ends = 0 := rfl
      cases e <;> simp only [List.mem_singleton] at hs <;> rw [hs] <;> simp only at h2 <;>
        omega

theorem updateCustomValuesWrite_ends (s0 : Session) (id : String) (fields : List ValueSpec) :
    (updateCustomValuesWrite s0 id fields).2.ends = s0.ends := by
  have h1 := Session.issue_ends_of_ne s0 .beginTransaction (by simp)
  unfold updateCustomValuesWrite
  rcases hb : s0.issue .beginTransaction with ⟨e, s1⟩
  rw [hb] at h1
  simp only at h1
  cases e with
  | some e => exact h1
  | none =>
      simp only
      split
      · exact h1
      · split
        · exact h1
        · split
          · exact h1
          · next whens _ =>
              have h2 := Session.issue_ends_of_ne s1
                (.execute (.updateValuesCase whens id (whens.map (fun w => w.1)))) (by simp)
              rcases hx : s1.issue
                (.execute (.updateValuesCase whens id (whens.map (fun w => w.1)))) with ⟨e2, s2⟩
              rw [hx] at h2
              simp only at h2
              cases e2 with
              | some e2 =>
                  simp only [hx]
                  omega
              | none =>
                  have h3 := Session.issue_ends_of_ne s2 .commit (by simp)
                  rcases hc : s2.issue .commit with ⟨e3, s3⟩
                  rw [hc] at h3
                  simp only at h3
                  cases e3 <;> simp only [hx, hc] <;> omega

theorem updateCustomValuesCatch_ends (message : String) (s : Session) (sent : List Reply)
    (others : List Session) (hs : s.ends = 0) (ho : ∀ x ∈ others, x.ends = 1) :
    ∀ x ∈ (updateCustomValuesCatch message s sent others).conns, x.ends = 1 := by
  have h1 := Session.issue_ends_of_ne s .rollback (by simp)
  unfold updateCustomValuesCatch
  rcases hr : s.issue .rollback with ⟨e, s1⟩
  rw [hr] at h1
  simp only at h1
  have h2 := Session.issue_ends s1 .endConnection
  simp only [if_true] at h2
  rcases he : s1.issue .endConnection with ⟨e2, s2⟩
  rw [he] at h2
  simp only at h2
  have hs2 : s2.ends = 1 := by omega
  have hall : ∀ x ∈ s2 :: others, x.ends = 1 := by
    intro x hx
    rcases List.mem_cons.mp hx with rfl | hx
    · exact hs2
    · exact ho x hx
  cases e with
  | some e =>
      simp only [he]
      cases e2 <;> exact hall
  | none =>
      simp only
      cases sendReply sent (updateValuesFailed message) with
      | error e3 =>
          simp only [he]
          cases e2 <;> exact hall
      | ok sent1 =>
          simp only [he]
          cases e2 <;> exact hall

theorem updateCustomValues_ends (env second : Server) (id : JsVal)
    (customFields : Option (List ValueSpec)) :
    ∀ s ∈ (updateCustomValues env second id customFields).conns, s.ends = 1 := by
  intro s hs
  rcases env with ⟨db, connectError, faults⟩
  unfold updateCustomValues at hs
  simp only at hs
  split at hs
  · next cid field fields =>
      split at hs
      · simp at hs
      · cases connectError with
        | some e => simp [connectDB] at hs
        | none =>
            simp only [connectDB] at hs
            have h1 := updateCustomValuesWrite_ends ⟨db, db, false, false, [], faults⟩ cid
              (field :: fields)
            rcases hw : updateCustomValuesWrite ⟨db, db, false, false, [], faults⟩ cid
              (field :: fields) with ⟨w, s1⟩
            rw [hw] at h1 hs
            have h0 : s1.ends = 0 := h1
            have hinner := getCustomersWithCustomFields_ends
              ⟨s1.durable, second.connectError, second.faults⟩
            have hend := Session.issue_ends s1 .endConnection
            simp only [if_true] at hend
            cases w with
            | threw e =>
                exact updateCustomValuesCatch_ends e s1 [] [] h0 (by simp) s hs
            | returned r =>
                simp only at hs
                rcases he : s1.issue .endConnection with ⟨e2, s2⟩
                rw [he] at hs hend
                simp only at hend
                cases e2 <;> simp only [List.mem_singleton] at hs <;> rw [hs] <;> omega
            | committed n =>
                simp only at hs
                split at hs
                · exact updateCustomValuesCatch_ends _ s1 _ _ h0 hinner s hs
                · split at hs
                  · exact updateCustomValuesCatch_ends _ s1 _ _ h0 hinner s hs
                  · rcases he : s1.issue .endConnection with ⟨e2, s2⟩
                    rw [he] at hs hend
                    simp only at hend
                    have hs2 : s2.ends = 1 := by omega
                    cases e2 <;> simp only [List.mem_cons] at hs <;>
                      rcases hs with rfl | hs <;> first | exact hs2 | exact hinner s hs
  · simp at hs

/-- C19: in `addCustomField`, `addCustomValues` and `updateCustomValues`, whatever the
request and whichever commands fail, every connection the request obtained has executed
`connection.end()` exactly once when the request is over. -/
theorem connection_ended_exactly_once (env second : Server)
    (formFields : Option (List FieldSpec)) (comp_unique_id : String)
    (customFields : Option (List ValueSpec)) (id : JsVal) :
    (∀ s, (addCustomField env formFields).conn = some s →
        s.log.count .endConnection = 1) ∧
      (∀ s, (addCustomValues env comp_unique_id customFields).conn = some s →
        s.log.count .endConnection = 1) ∧
      (∀ s ∈ (updateCustomValues env second id customFields).conns,
        s.log.count .endConnection = 1) :=
  ⟨addCustomField_ends env formFields, addCustomValues_ends env comp_unique_id customFields,
    updateCustomValues_ends env second id customFields⟩

theorem connection_ended_exactly_once_witness :
    (addCustomField sampleServer (some batchWithInvalidType)).conn.map
        (fun s => s.log.count .endConnection) = some 1 := by
  cases h : (addCustomField sampleServer (some batchWithInvalidType)).conn with
  | none => exact absurd h (by decide)
  | some s =>
      have := (connection_ended_exactly_once sampleServer sampleServer
        (some batchWithInvalidType) "CUST-001" none .null).1 s h
      simp [this]

/-! ## The text of the column statement -/

theorem isColumnChar_iff (c : Char) : isColumnChar c = true ↔ isNameChar c := by
  have h65 : (UInt32.toBitVec 65).toNat = 65 := rfl
  have h90 : (UInt32.toBitVec 90).toNat = 90 := rfl
  have h97 : (UInt32.toBitVec 97).toNat = 97 := rfl
  have h122 : (UInt32.toBitVec 122).toNat = 122 := rfl
  have h48 : (UInt32.toBitVec 48).toNat = 48 := rfl
  have h57 : (UInt32.toBitVec 57).toNat = 57 := rfl
  simp only [isColumnChar, isNameChar, Char.isAlphanum, Char.isAlpha, Char.isUpper,
    Char.isLower, Char.isDigit, Bool.or_eq_true, Bool.and_eq_true, decide_eq_true_eq,
    beq_iff_eq, Char.toNat, UInt32.le_def, ge_iff_le, BitVec.le_def, UInt32.toNat,
    h65, h90, h97, h122, h48, h57]
  tauto

theorem isValidColumnName_iff (name : String) :
    isValidColumnName name = true ↔ name ≠ "" ∧ ∀ c ∈ name.data, isNameChar c := by
  have hne : name ≠ "" ↔ name.data ≠ [] := by
    constructor
    · intro h hd
      exact h (String.ext hd)
    · intro h hn
      exact h (by rw [hn])
  simp only [isValidColumnName, Bool.and_eq_true, Bool.not_eq_true', List.isEmpty_eq_false,
    List.all_eq_true, isColumnChar_iff, hne]

theorem isNameChar_plain (c : Char) (h : isNameChar c) :
    c ≠ Char.ofNat 96 ∧ c ≠ Char.ofNat 39 ∧ c ≠ Char.ofNat 34 ∧ c ≠ ';' ∧
      c ≠ Char.ofNat 10 := by
  have hc := (isColumnChar_iff c).mpr h
  refine ⟨?_, ?_, ?_, ?_, ?_⟩ <;> intro heq <;> rw [heq] at hc <;> exact absurd hc (by decide)

/-- C22: when `addColumnToCustomers` sends a statement, the name is not empty and made
only of ASCII letters, digits, underscores and blanks (so it holds no backtick, no single
or double quote, no semicolon and no newline), the statement is the only one sent, and its
text is `ALTER TABLE customers ADD COLUMN`, the name between backticks, a blank and the
column type; for every other name the function throws `Invalid column name` and sends
nothing. -/
theorem addColumnToCustomers_statement_text (s : Session) (fieldName fieldType : JsVal) :
    ((addColumnToCustomers s fieldName fieldType).2.log ≠ s.log →
      fieldName.toString ≠ "" ∧
      (∀ c ∈ fieldName.toString.data, isNameChar c ∧ c ≠ Char.ofNat 96 ∧
        c ≠ Char.ofNat 39 ∧ c ≠ Char.ofNat 34 ∧ c ≠ ';' ∧ c ≠ Char.ofNat 10) ∧
      ∃ columnType, columnTypeOf fieldType = some columnType ∧
        (addColumnToCustomers s fieldName fieldType).2.log =
          s.log ++ [.execute (.alterAddColumn fieldName.toString columnType)] ∧
        (Stmt.alterAddColumn fieldName.toString columnType).text =
          "ALTER TABLE customers ADD COLUMN `" ++ fieldName.toString ++ "` " ++
            columnType) ∧
      (¬ (fieldName.toString ≠ "" ∧ ∀ c ∈ fieldName.toString.data, isNameChar c) →
        addColumnToCustomers s fieldName fieldType =
          (some ("Invalid column name: " ++ fieldName.toString), s)) := by
  constructor
  · intro hlog
    by_cases hv : isValidColumnName fieldName.toString = true
    · have hname := (isValidColumnName_iff _).mp hv
      refine ⟨hname.1, fun c hc => ⟨hname.2 c hc, isNameChar_plain c (hname.2 c hc)⟩, ?_⟩
      cases hty : columnTypeOf fieldType with
      | none => simp [addColumnToCustomers, hv, hty] at hlog
      | some columnType =>
          refine ⟨columnType, rfl, ?_, rfl⟩
          simp only [addColumnToCustomers, hv, hty, Bool.not_true, Bool.false_eq_true,
            if_false, Session.issue_log]
    · simp [addColumnToCustomers, hv] at hlog
  · intro hname
    have hv : isValidColumnName fieldName.toString = false := by
      cases h : isValidColumnName fieldName.toString with
      | false => rfl
      | true => exact absurd ((isValidColumnName_iff _).mp h) hname
    simp [addColumnToCustomers, hv]

theorem addColumnToCustomers_statement_text_witness :
    (addColumnToCustomers sampleSession (.str "Region 1") (.str "text")).2.log ≠
        sampleSession.log ∧
      (∃ columnType, columnTypeOf (.str "text") = some columnType ∧
        (addColumnToCustomers sampleSession (.str "Region 1") (.str "text")).2.log =
          sampleSession.log ++
            [.execute (.alterAddColumn (JsVal.str "Region 1").toString columnType)] ∧
        (Stmt.alterAddColumn (JsVal.str "Region 1").toString columnType).text =
          "ALTER TABLE customers ADD COLUMN `" ++ (JsVal.str "Region 1").toString ++ "` " ++
            columnType) ∧
      addColumnToCustomers sampleSession (.str "a`; DROP TABLE customers") (.str "text") =
        (some ("Invalid column name: " ++
          (JsVal.str "a`; DROP TABLE customers").toString), sampleSession) :=
  ⟨by decide,
    ((addColumnToCustomers_statement_text sampleSession (.str "Region 1") (.str "text")).1
      (by decide)).2.2,
    (addColumnToCustomers_statement_text sampleSession
      (.str "a`; DROP TABLE customers") (.str "text")).2 (by decide)⟩

/-! ## The statement of `updateCustomValues` -/

theorem count_intercalate_go (c : Char) (sep : String) (l : List String) :
    ∀ acc : String, (String.intercalate.go acc sep l).data.count c =
      acc.data.count c + l.length * sep.data.count c + (l.map (fun a => a.data.count c)).sum := by
  induction l with
  | nil => intro acc; simp [String.intercalate.go]
  | cons a l ih =>
      intro acc
      rw [String.intercalate.go, ih]
      simp only [String.data_append, List.count_append, List.length_cons, List.map_cons,
        List.sum_cons]
      ring

theorem count_intercalate (c : Char) (sep : String) (a : String) (l : List String) :
    (sep.intercalate (a :: l)).data.count c =
      a.data.count c + l.length * sep.data.count c + (l.map (fun a => a.data.count c)).sum := by
  rw [String.intercalate, count_intercalate_go]

theorem sum_map_const {α : Type} (l : List α) (k : Nat) : (l.map (fun _ => k)).sum = l.length * k := by
  induction l with
  | nil => simp
  | cons a l ih => simp [ih]; ring

theorem placeholders_updateQuery (customFields : List ValueSpec) :
    placeholders (updateQuery customFields) = 3 * customFields.length + 1 := by
  cases customFields with
  | nil => decide
  | cons f fs =>
      have h1 : ("UPDATE custom_field_values SET field_value = CASE " : String).data.count '?' = 0 := by
        decide
      have h2 : (" END WHERE comp_unique_id = ? AND field_id IN (" : String).data.count '?' = 1 := by
        decide
      have h3 : (")" : String).data.count '?' = 0 := by decide
      have h4 : ("WHEN field_id = ? THEN ?" : String).data.count '?' = 2 := by decide
      have h5 : (" " : String).data.count '?' = 0 := by decide
      have h6 : (", " : String).data.count '?' = 0 := by decide
      have h7 : ("?" : String).data.count '?' = 1 := by decide
      simp only [placeholders, updateQuery, String.data_append, List.count_append, List.map_cons,
        count_intercalate, List.map_map, Function.comp_def, h1, h2, h3, h4, h5, h6, h7,
        sum_map_const, List.length_map, List.length_cons]
      ring

theorem flatMap_pair_length {α β : Type} (l : List α) (a b : α → β) :
    (l.flatMap (fun f => [a f, b f])).length = 2 * l.length := by
  induction l with
  | nil => rfl
  | cons x l ih => simp only [List.flatMap_cons, List.length_append, ih, List.length_cons,
      List.length_nil]; omega

theorem flatMap_pair_get {α β : Type} (a b : α → β) (rest : List β) (l : List α) :
    ∀ (i : Nat) (f : α), l[i]? = some f →
      (l.flatMap (fun f => [a f, b f]) ++ rest)[2 * i]? = some (a f) ∧
        (l.flatMap (fun f => [a f, b f]) ++ rest)[2 * i + 1]? = some (b f) := by
  induction l with
  | nil => intro i f h; simp at h
  | cons x l ih =>
      intro i f h
      cases i with
      | zero =>
          simp only [List.getElem?_cons_zero, Option.some.injEq] at h
          subst h
          simp
      | succ i =>
          simp only [List.getElem?_cons_succ] at h
          have := ih i f h
          have e1 : 2 * (i + 1) = 2 * i + 1 + 1 := by ring
          have e2 : 2 * (i + 1) + 1 = 2 * i + 1 + 1 + 1 := by ring
          simp only [List.flatMap_cons, List.cons_append, List.nil_append, e1, e2,
            List.getElem?_cons_succ]
          exact this

theorem updateParams_length (comp_unique_id : String) (customFields : List ValueSpec) :
    (updateParams comp_unique_id customFields).length = 3 * customFields.length + 1 := by
  simp only [updateParams, List.length_append, flatMap_pair_length, List.length_map,
    List.length_cons, List.length_nil]
  omega

theorem updateCustomValuesWrite_not_returned (s0 : Session) (comp_unique_id : String)
    (customFields : List ValueSpec) (r : Reply) :
    (updateCustomValuesWrite s0 comp_unique_id customFields).1 ≠ .returned r := by
  have hlen : ¬ (updateParams comp_unique_id customFields).length = 0 := by
    rw [updateParams_length]
    omega
  unfold updateCustomValuesWrite
  rcases s0.issue .beginTransaction with ⟨e1, s1⟩
  cases e1 with
  | some e => simp
  | none =>
      simp only [hlen, if_false]
      split
      · simp
      · split
        · simp
        · split
          · simp
          · split <;> simp

theorem text_updateValuesCase (comp_unique_id : String) (customFields : List ValueSpec) :
    ∀ whens, whensOf customFields = some whens →
      (Stmt.updateValuesCase whens comp_unique_id (whens.map (fun w => w.1))).text =
        updateQuery customFields := by
  intro whens h
  have hmap : ∀ (cf : List ValueSpec) (ws : List (Nat × Option String)) (x : String),
      whensOf cf = some ws → ws.map (fun _ => x) = cf.map (fun _ => x) := by
    intro cf
    induction cf with
    | nil => intro ws x h; simp [whensOf] at h; subst h; rfl
    | cons f fs ih =>
        intro ws x h
        simp only [whensOf] at h
        split at h
        · rename_i n ws1 hn hws
          simp only [Option.some.injEq] at h
          subst h
          simp [ih ws1 x hws]
        · simp at h
  simp only [Stmt.text, updateQuery, List.map_map, Function.comp_def, hmap customFields whens _ h]

/-- C23: for a list of `n` entries the text of the `UPDATE` of `updateCustomValues` has
`3n + 1` placeholders and `params` has `3n + 1` elements in the order of the placeholders:
`fieldId` and `fieldValue` of entry `i` at the positions `2i` and `2i + 1`,
`comp_unique_id` at position `2n`, and `fieldId` of entry `i` at position `2n + 1 + i`;
the statement sent has that text; and the `try` block never leaves through the branch
`params.length === 0`. -/
theorem updateCustomValues_placeholders_match_params (s0 : Session) (comp_unique_id : String)
    (customFields : List ValueSpec) :
    placeholders (updateQuery customFields) = 3 * customFields.length + 1 ∧
      (updateParams comp_unique_id customFields).length = 3 * customFields.length + 1 ∧
      (∀ (i : Nat) (field : ValueSpec), customFields[i]? = some field →
        (updateParams comp_unique_id customFields)[2 * i]? = some (idParam field.fieldId) ∧
        (updateParams comp_unique_id customFields)[2 * i + 1]? =
          some (valueParam field.fieldValue) ∧
        (updateParams comp_unique_id customFields)[2 * customFields.length + 1 + i]? =
          some (idParam field.fieldId)) ∧
      (updateParams comp_unique_id customFields)[2 * customFields.length]? =
        some (.str comp_unique_id) ∧
      (∀ whens, whensOf customFields = some whens →
        (Stmt.updateValuesCase whens comp_unique_id (whens.map (fun w => w.1))).text =
          updateQuery customFields) ∧
      (∀ r, (updateCustomValuesWrite s0 comp_unique_id customFields).1 ≠ .returned r) := by
  refine ⟨placeholders_updateQuery customFields, updateParams_length _ _, ?_, ?_,
    text_updateValuesCase _ _, updateCustomValuesWrite_not_returned _ _ _⟩
  · intro i field hi
    have hpair := flatMap_pair_get (fun f : ValueSpec => idParam f.fieldId)
      (fun f => valueParam f.fieldValue)
      ([.str comp_unique_id] ++ customFields.map (fun f => idParam f.fieldId))
      customFields i field hi
    have hlen := flatMap_pair_length customFields (fun f : ValueSpec => idParam f.fieldId)
      (fun f => valueParam f.fieldValue)
    refine ⟨?_, ?_, ?_⟩
    · simpa [updateParams, List.append_assoc] using hpair.1
    · simpa [updateParams, List.append_assoc] using hpair.2
    · have hlt : i < customFields.length := by
        rcases Nat.lt_or_ge i customFields.length with h | h
        · exact h
        · rw [List.getElem?_eq_none h] at hi
          exact absurd hi (by simp)
      rw [updateParams, List.getElem?_append_right (by simp [hlen])]
      simp only [List.length_append, hlen, List.length_cons, List.length_nil]
      have e : 2 * customFields.length + 1 + i - (2 * customFields.length + (0 + 1)) = i := by
        omega
      rw [e, List.getElem?_map, hi]
      rfl
  · have hlen := flatMap_pair_length customFields (fun f : ValueSpec => idParam f.fieldId)
      (fun f => valueParam f.fieldValue)
    rw [updateParams, List.append_assoc, List.getElem?_append_right (by rw [hlen])]
    simp [hlen]

theorem updateCustomValues_placeholders_match_params_witness :
    (updateParams "CUST-001" [⟨some 4, .str "EMEA"⟩, ⟨some 5, .null⟩])[2 * 1]? =
        some (idParam (some 5)) ∧
      (updateParams "CUST-001" [⟨some 4, .str "EMEA"⟩, ⟨some 5, .null⟩])[2 * 1 + 1]? =
        some (valueParam .null) ∧
      (updateParams "CUST-001" [⟨some 4, .str "EMEA"⟩, ⟨some 5, .null⟩])[2 *
          [(⟨some 4, .str "EMEA"⟩ : ValueSpec), ⟨some 5, .null⟩].length + 1 + 1]? =
        some (idParam (some 5)) :=
  (updateCustomValues_placeholders_match_params sampleCrmSession "CUST-001"
    [⟨some 4, .str "EMEA"⟩, ⟨some 5, .null⟩]).2.2.1 1 ⟨some 5, .null⟩ (by decide)

/-! ## The replies of `updateCustomValues` -/

theorem getCustomersWithCustomFields_replies (env : Server) :
    (getCustomersWithCustomFields env).replies ≠ [] ∧
      ∀ r ∈ (getCustomersWithCustomFields env).replies, r.isUpdated = false := by
  rcases env with ⟨db, connectError, faults⟩
  cases connectError with
  | some e => simp [getCustomersWithCustomFields, connectDB, Reply.isUpdated]
  | none =>
      simp only [getCustomersWithCustomFields, connectDB]
      rcases (Session.issue ⟨db, db, false, false, [], faults⟩ (.execute .selectJoined)) with
        ⟨e1, s1⟩
      rcases s1.issue .endConnection with ⟨e2, s2⟩
      cases e1 <;> cases e2 <;> simp [Reply.isUpdated]

theorem updateCustomValuesCatch_replies (message : String) (s : Session) (sent : List Reply)
    (others : List Session) (h : ∀ r ∈ sent, r.isUpdated = false) :
    ∀ r ∈ (updateCustomValuesCatch message s sent others).replies, r.isUpdated = false := by
  unfold updateCustomValuesCatch
  split
  · split <;> exact h
  · split
    · split <;> exact h
    · next sent1 hsent =>
        have hs : ∀ r ∈ sent1, r.isUpdated = false := by
          cases sent with
          | nil =>
              simp only [sendReply, Except.ok.injEq] at hsent
              subst hsent
              simp [updateValuesFailed, Reply.isUpdated]
          | cons r0 rs => simp [sendReply] at hsent
        split <;> exact hs

/-- C24: a request that changes the value of field 1 of `CUST-001` to `EMEA` is committed
and answered once, by the nested `getCustomersWithCustomFields` call: the body is the
bare list of customers, without `message` and `updatedCount`; the reply that
`updateCustomValues` builds afterwards is not sent, the error of sending it escapes the
handler. No request is ever answered with that reply. -/
theorem updateCustomValues_success_reply_not_sent :
    (updateCustomValues sampleRegionServer sampleRegionServer (.str "CUST-001")
        (some [⟨some 1, .str "EMEA"⟩])).replies =
      [⟨200, .customers [⟨1, some "Ann", some "Lee", [⟨"Region", "EMEA"⟩],
        ⟨none, none, some "1990-01-01", none, none, some "CUST-001", some "customer", none,
          none, none, none, some "Region", some "EMEA"⟩⟩]⟩] ∧
      (updateCustomValues sampleRegionServer sampleRegionServer (.str "CUST-001")
        (some [⟨some 1, .str "EMEA"⟩])).uncaught = some headersSentError ∧
      (updateCustomValues sampleRegionServer sampleRegionServer (.str "CUST-001")
        (some [⟨some 1, .str "EMEA"⟩])).conns.map Session.log =
          [[.beginTransaction,
            .execute (.updateValuesCase [(1, some "EMEA")] "CUST-001" [1]),
            .commit, .rollback, .endConnection],
           [.execute .selectJoined, .endConnection]] ∧
      (updateCustomValues sampleRegionServer sampleRegionServer (.str "CUST-001")
        (some [⟨some 1, .str "EMEA"⟩])).conns.map
          (fun s => s.durable.custom_field_values) =
          [[⟨"CUST-001", 1, some "EMEA"⟩], [⟨"CUST-001", 1, some "EMEA"⟩]] ∧
      ∀ (env second : Server) (comp_unique_id : JsVal)
        (customFields : Option (List ValueSpec)),
        ((updateCustomValues env second comp_unique_id customFields).replies.any
          Reply.isUpdated) = false := by
  refine ⟨by decide, by decide, by decide, by decide, ?_⟩
  intro env second comp_unique_id customFields
  rw [List.any_eq_false]
  intro r hr
  rw [Bool.not_eq_true]
  revert r
  unfold updateCustomValues
  simp only
  split
  · next cid field fields =>
      split
      · simp [Reply.isUpdated]
      · cases hc : connectDB env with
        | error e => simp [updateValuesFailed, Reply.isUpdated]
        | ok s0 =>
            simp only
            rcases hw : updateCustomValuesWrite s0 cid (field :: fields) with ⟨w, s1⟩
            have hinner := getCustomersWithCustomFields_replies
              ⟨s1.durable, second.connectError, second.faults⟩
            cases w with
            | threw e => exact updateCustomValuesCatch_replies e s1 [] [] (by simp)
            | returned r0 =>
                exact absurd (congrArg Prod.fst hw)
                  (updateCustomValuesWrite_not_returned _ _ _ r0)
            | committed n =>
                simp only
                split
                · exact updateCustomValuesCatch_replies _ s1 _ _ hinner.2
                · split
                  · exact updateCustomValuesCatch_replies _ s1 _ _ hinner.2
                  · next sent hsent =>
                      exfalso
                      revert hsent
                      cases hr : (getCustomersWithCustomFields
                        ⟨s1.durable, second.connectError, second.faults⟩).replies with
                      | nil => exact absurd hr hinner.1
                      | cons a as => simp [sendReply]
  · simp [Reply.isUpdated]

/-! ## Runs that differ in an error message -/

theorem sameText_refl (m m' e : String) : sameText m m' e e := Or.inl rfl

theorem sameError_refl (m m' : String) (e : Option String) : sameError m m' e e := by
  cases e with
  | none => trivial
  | some e => exact sameText_refl m m' e

theorem sameFaults_lookup (m m' : String) (n : Nat) (f : List (Nat × String)) :
    ∀ f', sameFaults m m' f f' → sameError m m' (f.lookup n) (f'.lookup n) := by
  induction f with
  | nil =>
      intro f' h
      cases h
      trivial
  | cons p l ih =>
      intro f' h
      cases h with
      | cons hp hl =>
          rename_i p' l'
          rcases p with ⟨k, e⟩
          rcases p' with ⟨k', e'⟩
          simp only at hp
          obtain ⟨hk, he⟩ := hp
          subst hk
          simp only [List.lookup_cons]
          by_cases hn : n = k
          · subst hn
            simpa [sameError] using he
          · have : (n == k) = false := by simpa using hn
            simpa [this] using ih l' hl

theorem Session.apply_faults (s : Session) (c : Cmd) (f' : List (Nat × String)) :
    ({ s with faults := f' } : Session).apply c =
      ((s.apply c).1, { (s.apply c).2 with faults := f' }) := by
  cases c with
  | execute st =>
      simp only [Session.apply]
      split
      · split <;> rfl
      · split <;> rfl
  | _ => rfl

theorem Session.issue_alike (m m' : String) (s s' : Session) (c : Cmd)
    (h : Session.Alike m m' s s') :
    sameError m m' (s.issue c).1 (s'.issue c).1 ∧
      Session.Alike m m' (s.issue c).2 (s'.issue c).2 := by
  obtain ⟨hf, hs⟩ := h
  rcases s with ⟨d, v, t, cl, l, f⟩
  rcases s' with ⟨d', v', t', cl', l', f'⟩
  simp only [Session.mk.injEq] at hs
  obtain ⟨rfl, rfl, rfl, rfl, rfl, -⟩ := hs
  simp only at hf
  have hl := sameFaults_lookup m m' l'.length f f' hf
  unfold Session.issue
  cases cl' with
  | true => exact ⟨sameText_refl _ _ _, hf, rfl⟩
  | false =>
      simp only [Session.fault, Bool.false_eq_true, if_false]
      cases h1 : f.lookup l'.length with
      | some e =>
          cases h2 : f'.lookup l'.length with
          | some e' =>
              rw [h1, h2] at hl
              exact ⟨hl, hf, rfl⟩
          | none => rw [h1, h2] at hl; exact absurd hl (by simp [sameError])
      | none =>
          cases h2 : f'.lookup l'.length with
          | some e' => rw [h1, h2] at hl; exact absurd hl (by simp [sameError])
          | none =>
              have ha := Session.apply_faults ⟨d', v', t', false, l', f⟩ c f'
              simp only at ha
              simp only [ha]
              refine ⟨sameError_refl _ _ _, ?_, ?_⟩
              · have : (Session.apply ⟨d', v', t', false, l', f⟩ c).2.faults = f := by
                  cases c with
                  | execute st =>
                      simp only [Session.apply]
                      split
                      · split <;> rfl
                      · split <;> rfl
                  | _ => rfl
                simpa [this] using hf
              · rfl

theorem Session.Alike.view {m m' : String} {s s' : Session} (h : Session.Alike m m' s s') :
    s'.view = s.view := by
  rw [h.2]

theorem Session.Alike.durable {m m' : String} {s s' : Session}
    (h : Session.Alike m m' s s') : s'.durable = s.durable := by
  rw [h.2]

theorem columnExists_alike (m m' : String) (s s' : Session) (columnName : String)
    (h : Session.Alike m m' s s') :
    sameExcept m m' (columnExists s columnName).1 (columnExists s' columnName).1 ∧
      Session.Alike m m' (columnExists s columnName).2 (columnExists s' columnName).2 := by
  have hi := Session.issue_alike m m' s s' (.execute (.selectColumn columnName)) h
  unfold columnExists
  rcases hr : s.issue (.execute (.selectColumn columnName)) with ⟨e, s1⟩
  rcases hr' : s'.issue (.execute (.selectColumn columnName)) with ⟨e', s1'⟩
  rw [hr, hr'] at hi
  obtain ⟨he, hs⟩ := hi
  cases e <;> cases e' <;> simp only [sameError] at he
  · have hv : s1'.view = s1.view := hs.view
    exact ⟨by simp only [sameExcept, hv], hs⟩
  · exact ⟨he, hs⟩

theorem insertCustomField_alike (m m' : String) (s s' : Session) (fieldName fieldType : JsVal)
    (dropdownOptions : Option (List String)) (h : Session.Alike m m' s s') :
    sameError m m' (insertCustomField s fieldName fieldType dropdownOptions).1
        (insertCustomField s' fieldName fieldType dropdownOptions).1 ∧
      Session.Alike m m' (insertCustomField s fieldName fieldType dropdownOptions).2
        (insertCustomField s' fieldName fieldType dropdownOptions).2 := by
  unfold insertCustomField
  simp only
  split
  · exact ⟨sameText_refl _ _ _, h⟩
  · exact Session.issue_alike m m' s s' _ h

theorem addColumnToCustomers_alike (m m' : String) (s s' : Session)
    (fieldName fieldType : JsVal) (h : Session.Alike m m' s s') :
    sameError m m' (addColumnToCustomers s fieldName fieldType).1
        (addColumnToCustomers s' fieldName fieldType).1 ∧
      Session.Alike m m' (addColumnToCustomers s fieldName fieldType).2
        (addColumnToCustomers s' fieldName fieldType).2 := by
  unfold addColumnToCustomers
  split
  · exact ⟨sameText_refl _ _ _, h⟩
  · split
    · exact ⟨sameText_refl _ _ _, h⟩
    · exact Session.issue_alike m m' s s' _ h

theorem addCustomFieldEntry_alike (m m' : String) (s s' : Session) (field : FieldSpec)
    (h : Session.Alike m m' s s') :
    sameExit m m' (addCustomFieldEntry s field).1 (addCustomFieldEntry s' field).1 ∧
      Session.Alike m m' (addCustomFieldEntry s field).2 (addCustomFieldEntry s' field).2 := by
  unfold addCustomFieldEntry
  split
  · exact ⟨rfl, h⟩
  · split
    · exact ⟨rfl, h⟩
    · have hc := columnExists_alike m m' s s' field.fieldName.toString h
      rcases hr : columnExists s field.fieldName.toString with ⟨x, s1⟩
      rcases hr' : columnExists s' field.fieldName.toString with ⟨x', s1'⟩
      rw [hr, hr'] at hc
      obtain ⟨hx, hs1⟩ := hc
      cases x with
      | error e =>
          cases x' with
          | error e' => exact ⟨hx, hs1⟩
          | ok b' => exact absurd hx (by simp [sameExcept])
      | ok b =>
          cases x' with
          | error e' => exact absurd hx (by simp [sameExcept])
          | ok b' =>
              simp only [sameExcept] at hx
              subst hx
              cases b with
              | true => exact ⟨rfl, hs1⟩
              | false =>
                  simp only
                  have hi := insertCustomField_alike m m' s1 s1' field.fieldName
                    field.fieldType field.dropdownOptions hs1
                  rcases hq : insertCustomField s1 field.fieldName field.fieldType
                    field.dropdownOptions with ⟨e, s2⟩
                  rcases hq' : insertCustomField s1' field.fieldName field.fieldType
                    field.dropdownOptions with ⟨e', s2'⟩
                  rw [hq, hq'] at hi
                  obtain ⟨he, hs2⟩ := hi
                  cases e <;> cases e' <;> simp only [sameError] at he
                  · simp only
                    have ha := addColumnToCustomers_alike m m' s2 s2' field.fieldName
                      field.fieldType hs2
                    rcases hp : addColumnToCustomers s2 field.fieldName field.fieldType with
                      ⟨e3, s3⟩
                    rcases hp' : addColumnToCustomers s2' field.fieldName field.fieldType with
                      ⟨e3', s3'⟩
                    rw [hp, hp'] at ha
                    obtain ⟨he3, hs3⟩ := ha
                    cases e3 <;> cases e3' <;> simp only [sameError] at he3
                    · exact ⟨trivial, hs3⟩
                    · exact ⟨he3, hs3⟩
                  · exact ⟨he, hs2⟩

theorem connectDB_alike (m m' : String) (env env' : Server) (h : Server.Alike m m' env env') :
    (∃ e, connectDB env = .error e ∧ connectDB env' = .error e) ∨
      (∃ s s', connectDB env = .ok s ∧ connectDB env' = .ok s' ∧ Session.Alike m m' s s') := by
  rcases env with ⟨db, ce, f⟩
  rcases env' with ⟨db', ce', f'⟩
  obtain ⟨hdb, hce, hf⟩ := h
  simp only at hdb hce hf
  subst hdb hce
  cases ce with
  | some e => exact Or.inl ⟨e, rfl, rfl⟩
  | none => exact Or.inr ⟨_, _, rfl, rfl, hf, rfl⟩

theorem addCustomFieldLoop_alike (m m' : String) (fields : List FieldSpec) :
    ∀ s s', Session.Alike m m' s s' →
      sameExit m m' (addCustomFieldLoop s fields).1 (addCustomFieldLoop s' fields).1 ∧
        Session.Alike m m' (addCustomFieldLoop s fields).2 (addCustomFieldLoop s' fields).2 := by
  induction fields with
  | nil => intro s s' h; exact ⟨trivial, h⟩
  | cons field rest ih =>
      intro s s' h
      have he := addCustomFieldEntry_alike m m' s s' field h
      unfold addCustomFieldLoop
      rcases hr : addCustomFieldEntry s field with ⟨x, s1⟩
      rcases hr' : addCustomFieldEntry s' field with ⟨x', s1'⟩
      rw [hr, hr'] at he
      obtain ⟨hx, hs1⟩ := he
      cases x <;> cases x' <;> simp only [sameExit] at hx
      · exact ih s1 s1' hs1
      · exact ⟨hx, hs1⟩
      · exact ⟨hx, hs1⟩

theorem addCustomFieldTry_alike (m m' : String) (fields : List FieldSpec) (s s' : Session)
    (h : Session.Alike m m' s s') :
    sameExit m m' (addCustomFieldTry s fields).1 (addCustomFieldTry s' fields).1 ∧
      Session.Alike m m' (addCustomFieldTry s fields).2 (addCustomFieldTry s' fields).2 := by
  have hb := Session.issue_alike m m' s s' .beginTransaction h
  unfold addCustomFieldTry
  rcases hr : s.issue .beginTransaction with ⟨e, s1⟩
  rcases hr' : s'.issue .beginTransaction with ⟨e', s1'⟩
  rw [hr, hr'] at hb
  obtain ⟨he, hs1⟩ := hb
  cases e <;> cases e' <;> simp only [sameError] at he
  · simp only
    have hl := addCustomFieldLoop_alike m m' fields s1 s1' hs1
    rcases hq : addCustomFieldLoop s1 fields with ⟨x, s2⟩
    rcases hq' : addCustomFieldLoop s1' fields with ⟨x', s2'⟩
    rw [hq, hq'] at hl
    obtain ⟨hx, hs2⟩ := hl
    cases x <;> cases x' <;> simp only [sameExit] at hx
    · simp only
      have hc := Session.issue_alike m m' s2 s2' .commit hs2
      rcases hp : s2.issue .commit with ⟨e3, s3⟩
      rcases hp' : s2'.issue .commit with ⟨e3', s3'⟩
      rw [hp, hp'] at hc
      obtain ⟨he3, hs3⟩ := hc
      cases e3 <;> cases e3' <;> simp only [sameError] at he3
      · exact ⟨rfl, hs3⟩
      · exact ⟨he3, hs3⟩
    · exact ⟨hx, hs2⟩
    · exact ⟨hx, hs2⟩
  · exact ⟨he, hs1⟩

theorem finallyEnd_responses (responses : List Response) (uncaught : Option String)
    (s : Session) : (finallyEnd responses uncaught s).responses = responses := by
  unfold finallyEnd
  split <;> rfl

theorem addCustomField_alike (m m' : String) (env env' : Server)
    (formFields : Option (List FieldSpec)) (h : Server.Alike m m' env env') :
    List.Forall₂ (alikeVia addFieldFailed m m') (addCustomField env formFields).responses
      (addCustomField env' formFields).responses := by
  have hrefl : ∀ l : List Response, List.Forall₂ (alikeVia addFieldFailed m m') l l := by
    intro l
    induction l with
    | nil => exact .nil
    | cons a l ih => exact .cons (Or.inl rfl) ih
  rcases formFields with _ | _ | ⟨field, rest⟩
  · exact hrefl _
  · exact hrefl _
  · unfold addCustomField
    simp only
    generalize field :: rest = fields
    rcases connectDB_alike m m' env env' h with ⟨e, h1, h2⟩ | ⟨s, s', h1, h2, hs⟩
    · rw [h1, h2]
      exact hrefl _
    · rw [h1, h2]
      simp only
      have ht := addCustomFieldTry_alike m m' fields s s' hs
      rcases hr : addCustomFieldTry s fields with ⟨x, s1⟩
      rcases hr' : addCustomFieldTry s' fields with ⟨x', s1'⟩
      rw [hr, hr'] at ht
      obtain ⟨hx, hs1⟩ := ht
      cases x <;> cases x' <;> simp only [sameExit] at hx
      · simp only [finallyEnd_responses]
        exact .nil
      · subst hx
        simp only [finallyEnd_responses]
        exact hrefl _
      · simp only
        have hb := Session.issue_alike m m' s1 s1' .rollback hs1
        rcases hp : s1.issue .rollback with ⟨e2, s2⟩
        rcases hp' : s1'.issue .rollback with ⟨e2', s2'⟩
        rw [hp, hp'] at hb
        obtain ⟨he2, hs2⟩ := hb
        cases e2 <;> cases e2' <;> simp only [sameError] at he2
        · simp only [finallyEnd_responses]
          refine .cons ?_ .nil
          rcases hx with rfl | ⟨rfl, rfl⟩
          · exact Or.inl rfl
          · exact Or.inr ⟨rfl, rfl⟩
        · simp only [finallyEnd_responses]
          exact .nil

theorem forall₂_refl_of {α : Type} (R : α → α → Prop) (h : ∀ a, R a a) (l : List α) :
    List.Forall₂ R l l := by
  induction l with
  | nil => exact .nil
  | cons a l ih => exact .cons (h a) ih

theorem queue_alike_append (m m' : String) (q q' r r' : List (Cmd × Waiting))
    (h : List.Forall₂ (fun q q' => q.1 = q'.1 ∧ Waiting.Alike m m' q.2 q'.2) q q')
    (hr : List.Forall₂ (fun q q' => q.1 = q'.1 ∧ Waiting.Alike m m' q.2 q'.2) r r') :
    List.Forall₂ (fun q q' => q.1 = q'.1 ∧ Waiting.Alike m m' q.2 q'.2) (q ++ r) (q' ++ r') :=
  List.rel_append h hr

theorem queue_alike_snoc (m m' : String) (q q' : List (Cmd × Waiting)) (c : Cmd) (w : Waiting)
    (h : List.Forall₂ (fun q q' => q.1 = q'.1 ∧ Waiting.Alike m m' q.2 q'.2) q q') :
    List.Forall₂ (fun q q' => q.1 = q'.1 ∧ Waiting.Alike m m' q.2 q'.2) (q ++ [(c, w)])
      (q' ++ [(c, w)]) :=
  queue_alike_append m m' q q' _ _ h (.cons ⟨rfl, Or.inl rfl⟩ .nil)

theorem queue_alike_rollback (m m' : String) (q q' : List (Cmd × Waiting)) (e e' : String)
    (he : sameText m m' e e')
    (h : List.Forall₂ (fun q q' => q.1 = q'.1 ∧ Waiting.Alike m m' q.2 q'.2) q q') :
    List.Forall₂ (fun q q' => q.1 = q'.1 ∧ Waiting.Alike m m' q.2 q'.2)
      (q ++ [(.rollback, .rollbackDone e)]) (q' ++ [(.rollback, .rollbackDone e')]) :=
  queue_alike_append m m' q q' _ _ h (.cons ⟨rfl, Or.inr ⟨e, e', he, rfl, rfl⟩⟩ .nil)

theorem EventLoop.resolve_alike (m m' : String) (st st' : EventLoop)
    (h : EventLoop.Alike m m' st st') : EventLoop.Alike m m' st.resolve st'.resolve := by
  obtain ⟨hc, hq, hp, hs, hr⟩ := h
  unfold EventLoop.resolve
  rw [← hs, ← hp]
  split
  · exact ⟨hc, hq, hp, hs, hr⟩
  · split
    · exact ⟨hc, queue_alike_snoc m m' _ _ _ _ hq, rfl, rfl, hr⟩
    · exact ⟨hc, hq, rfl, rfl, hr⟩

theorem EventLoop.reject_alike (m m' : String) (st st' : EventLoop) (e e' : String)
    (he : sameText m m' e e') (h : EventLoop.Alike m m' st st') :
    EventLoop.Alike m m' (st.reject e) (st'.reject e') := by
  obtain ⟨hc, hq, hp, hs, hr⟩ := h
  unfold EventLoop.reject
  rw [← hs]
  split
  · exact ⟨hc, hq, hp, hs, hr⟩
  · exact ⟨hc, queue_alike_rollback m m' _ _ e e' he hq, hp, rfl, hr⟩

theorem failureResponse_alike (m m' e e' : String) (he : sameText m m' e e') :
    alikeVia failureResponse m m' (failureResponse e) (failureResponse e') := by
  rcases he with rfl | ⟨rfl, rfl⟩
  · exact Or.inl rfl
  · exact Or.inr ⟨rfl, rfl⟩

theorem EventLoop.step_alike (m m' : String) (comp_unique_id : String) (st st' : EventLoop)
    (h : EventLoop.Alike m m' st st') :
    EventLoop.Alike m m' (st.step comp_unique_id) (st'.step comp_unique_id) := by
  rcases st with ⟨conn, queue, pending, settled, responses, uncaught⟩
  rcases st' with ⟨conn', queue', pending', settled', responses', uncaught'⟩
  obtain ⟨hc, hq, hp, hs, hr⟩ := h
  simp only at hc hq hp hs hr
  subst hp hs
  cases hq with
  | nil => exact ⟨hc, .nil, rfl, rfl, hr⟩
  | cons hhead hrest =>
      rename_i q q' rest rest'
      rcases q with ⟨c, w⟩
      rcases q' with ⟨c', w'⟩
      simp only at hhead
      obtain ⟨hcmd, hw⟩ := hhead
      subst hcmd
      have hi := Session.issue_alike m m' conn conn' c hc
      simp only [EventLoop.step]
      rcases hx : conn.issue c with ⟨e, s1⟩
      rcases hx' : conn'.issue c with ⟨e', s1'⟩
      rw [hx, hx'] at hi
      obtain ⟨he, hs1⟩ := hi
      simp only at he hs1
      have hst1 : EventLoop.Alike m m' ⟨s1, rest, pending, settled, responses, uncaught⟩
          ⟨s1', rest', pending, settled, responses', uncaught'⟩ := ⟨hs1, hrest, rfl, rfl, hr⟩
      have hv : s1'.view = s1.view := hs1.view
      rcases hw with rfl | ⟨x, x', hxx, rfl, rfl⟩
      · cases w with
        | checkDone fieldId fieldValue =>
            cases e <;> cases e' <;> simp only [sameError] at he
            · simp only [hv]
              split
              · exact EventLoop.resolve_alike m m' _ _ hst1
              · exact ⟨hs1, queue_alike_snoc m m' _ _ _ _ hrest, rfl, rfl, hr⟩
            · exact EventLoop.reject_alike m m' _ _ _ _ (sameText_refl _ _ _) hst1
        | insertDone =>
            cases e <;> cases e' <;> simp only [sameError] at he
            · exact EventLoop.resolve_alike m m' _ _ hst1
            · exact EventLoop.reject_alike m m' _ _ _ _ he hst1
        | commitDone =>
            cases e <;> cases e' <;> simp only [sameError] at he
            · exact ⟨hs1, queue_alike_snoc m m' _ _ _ _ hrest, rfl, rfl,
                List.rel_append hr (.cons (Or.inl rfl) .nil)⟩
            · exact ⟨hs1, queue_alike_rollback m m' _ _ _ _ he hrest, rfl, rfl, hr⟩
        | rollbackDone message =>
            cases e <;> cases e' <;> simp only [sameError] at he
            · exact ⟨hs1, queue_alike_snoc m m' _ _ _ _ hrest, rfl, rfl,
                List.rel_append hr (.cons (Or.inl rfl) .nil)⟩
            · exact ⟨hs1, queue_alike_snoc m m' _ _ _ _ hrest, rfl, rfl, hr⟩
        | endDone =>
            cases e <;> cases e' <;> simp only [sameError] at he
            · exact hst1
            · exact hst1
      · cases e <;> cases e' <;> simp only [sameError] at he
        · exact ⟨hs1, queue_alike_snoc m m' _ _ _ _ hrest, rfl, rfl,
            List.rel_append hr (.cons (failureResponse_alike m m' x x' hxx) .nil)⟩
        · exact ⟨hs1, queue_alike_snoc m m' _ _ _ _ hrest, rfl, rfl, hr⟩

theorem EventLoop.run_alike (m m' : String) (comp_unique_id : String) (fuel : Nat) :
    ∀ st st', EventLoop.Alike m m' st st' →
      EventLoop.Alike m m' (EventLoop.run comp_unique_id fuel st)
        (EventLoop.run comp_unique_id fuel st') := by
  induction fuel with
  | zero => intro st st' h; exact h
  | succ n ih =>
      intro st st' h
      exact ih _ _ (EventLoop.step_alike m m' comp_unique_id st st' h)

theorem afterMap_alike (m m' : String) (comp_unique_id : String) (customFields : List ValueSpec)
    (s s' : Session) (h : Session.Alike m m' s s') :
    EventLoop.Alike m m' (afterMap s comp_unique_id customFields)
      (afterMap s' comp_unique_id customFields) := by
  unfold afterMap
  simp only
  split
  · exact ⟨h, forall₂_refl_of _ (fun q => ⟨rfl, Or.inl rfl⟩) _, rfl, rfl, .nil⟩
  · exact ⟨h, forall₂_refl_of _ (fun q => ⟨rfl, Or.inl rfl⟩) _, rfl, rfl, .nil⟩

theorem addCustomValuesLoop_alike (m m' : String) (comp_unique_id : String)
    (customFields : List ValueSpec) (s s' : Session) (h : Session.Alike m m' s s') :
    EventLoop.Alike m m' (addCustomValuesLoop s comp_unique_id customFields)
      (addCustomValuesLoop s' comp_unique_id customFields) := by
  have hb := Session.issue_alike m m' s s' .beginTransaction h
  unfold addCustomValuesLoop
  rcases hr : s.issue .beginTransaction with ⟨e, s1⟩
  rcases hr' : s'.issue .beginTransaction with ⟨e', s1'⟩
  rw [hr, hr'] at hb
  obtain ⟨he, hs1⟩ := hb
  cases e <;> cases e' <;> simp only [sameError] at he
  · exact EventLoop.run_alike m m' _ _ _ _ (afterMap_alike m m' _ _ s1 s1' hs1)
  · exact EventLoop.run_alike m m' _ _ _ _
      ⟨hs1, .cons ⟨rfl, Or.inr ⟨_, _, he, rfl, rfl⟩⟩ .nil, rfl, rfl, .nil⟩

theorem addCustomValues_alike (m m' : String) (env env' : Server) (comp_unique_id : String)
    (customFields : Option (List ValueSpec)) (h : Server.Alike m m' env env') :
    List.Forall₂ (alikeVia failureResponse m m')
      (addCustomValues env comp_unique_id customFields).responses
      (addCustomValues env' comp_unique_id customFields).responses := by
  have hrefl : ∀ l : List Response, List.Forall₂ (alikeVia failureResponse m m') l l :=
    forall₂_refl_of _ (fun _ => Or.inl rfl)
  rcases customFields with _ | _ | ⟨field, rest⟩
  · exact hrefl _
  · exact hrefl _
  · unfold addCustomValues
    simp only
    generalize field :: rest = fields
    split
    · exact hrefl _
    · rcases connectDB_alike m m' env env' h with ⟨e, h1, h2⟩ | ⟨s, s', h1, h2, hs⟩
      · rw [h1, h2]
        exact hrefl _
      · rw [h1, h2]
        exact (addCustomValuesLoop_alike m m' comp_unique_id fields s s' hs).2.2.2.2

theorem updateCustomValuesWrite_alike (m m' : String) (comp_unique_id : String)
    (customFields : List ValueSpec) (s s' : Session) (h : Session.Alike m m' s s') :
    sameWritten m m' (updateCustomValuesWrite s comp_unique_id customFields).1
        (updateCustomValuesWrite s' comp_unique_id customFields).1 ∧
      Session.Alike m m' (updateCustomValuesWrite s comp_unique_id customFields).2
        (updateCustomValuesWrite s' comp_unique_id customFields).2 := by
  have hb := Session.issue_alike m m' s s' .beginTransaction h
  unfold updateCustomValuesWrite
  rcases hr : s.issue .beginTransaction with ⟨e, s1⟩
  rcases hr' : s'.issue .beginTransaction with ⟨e', s1'⟩
  rw [hr, hr'] at hb
  obtain ⟨he, hs1⟩ := hb
  simp only at he hs1
  cases e <;> cases e' <;> simp only [sameError] at he
  · simp only
    split
    · exact ⟨rfl, hs1⟩
    · split
      · exact ⟨sameText_refl _ _ _, hs1⟩
      · split
        · exact ⟨sameText_refl _ _ _, hs1⟩
        · next whens _ =>
            have hv : s1'.view = s1.view := hs1.view
            simp only [hv]
            have hu := Session.issue_alike m m' s1 s1'
              (.execute (.updateValuesCase whens comp_unique_id (whens.map (fun w => w.1)))) hs1
            rcases hq : s1.issue
              (.execute (.updateValuesCase whens comp_unique_id (whens.map (fun w => w.1)))) with
              ⟨e2, s2⟩
            rcases hq' : s1'.issue
              (.execute (.updateValuesCase whens comp_unique_id (whens.map (fun w => w.1)))) with
              ⟨e2', s2'⟩
            rw [hq, hq'] at hu
            obtain ⟨he2, hs2⟩ := hu
            simp only at he2 hs2
            cases e2 <;> cases e2' <;> simp only [sameError] at he2
            · have hc := Session.issue_alike m m' s2 s2' .commit hs2
              rcases hp : s2.issue .commit with ⟨e3, s3⟩
              rcases hp' : s2'.issue .commit with ⟨e3', s3'⟩
              rw [hp, hp'] at hc
              obtain ⟨he3, hs3⟩ := hc
              cases e3 <;> cases e3' <;> simp only [sameError] at he3
              · simp only [hq, hq', hp, hp']
                exact ⟨rfl, hs3⟩
              · simp only [hq, hq', hp, hp']
                exact ⟨he3, hs3⟩
            · simp only [hq, hq']
              exact ⟨he2, hs2⟩
  · exact ⟨he, hs1⟩

theorem getCustomersWithCustomFields_alike (m m' : String) (env env' : Server)
    (h : Server.Alike m m' env env') :
    (getCustomersWithCustomFields env).replies = (getCustomersWithCustomFields env').replies ∧
      sameError m m' (getCustomersWithCustomFields env).uncaught
        (getCustomersWithCustomFields env').uncaught := by
  unfold getCustomersWithCustomFields
  rcases connectDB_alike m m' env env' h with ⟨e, h1, h2⟩ | ⟨s, s', h1, h2, hs⟩
  · rw [h1, h2]
    exact ⟨rfl, trivial⟩
  · rw [h1, h2]
    simp only
    have hi := Session.issue_alike m m' s s' (.execute .selectJoined) hs
    rcases hq : s.issue (.execute .selectJoined) with ⟨e1, s1⟩
    rcases hq' : s'.issue (.execute .selectJoined) with ⟨e1', s1'⟩
    rw [hq, hq'] at hi
    obtain ⟨he1, hs1⟩ := hi
    simp only at he1 hs1
    have hv : s1'.view = s1.view := hs1.view
    have hend := Session.issue_alike m m' s1 s1' .endConnection hs1
    rcases hp : s1.issue .endConnection with ⟨e2, s2⟩
    rcases hp' : s1'.issue .endConnection with ⟨e2', s2'⟩
    rw [hp, hp'] at hend
    obtain ⟨he2, -⟩ := hend
    simp only at he2
    cases e1 <;> cases e1' <;> simp only [sameError] at he1 <;>
      cases e2 <;> cases e2' <;> simp only [sameError] at he2 <;>
      simp only [hq, hq', hp, hp', hv, true_and, sameError] <;> trivial

theorem updateValuesFailed_alike (m m' e e' : String) (he : sameText m m' e e') :
    alikeVia updateValuesFailed m m' (updateValuesFailed e) (updateValuesFailed e') := by
  rcases he with rfl | ⟨rfl, rfl⟩
  · exact Or.inl rfl
  · exact Or.inr ⟨rfl, rfl⟩

theorem updateCustomValuesCatch_alike (m m' : String) (e e' : String) (s s' : Session)
    (sent sent' : List Reply) (others others' : List Session) (he : sameText m m' e e')
    (hs : Session.Alike m m' s s')
    (hsent : List.Forall₂ (alikeVia updateValuesFailed m m') sent sent') :
    List.Forall₂ (alikeVia updateValuesFailed m m')
      (updateCustomValuesCatch e s sent others).replies
      (updateCustomValuesCatch e' s' sent' others').replies := by
  have hb := Session.issue_alike m m' s s' .rollback hs
  unfold updateCustomValuesCatch
  rcases hr : s.issue .rollback with ⟨e1, s1⟩
  rcases hr' : s'.issue .rollback with ⟨e1', s1'⟩
  rw [hr, hr'] at hb
  obtain ⟨he1, hs1⟩ := hb
  simp only at he1 hs1
  have hend := Session.issue_alike m m' s1 s1' .endConnection hs1
  rcases hp : s1.issue .endConnection with ⟨e2, s2⟩
  rcases hp' : s1'.issue .endConnection with ⟨e2', s2'⟩
  rw [hp, hp'] at hend
  obtain ⟨he2, -⟩ := hend
  simp only at he2
  cases e1 <;> cases e1' <;> simp only [sameError] at he1 <;>
    cases e2 <;> cases e2' <;> simp only [sameError] at he2
  · cases hsent with
    | nil =>
        simp only [sendReply, hp, hp']
        exact .cons (updateValuesFailed_alike m m' e e' he) .nil
    | cons h1 h2 =>
        simp only [sendReply, hp, hp']
        exact .cons h1 h2
  · cases hsent with
    | nil =>
        simp only [sendReply, hp, hp']
        exact .cons (updateValuesFailed_alike m m' e e' he) .nil
    | cons h1 h2 =>
        simp only [sendReply, hp, hp']
        exact .cons h1 h2
  · simp only [hp, hp']
    exact hsent
  · simp only [hp, hp']
    exact hsent

theorem updateCustomValues_alike (m m' : String) (env env' second second' : Server)
    (comp_unique_id : JsVal) (customFields : Option (List ValueSpec))
    (h : Server.Alike m m' env env') (hsecond : Server.Alike m m' second second') :
    List.Forall₂ (alikeVia updateValuesFailed m m')
      (updateCustomValues env second comp_unique_id customFields).replies
      (updateCustomValues env' second' comp_unique_id customFields).replies := by
  have hrefl : ∀ l : List Reply, List.Forall₂ (alikeVia updateValuesFailed m m') l l :=
    forall₂_refl_of _ (fun _ => Or.inl rfl)
  unfold updateCustomValues
  simp only
  split
  · next cid field fields =>
      split
      · exact hrefl _
      · rcases connectDB_alike m m' env env' h with ⟨e, h1, h2⟩ | ⟨s, s', h1, h2, hs⟩
        · rw [h1, h2]
          exact hrefl _
        · rw [h1, h2]
          simp only
          have hw := updateCustomValuesWrite_alike m m' cid (field :: fields) s s' hs
          rcases hr : updateCustomValuesWrite s cid (field :: fields) with ⟨w, s1⟩
          rcases hr' : updateCustomValuesWrite s' cid (field :: fields) with ⟨w', s1'⟩
          rw [hr, hr'] at hw
          obtain ⟨hww, hs1⟩ := hw
          simp only at hww hs1
          cases w <;> cases w' <;> simp only [sameWritten] at hww
          · exact updateCustomValuesCatch_alike m m' _ _ s1 s1' [] [] [] [] hww hs1 .nil
          · exact absurd (congrArg Prod.fst hr) (updateCustomValuesWrite_not_returned _ _ _ _)
          · subst hww
            simp only
            have hd : s1'.durable = s1.durable := hs1.durable
            have hinner := getCustomersWithCustomFields_alike m m'
              ⟨s1.durable, second.connectError, second.faults⟩
              ⟨s1'.durable, second'.connectError, second'.faults⟩ ⟨hd.symm, hsecond.2.1, hsecond.2.2⟩
            obtain ⟨hrep, hunc⟩ := hinner
            have hne := (getCustomersWithCustomFields_replies
              ⟨s1'.durable, second'.connectError, second'.faults⟩).1
            rw [← hrep]
            rw [← hrep] at hne
            cases hu : (getCustomersWithCustomFields
                ⟨s1.durable, second.connectError, second.faults⟩).uncaught with
            | some u =>
                cases hu' : (getCustomersWithCustomFields
                    ⟨s1'.durable, second'.connectError, second'.faults⟩).uncaught with
                | some u' =>
                    rw [hu, hu'] at hunc
                    exact updateCustomValuesCatch_alike m m' _ _ s1 s1' _ _ _ _ hunc hs1
                      (hrefl _)
                | none => rw [hu, hu'] at hunc; exact absurd hunc (by simp [sameError])
            | none =>
                cases hu' : (getCustomersWithCustomFields
                    ⟨s1'.durable, second'.connectError, second'.faults⟩).uncaught with
                | some u' => rw [hu, hu'] at hunc; exact absurd hunc (by simp [sameError])
                | none =>
                    simp only
                    cases hreplies : (getCustomersWithCustomFields
                        ⟨s1.durable, second.connectError, second.faults⟩).replies with
                    | nil => exact absurd hreplies hne
                    | cons a as =>
                        simp only [sendReply]
                        rw [← hreplies]
                        exact updateCustomValuesCatch_alike m m' _ _ s1 s1' _ _ _ _
                          (sameText_refl _ _ _) hs1 (hrefl _)
  · exact hrefl _

/-- C21, as the claim states it: two runs in which the same statement fails, with the
message `deadlockFound` in the one and `lockTimeout` in the other, are answered with
different bodies by each of the three handlers: the message of the database error is in
the response. -/
theorem failure_response_exposes_error_message :
    (addCustomField (failingServer sampleDb 2 deadlockFound)
        (some [⟨.str "Region", .str "text", none⟩])).responses =
      [⟨500, "Failed to add custom fields", some deadlockFound⟩] ∧
    (addCustomField (failingServer sampleDb 2 lockTimeout)
        (some [⟨.str "Region", .str "text", none⟩])).responses =
      [⟨500, "Failed to add custom fields", some lockTimeout⟩] ∧
    (addCustomValues (failingServer sampleDb 2 deadlockFound) "CUST-001"
        (some [⟨some 7, .str "gold"⟩])).responses = [⟨500, deadlockFound, none⟩] ∧
    (addCustomValues (failingServer sampleDb 2 lockTimeout) "CUST-001"
        (some [⟨some 7, .str "gold"⟩])).responses = [⟨500, lockTimeout, none⟩] ∧
    (updateCustomValues (failingServer sampleRegionDb 1 deadlockFound) sampleServer
        (.str "CUST-001") (some [⟨some 1, .str "EMEA"⟩])).replies =
      [⟨500, .message deadlockFound⟩] ∧
    (updateCustomValues (failingServer sampleRegionDb 1 lockTimeout) sampleServer
        (.str "CUST-001") (some [⟨some 1, .str "EMEA"⟩])).replies =
      [⟨500, .message lockTimeout⟩] ∧
    (addCustomField (failingServer sampleDb 2 deadlockFound)
        (some [⟨.str "Region", .str "text", none⟩])).responses ≠
      (addCustomField (failingServer sampleDb 2 lockTimeout)
        (some [⟨.str "Region", .str "text", none⟩])).responses ∧
    (addCustomValues (failingServer sampleDb 2 deadlockFound) "CUST-001"
        (some [⟨some 7, .str "gold"⟩])).responses ≠
      (addCustomValues (failingServer sampleDb 2 lockTimeout) "CUST-001"
        (some [⟨some 7, .str "gold"⟩])).responses ∧
    (updateCustomValues (failingServer sampleRegionDb 1 deadlockFound) sampleServer
        (.str "CUST-001") (some [⟨some 1, .str "EMEA"⟩])).replies ≠
      (updateCustomValues (failingServer sampleRegionDb 1 lockTimeout) sampleServer
        (.str "CUST-001") (some [⟨some 1, .str "EMEA"⟩])).replies := by
  decide

/-- C21, amended: for two runs that differ only in the messages of the errors the database
raises (`m` in the one run where the other has `m'`), each of the three handlers sends the
same number of responses, and responses at the same position are identical or are the
failure response made of `m` in the one run and of `m'` in the other: `message`
`Failed to add custom fields` with `error` the message for `addCustomField`, and `message`
the message itself (the fixed text when it is empty) for `addCustomValues` and
`updateCustomValues`. -/
theorem failure_response_differs_only_in_error_message (m m' : String)
    (env env' second second' : Server) (formFields : Option (List FieldSpec))
    (comp_unique_id : String) (customFields : Option (List ValueSpec)) (id : JsVal)
    (h : Server.Alike m m' env env') (hsecond : Server.Alike m m' second second') :
    List.Forall₂ (alikeVia addFieldFailed m m') (addCustomField env formFields).responses
        (addCustomField env' formFields).responses ∧
      List.Forall₂ (alikeVia failureResponse m m')
        (addCustomValues env comp_unique_id customFields).responses
        (addCustomValues env' comp_unique_id customFields).responses ∧
      List.Forall₂ (alikeVia updateValuesFailed m m')
        (updateCustomValues env second id customFields).replies
        (updateCustomValues env' second' id customFields).replies :=
  ⟨addCustomField_alike m m' env env' formFields h,
    addCustomValues_alike m m' env env' comp_unique_id customFields h,
    updateCustomValues_alike m m' env env' second second' id customFields h hsecond⟩

theorem failure_response_differs_only_in_error_message_witness :
    List.Forall₂ (alikeVia addFieldFailed deadlockFound lockTimeout)
        (addCustomField (failingServer sampleDb 2 deadlockFound)
          (some [⟨.str "Region", .str "text", none⟩])).responses
        (addCustomField (failingServer sampleDb 2 lockTimeout)
          (some [⟨.str "Region", .str "text", none⟩])).responses ∧
      List.Forall₂ (alikeVia failureResponse deadlockFound lockTimeout)
        (addCustomValues (failingServer sampleDb 2 deadlockFound) "CUST-001"
          (some [⟨some 7, .str "gold"⟩])).responses
        (addCustomValues (failingServer sampleDb 2 lockTimeout) "CUST-001"
          (some [⟨some 7, .str "gold"⟩])).responses ∧
      List.Forall₂ (alikeVia updateValuesFailed deadlockFound lockTimeout)
        (updateCustomValues (failingServer sampleDb 2 deadlockFound) sampleServer
          (.str "CUST-001") (some [⟨some 7, .str "gold"⟩])).replies
        (updateCustomValues (failingServer sampleDb 2 lockTimeout) sampleServer
          (.str "CUST-001") (some [⟨some 7, .str "gold"⟩])).replies :=
  failure_response_differs_only_in_error_message deadlockFound lockTimeout
    (failingServer sampleDb 2 deadlockFound) (failingServer sampleDb 2 lockTimeout)
    sampleServer sampleServer (some [⟨.str "Region", .str "text", none⟩]) "CUST-001"
    (some [⟨some 7, .str "gold"⟩]) (.str "CUST-001")
    ⟨rfl, rfl, .cons ⟨rfl, Or.inr ⟨rfl, rfl⟩⟩ .nil⟩
    ⟨rfl, rfl, .nil⟩

end Crm
